import Mathlib

/-!
# Unit converter: conversion functions, numeric parser and request handlers

A shallow embedding of `main.go`.  Go's `float64` is embedded as `F64`: a finite
value is carried as the rational number it denotes, and the IEEE special values
`±Inf` and `NaN` are kept.  The arithmetic operations `+ - * /` and the decimal
constants of the program round to the nearest `float64` as IEEE 754 prescribes
(53 significant bits, ties to even, gradual underflow, overflow to an infinity);
`F64.ofRat` is that rounding.  Two things are not carried: the sign of a zero, and the
rounding of `strconv.ParseFloat`, which is embedded with the exact value of the text it
reads (`round` and the handlers are stated over that value).
-/

namespace UnitConverter

/-! ## Numbers -/

/-- Values of Go's `float64`: a finite number, carried as the rational it denotes, an
infinity with its sign, or NaN. -/
inductive F64 where
  | fin (q : ℚ)
  | inf (neg : Bool)
  | nan
deriving DecidableEq

/-- Magnitudes from here on round to an infinity in `float64`: halfway between the
largest finite value and `2 ^ 1024`. -/
def overflowThreshold : ℚ := ((2 ^ 1024 - 2 ^ 970 : Nat) : ℚ)

/-- Go's `math.MaxFloat64`, the largest finite `float64`. -/
def MaxFloat64 : ℚ := ((2 ^ 1024 - 2 ^ 971 : Nat) : ℚ)

/-- A non-negative rational rounded to the nearest natural number, ties to even. -/
def roundHalfEven (q : ℚ) : Nat :=
  let n := (Rat.floor q).toNat
  let r := q - n
  if r < 1 / 2 then n
  else if 1 / 2 < r then n + 1
  else if n % 2 = 0 then n else n + 1

namespace F64

/-- The spacing of the `float64` values around a non-negative magnitude: `2 ^ (e - 52)`
where `2 ^ e` is the power of two at or below the magnitude, and `e` is `-1022` from the
subnormal range down. -/
def ulp (a : ℚ) : ℚ := (2 : ℚ) ^ (max (Int.log 2 a) (-1022) - 52)

/-- The `float64` nearest to a rational number, ties to even; a magnitude at or beyond
the overflow threshold gives an infinity. -/
def ofRat (q : ℚ) : F64 :=
  if overflowThreshold ≤ |q| then inf (decide (q < 0))
  else
    let m := roundHalfEven (|q| / ulp |q|)
    fin (if q < 0 then -(m * ulp |q|) else m * ulp |q|)

/-- Addition of `float64` values. -/
def add : F64 → F64 → F64
  | fin a, fin b => ofRat (a + b)
  | fin _, inf t => inf t
  | inf s, fin _ => inf s
  | inf s, inf t => if s = t then inf s else nan
  | _, _ => nan

/-- Subtraction of `float64` values. -/
def sub : F64 → F64 → F64
  | fin a, fin b => ofRat (a - b)
  | fin _, inf t => inf (!t)
  | inf s, fin _ => inf s
  | inf s, inf t => if s = t then nan else inf s
  | _, _ => nan

/-- Multiplication of `float64` values. -/
def mul : F64 → F64 → F64
  | fin a, fin b => ofRat (a * b)
  | fin a, inf t => if a = 0 then nan else inf (xor (decide (a < 0)) t)
  | inf s, fin b => if b = 0 then nan else inf (xor s (decide (b < 0)))
  | inf s, inf t => inf (xor s t)
  | _, _ => nan

/-- Division of `float64` values. -/
def div : F64 → F64 → F64
  | fin a, fin b =>
    if b = 0 then (if a = 0 then nan else inf (decide (a < 0))) else ofRat (a / b)
  | fin _, inf _ => fin 0
  | inf s, fin b => inf (xor s (decide (b < 0)))
  | _, _ => nan

instance : Add F64 := ⟨add⟩
instance : Sub F64 := ⟨sub⟩
instance : Mul F64 := ⟨mul⟩
instance : Div F64 := ⟨div⟩

/-- An integer constant; the integer constants of the program (0, 1, 5, 9, 32, 1000)
are `float64` values as they stand. -/
instance (n : Nat) : OfNat F64 n := ⟨fin n⟩

/-- A decimal constant such as `0.3048` is the `float64` nearest to it. -/
instance : OfScientific F64 := ⟨fun m s e => ofRat (OfScientific.ofScientific m s e)⟩

end F64

/-! ## Conversion tables -/

/-- The table `lengthToMeters`. -/
def lengthToMeters : List (String × F64) :=
  [("millimeter", 0.001),
   ("centimeter", 0.01),
   ("meter", 1),
   ("kilometer", 1000),
   ("inch", 0.0254),
   ("foot", 0.3048),
   ("yard", 0.9144),
   ("mile", 1609.344)]

/-- The list `lengthUnits`. -/
def lengthUnits : List String :=
  ["millimeter", "centimeter", "meter", "kilometer", "inch", "foot", "yard", "mile"]

/-- The table `weightToKg`. -/
def weightToKg : List (String × F64) :=
  [("milligram", 1e-6),
   ("gram", 1e-3),
   ("kilogram", 1),
   ("ounce", 0.028349523125),
   ("pound", 0.45359237)]

/-- The list `weightUnits`. -/
def weightUnits : List String :=
  ["milligram", "gram", "kilogram", "ounce", "pound"]

/-- The list `tempUnits`. -/
def tempUnits : List String := ["Celsius", "Fahrenheit", "Kelvin"]

/-- Go's two-result map index `v, ok := m[k]`. -/
def mapIndex (m : List (String × F64)) (k : String) : F64 × Bool :=
  match m.lookup k with
  | some v => (v, true)
  | none => (0, false)

/-! ## Converters -/

/-- The function `convertLength`. -/
def convertLength (val : F64) (src dst : String) : F64 × String :=
  let (fk, okF) := mapIndex lengthToMeters src
  let (tk, okT) := mapIndex lengthToMeters dst
  if !okF || !okT then
    (0, "Unsupported length unit.")
  else
    let meters := val * fk
    (meters / tk, "")

/-- The function `convertWeight`. -/
def convertWeight (val : F64) (src dst : String) : F64 × String :=
  let (fk, okF) := mapIndex weightToKg src
  let (tk, okT) := mapIndex weightToKg dst
  if !okF || !okT then
    (0, "Unsupported weight unit.")
  else
    let kg := val * fk
    (kg / tk, "")

/-- The function `toCelsius`. -/
def toCelsius (v : F64) (src : String) : F64 × String :=
  if src = "Celsius" then (v, "")
  else if src = "Fahrenheit" then ((v - 32) * 5 / 9, "")
  else if src = "Kelvin" then (v - 273.15, "")
  else (0, "Unsupported temperature unit.")

/-- The function `fromCelsius`. -/
def fromCelsius (c : F64) (dst : String) : F64 × String :=
  if dst = "Celsius" then (c, "")
  else if dst = "Fahrenheit" then (c * 9 / 5 + 32, "")
  else if dst = "Kelvin" then (c + 273.15, "")
  else (0, "Unsupported temperature unit.")

/-- The function `convertTemp`. -/
def convertTemp (val : F64) (src dst : String) : F64 × String :=
  let (c, err) := toCelsius val src
  if err ≠ "" then
    (0, err)
  else
    let (out, err2) := fromCelsius c dst
    if err2 ≠ "" then
      (0, err2)
    else
      (out, "")

/-- The to-Celsius formulas of the specification in exact rational arithmetic, against
which the rounded results of `toCelsius` are measured. -/
def exactToCelsius (x : ℚ) (u : String) : ℚ :=
  if u = "Celsius" then x
  else if u = "Fahrenheit" then (x - 32) * 5 / 9
  else if u = "Kelvin" then x - 273.15
  else 0

/-- The from-Celsius formulas of the specification in exact rational arithmetic, against
which the rounded results of `fromCelsius` are measured. -/
def exactFromCelsius (c : ℚ) (u : String) : ℚ :=
  if u = "Celsius" then c
  else if u = "Fahrenheit" then c * 9 / 5 + 32
  else if u = "Kelvin" then c + 273.15
  else 0

/-! ## The standard-library functions the program calls

`strings.TrimSpace`, `strings.ReplaceAll`, `strconv.ParseFloat` and
`strconv.FormatFloat` belong to Go's standard library.  They are embedded
here after their documented behaviour, following the structure of the
library's own code (`special`, `readFloat`, `underscoreOK`, `atof64`). -/

/-- Go's `unicode.IsSpace`. -/
def isSpace (c : Char) : Bool :=
  let n := c.toNat
  (0x09 ≤ n && n ≤ 0x0d) || n = 0x20 || n = 0x85 || n = 0xa0 || n = 0x1680 ||
  (0x2000 ≤ n && n ≤ 0x200a) || n = 0x2028 || n = 0x2029 || n = 0x202f ||
  n = 0x205f || n = 0x3000

/-- Go's `strings.TrimSpace`, on the characters of the text. -/
def trimSpaceChars (cs : List Char) : List Char :=
  ((cs.dropWhile isSpace).reverse.dropWhile isSpace).reverse

/-- Go's `strings.TrimSpace`. -/
def TrimSpace (s : String) : String := ⟨trimSpaceChars s.data⟩

/-- Go's `strings.ReplaceAll(s, ",", "")`: every comma is deleted. -/
def removeCommas (s : String) : String := ⟨s.data.filter (fun c => c ≠ ',')⟩

/-- The two errors `strconv.ParseFloat` reports. -/
inductive NumError where
  | ErrSyntax
  | ErrRange
deriving DecidableEq

/-- Whether the character is one of `0`..`9`. -/
def isDigit (c : Char) : Bool := 48 ≤ c.toNat && c.toNat ≤ 57

/-- The value of a decimal digit character. -/
def digitVal (c : Char) : Nat := c.toNat - 48

/-- Whether the character is one of `a`..`f` or `A`..`F`. -/
def isHexLetter (c : Char) : Bool :=
  (97 ≤ c.toNat && c.toNat ≤ 102) || (65 ≤ c.toNat && c.toNat ≤ 70)

/-- The value of a hexadecimal letter digit. -/
def hexLetterVal (c : Char) : Nat :=
  if 97 ≤ c.toNat then c.toNat - 97 + 10 else c.toNat - 65 + 10

/-- The characters that occur in the texts `strconv.ParseFloat` accepts, letters in either
case: digits, signs, the dot, the underscore, the hexadecimal digits and the letters of
`0x`, `e`, `p`, `inf`, `infinity` and `nan`. -/
def floatChar (c : Char) : Bool :=
  decide (c.toLower ∈ "0123456789+-._abcdefinptxy".data)

/-- Go's `commonPrefixLenIgnoreCase`; the second text is in lower case. -/
def commonPrefixLenIgnoreCase : List Char → List Char → Nat
  | c :: s, p :: ps => if c.toLower = p then commonPrefixLenIgnoreCase s ps + 1 else 0
  | _, _ => 0

/-- The `inf`/`infinity` case of Go's `special`, after the optional sign. -/
def specialInf (neg : Bool) (nsign : Nat) (s : List Char) : Option (F64 × Nat) :=
  let n := commonPrefixLenIgnoreCase s "infinity".data
  let n := if 3 < n ∧ n < 8 then 3 else n
  if n = 3 ∨ n = 8 then some (F64.inf neg, nsign + n) else none

/-- Go's `special`: the value and the length of a leading `inf`, `infinity` or `nan`. -/
def special (s : List Char) : Option (F64 × Nat) :=
  match s with
  | [] => none
  | c :: t =>
    if c = '+' ∨ c = '-' then specialInf (c = '-') 1 t
    else if c = 'i' ∨ c = 'I' then specialInf false 0 s
    else if c = 'n' ∨ c = 'N' then
      if commonPrefixLenIgnoreCase s "nan".data = 3 then some (F64.nan, 3) else none
    else none

/-- What the mantissa loop of `readFloat` has seen so far. -/
structure Mantissa where
  sawdot : Bool
  sawdigits : Bool
  underscores : Bool
  mant : Nat
  frac : Nat
deriving DecidableEq

/-- The digit loop of Go's `readFloat`: digits, at most one dot, underscores; the
mantissa is kept exactly, `frac` counts the digits after the dot. -/
def readMantissa (hex : Bool) : List Char → Mantissa → Mantissa × List Char
  | [], m => (m, [])
  | c :: cs, m =>
    if c = '_' then readMantissa hex cs { m with underscores := true }
    else if c = '.' then
      if m.sawdot then (m, c :: cs)
      else readMantissa hex cs { m with sawdot := true }
    else if isDigit c then
      readMantissa hex cs
        { m with sawdigits := true
                 mant := m.mant * (if hex then 16 else 10) + digitVal c
                 frac := if m.sawdot then m.frac + 1 else m.frac }
    else if hex && isHexLetter c then
      readMantissa hex cs
        { m with sawdigits := true
                 mant := m.mant * 16 + hexLetterVal c
                 frac := if m.sawdot then m.frac + 1 else m.frac }
    else (m, c :: cs)

/-- The exponent digit loop of Go's `readFloat`; the exponent stops growing at 10000. -/
def readExpDigits : List Char → Nat → Bool → Nat × Bool × List Char
  | [], e, u => (e, u, [])
  | c :: cs, e, u =>
    if isDigit c then readExpDigits cs (if e < 10000 then e * 10 + digitVal c else e) u
    else if c = '_' then readExpDigits cs e true
    else (e, u, c :: cs)

/-- The loop of Go's `underscoreOK`; `saw` is the last kind of character seen. -/
def underscoreLoop (hex : Bool) : List Char → Char → Bool
  | [], saw => saw ≠ '_'
  | c :: cs, saw =>
    if isDigit c || (hex && isHexLetter c) then underscoreLoop hex cs '0'
    else if c = '_' then
      if saw ≠ '0' then false else underscoreLoop hex cs '_'
    else if saw = '_' then false
    else underscoreLoop hex cs '!'

/-- Go's `underscoreOK`: underscores only between digits or after a base prefix. -/
def underscoreOK (s : List Char) : Bool :=
  let s1 := match s with
    | [] => s
    | c :: t => if c = '-' ∨ c = '+' then t else s
  match s1 with
  | z :: c :: t =>
    if z = '0' ∧ (c.toLower = 'b' ∨ c.toLower = 'o' ∨ c.toLower = 'x') then
      underscoreLoop (c.toLower = 'x') t '0'
    else underscoreLoop false s1 '^'
  | _ => underscoreLoop false s1 '^'

/-- The successful result of Go's `readFloat`: the number read is
`mantissa * 10 ^ exp` (`mantissa * 2 ^ exp` when `hex`), negated when `neg`;
`rest` is the text left unread. -/
structure ReadFloat where
  mantissa : Nat
  exp : Int
  neg : Bool
  hex : Bool
  rest : List Char
deriving DecidableEq

/-- The optional exponent of Go's `readFloat`, from the text after the mantissa:
the signed exponent, whether it had underscores, and the text left unread. -/
def readExponent (hex : Bool) : List Char → Option (Int × Bool × List Char)
  | [] => if hex then none else some (0, false, [])
  | c :: cs =>
    if c.toLower = (if hex then 'p' else 'e') then
      match cs with
      | [] => none
      | d :: ds =>
        let (esign, ds) : Int × List Char :=
          if d = '+' then (1, ds) else if d = '-' then (-1, ds) else (1, d :: ds)
        match ds with
        | [] => none
        | d0 :: _ =>
          if isDigit d0 then
            let (e, u, rest) := readExpDigits ds 0 false
            some (esign * e, u, rest)
          else none
    else if hex then none
    else some (0, false, c :: cs)

/-- The base prefix of Go's `readFloat`: a leading `0x` or `0X` that is followed by
at least one more character selects base 16. -/
def hexPrefix (s : List Char) : Bool × List Char :=
  match s with
  | z :: x :: y :: r => if z = '0' ∧ x.toLower = 'x' then (true, y :: r) else (false, s)
  | _ => (false, s)

/-- Go's `readFloat`. -/
def readFloat (s : List Char) : Option ReadFloat :=
  match s with
  | [] => none
  | c :: t =>
    let neg : Bool := c = '-'
    let s1 := if c = '+' ∨ c = '-' then t else s
    let (hex, s2) := hexPrefix s1
    let (m, s3) := readMantissa hex s2 ⟨false, false, false, 0, 0⟩
    if !m.sawdigits then none
    else
      match readExponent hex s3 with
      | none => none
      | some (e, u, rest) =>
        if (m.underscores || u) && !underscoreOK (s.take (s.length - rest.length)) then none
        else some ⟨m.mant, e - (if hex then 4 else 1) * m.frac, neg, hex, rest⟩

/-- The exact value `m * base ^ e`. -/
def scale (base m : Nat) (e : Int) : ℚ :=
  if 0 ≤ e then ((m * base ^ e.toNat : Nat) : ℚ) else (m : ℚ) / ((base ^ (-e).toNat : Nat) : ℚ)

/-- Go's `atof64`: the value, the number of characters used, and the error.  A finite
value is kept as the exact number the text denotes; Go returns the `float64` nearest to
it. -/
def atof64 (s : List Char) : F64 × Nat × Option NumError :=
  match special s with
  | some (v, n) => (v, n, none)
  | none =>
    match readFloat s with
    | none => (0, 0, some NumError.ErrSyntax)
    | some r =>
      let q := scale (if r.hex then 2 else 10) r.mantissa r.exp
      let n := s.length - r.rest.length
      if overflowThreshold ≤ q then (F64.inf r.neg, n, some NumError.ErrRange)
      else (F64.fin (if r.neg then -q else q), n, none)

/-- Go's `strconv.ParseFloat(s, 64)`. -/
def ParseFloat (s : String) : F64 × Option NumError :=
  let (f, n, err) := atof64 s.data
  if n ≠ s.data.length ∧ err ≠ some NumError.ErrSyntax then (0, some NumError.ErrSyntax)
  else (f, err)

/-- The decimal digits of a natural number, padded with zeros on the left to `width`. -/
def padDigits (width n : Nat) : List Char :=
  let ds := Nat.toDigits 10 n
  List.replicate (width - ds.length) '0' ++ ds

/-- Go's `strconv.FormatFloat(f, 'f', prec, 64)`, which is also what the
template's `printf "%.6f"` prints for `prec = 6`. -/
def FormatFloat (f : F64) (prec : Nat) : String :=
  match f with
  | F64.nan => "NaN"
  | F64.inf false => "+Inf"
  | F64.inf true => "-Inf"
  | F64.fin q =>
    let n := roundHalfEven (|q| * 10 ^ prec)
    let sign := if q < 0 then ['-'] else []
    let frac := if prec = 0 then [] else '.' :: padDigits prec (n % 10 ^ prec)
    ⟨sign ++ Nat.toDigits 10 (n / 10 ^ prec) ++ frac⟩

/-! ## Helpers -/

/-- An HTTP request as the handlers see it: the method and the parsed form. -/
structure Request where
  Method : String
  Form : List (String × String)

/-- Go's `(*http.Request).FormValue`: the first value of the field, or the empty text. -/
def Request.FormValue (r : Request) (name : String) : String :=
  match r.Form.lookup name with
  | some v => v
  | none => ""

/-- The constant `http.MethodPost`. -/
def MethodPost : String := "POST"

/-- The function `parseValue`. -/
def parseValue (r : Request) (name : String) : F64 × String :=
  let raw := TrimSpace (r.FormValue name)
  if raw = "" then
    (0, "Please enter a value.")
  else
    let (v, err) := ParseFloat (removeCommas raw)
    if err ≠ none then
      (0, "Invalid number.")
    else
      (v, "")

/-- The function `selectedOrDefault`. -/
def selectedOrDefault (r : Request) (name def_ : String) : String :=
  let v := r.FormValue name
  if v ≠ "" then v else def_

/-- The function `round`. -/
def round (n : F64) : F64 :=
  (ParseFloat (FormatFloat n 6)).1

/-! ## Handlers -/

/-- The struct `viewData`. -/
structure viewData where
  Units : List String
  Value : String
  From : String
  To : String
  Result : F64
  HasResult : Bool
  Error : String
  Active : String
deriving DecidableEq

/-- The function `lengthHandler`: the `viewData` it hands to the template. -/
def lengthHandler (r : Request) : viewData :=
  let data : viewData :=
    { Units := lengthUnits
      From := selectedOrDefault r "from" "meter"
      To := selectedOrDefault r "to" "kilometer"
      Value := r.FormValue "value"
      Active := "length"
      Result := 0, HasResult := false, Error := "" }
  if r.Method = MethodPost then
    let (val, msg) := parseValue r "value"
    if msg ≠ "" then
      { data with Error := msg }
    else
      let (out, msg) := convertLength val data.From data.To
      if msg ≠ "" then
        { data with Error := msg }
      else
        { data with Result := round out, HasResult := true }
  else data

/-- The function `weightHandler`: the `viewData` it hands to the template. -/
def weightHandler (r : Request) : viewData :=
  let data : viewData :=
    { Units := weightUnits
      From := selectedOrDefault r "from" "gram"
      To := selectedOrDefault r "to" "kilogram"
      Value := r.FormValue "value"
      Active := "weight"
      Result := 0, HasResult := false, Error := "" }
  if r.Method = MethodPost then
    let (val, msg) := parseValue r "value"
    if msg ≠ "" then
      { data with Error := msg }
    else
      let (out, msg) := convertWeight val data.From data.To
      if msg ≠ "" then
        { data with Error := msg }
      else
        { data with Result := round out, HasResult := true }
  else data

/-- The function `tempHandler`: the `viewData` it hands to the template. -/
def tempHandler (r : Request) : viewData :=
  let data : viewData :=
    { Units := tempUnits
      From := selectedOrDefault r "from" "Celsius"
      To := selectedOrDefault r "to" "Fahrenheit"
      Value := r.FormValue "value"
      Active := "temperature"
      Result := 0, HasResult := false, Error := "" }
  if r.Method = MethodPost then
    let (val, msg) := parseValue r "value"
    if msg ≠ "" then
      { data with Error := msg }
    else
      let (out, msg) := convertTemp val data.From data.To
      if msg ≠ "" then
        { data with Error := msg }
      else
        { data with Result := round out, HasResult := true }
  else data

/-! ## Rendering of the result

The three templates end with the same block,
`{{if .HasResult}} <div class="result"><strong>Result:</strong> {{printf "%.6f" .Result}}</div> {{end}}`;
`html/template` passes what `printf` returns through its HTML escaper. -/

/-- The text `html/template` writes for one character of a plain string
(`htmlReplacementTable`). -/
def htmlReplacement (c : Char) : List Char :=
  if c = Char.ofNat 0 then [Char.ofNat 0xFFFD]
  else if c = Char.ofNat 34 then "&#34;".data
  else if c = '&' then "&amp;".data
  else if c = Char.ofNat 39 then "&#39;".data
  else if c = '+' then "&#43;".data
  else if c = '<' then "&lt;".data
  else if c = '>' then "&gt;".data
  else [c]

/-- The `htmlEscaper` of `html/template` on a plain string. -/
def htmlEscaper (s : String) : String := ⟨(s.data.map htmlReplacement).flatten⟩

/-- What the `{{if .HasResult}}` block of the templates writes into the page. -/
def resultHTML (data : viewData) : String :=
  if data.HasResult then
    "\n        <div class=\"result\"><strong>Result:</strong> " ++
      htmlEscaper (FormatFloat data.Result 6) ++ "</div>\n      "
  else ""

/-! ## Basic facts about `F64` -/

namespace F64

@[simp] theorem ofNat_eq (n : Nat) [n.AtLeastTwo] : (OfNat.ofNat n : F64) = fin (OfNat.ofNat n) := by
  show fin ((OfNat.ofNat n : Nat) : ℚ) = _
  simp
@[simp] theorem zero_eq : (0 : F64) = fin 0 := by
  show fin ((0 : Nat) : ℚ) = _
  simp
@[simp] theorem one_eq : (1 : F64) = fin 1 := by
  show fin ((1 : Nat) : ℚ) = _
  simp
@[simp] theorem ofScientific_eq (m : Nat) (s : Bool) (e : Nat) :
    (OfScientific.ofScientific m s e : F64) = ofRat (OfScientific.ofScientific m s e) := rfl
@[simp] theorem add_eq (a b : F64) : a + b = add a b := rfl
@[simp] theorem sub_eq (a b : F64) : a - b = sub a b := rfl
@[simp] theorem mul_eq (a b : F64) : a * b = mul a b := rfl
@[simp] theorem div_eq (a b : F64) : a / b = div a b := rfl

end F64

/-! ## Rounding to the nearest `float64` -/

/-- The floor used by `roundHalfEven`, as a natural number below the rational. -/
theorem floor_toNat_spec (x : ℚ) (hx : 0 ≤ x) :
    (((Rat.floor x).toNat : Nat) : ℚ) ≤ x ∧ x < (((Rat.floor x).toNat : Nat) : ℚ) + 1 := by
  have hfl : Rat.floor x = ⌊x⌋ := rfl
  have h0 : 0 ≤ ⌊x⌋ := Int.floor_nonneg.mpr hx
  have hcast : (((Rat.floor x).toNat : Nat) : ℚ) = ((⌊x⌋ : ℤ) : ℚ) := by
    rw [hfl]
    have : ((⌊x⌋.toNat : ℕ) : ℤ) = ⌊x⌋ := Int.toNat_of_nonneg h0
    exact_mod_cast this
  rw [hcast]
  exact ⟨Int.floor_le x, Int.lt_floor_add_one x⟩

/-- Rounding to the nearest natural number moves a non-negative number by at most a
half. -/
theorem roundHalfEven_spec (x : ℚ) (hx : 0 ≤ x) : |((roundHalfEven x : Nat) : ℚ) - x| ≤ 1 / 2 := by
  obtain ⟨h1, h2⟩ := floor_toNat_spec x hx
  unfold roundHalfEven
  dsimp only
  generalize (Rat.floor x).toNat = n at h1 h2
  rw [abs_le]
  split_ifs with ha hb hc
  · constructor <;> linarith
  · push_cast
    constructor <;> linarith
  · constructor <;> linarith
  · push_cast
    constructor <;> linarith

/-- Rounding a natural number gives that number. -/
theorem roundHalfEven_natCast (n : Nat) : roundHalfEven (n : ℚ) = n := by
  obtain ⟨h1, h2⟩ := floor_toNat_spec (n : ℚ) (Nat.cast_nonneg n)
  have hfl : (Rat.floor (n : ℚ)).toNat = n := by
    have a1 : (Rat.floor (n : ℚ)).toNat ≤ n := by exact_mod_cast h1
    have a2 : n < (Rat.floor (n : ℚ)).toNat + 1 := by exact_mod_cast h2
    omega
  unfold roundHalfEven
  dsimp only
  rw [hfl]
  simp

/-- Rounding does not cross a natural number that bounds the argument. -/
theorem roundHalfEven_le (x : ℚ) (hx : 0 ≤ x) (m : Nat) (hm : x ≤ m) : roundHalfEven x ≤ m := by
  obtain ⟨h1, h2⟩ := floor_toNat_spec x hx
  unfold roundHalfEven
  dsimp only
  generalize (Rat.floor x).toNat = n at h1 h2
  have hnm : (n : ℚ) ≤ m := le_trans h1 hm
  have hnm' : n ≤ m := by exact_mod_cast hnm
  have hstep : 0 < x - n → n + 1 ≤ m := by
    intro hpos
    have : (n : ℚ) < m := by linarith
    have : n < m := by exact_mod_cast this
    omega
  split_ifs with ha hb hc
  · exact hnm'
  · exact hstep (by linarith)
  · exact hnm'
  · exact hstep (by linarith)

namespace F64

theorem ulp_pos (a : ℚ) : 0 < ulp a := by
  unfold ulp
  positivity

/-- The logarithm used for the exponent, pinned down by two powers of two. -/
theorem log_eq (a : ℚ) (e : ℤ) (h1 : (2 : ℚ) ^ e ≤ a) (h2 : a < (2 : ℚ) ^ (e + 1)) :
    Int.log 2 a = e := by
  have ha : 0 < a := lt_of_lt_of_le (by positivity) h1
  have h3 : e ≤ Int.log 2 a := by
    rw [← Int.zpow_le_iff_le_log (by norm_num) ha]
    simpa using h1
  have h4 : Int.log 2 a < e + 1 := by
    rw [← Int.lt_zpow_iff_log_lt (by norm_num) ha]
    simpa using h2
  omega

/-- The spacing is at most the magnitude over `2 ^ 52`, or the least spacing. -/
theorem ulp_le (a : ℚ) (ha : 0 < a) : ulp a ≤ a / 2 ^ 52 + 1 / 2 ^ 1074 := by
  unfold ulp
  rcases le_total (Int.log 2 a) (-1022) with h | h
  · rw [max_eq_right h]
    have : (2 : ℚ) ^ ((-1022 : ℤ) - 52) = 1 / 2 ^ 1074 := by
      rw [show ((-1022 : ℤ) - 52) = -((1074 : ℕ) : ℤ) by norm_num, zpow_neg, zpow_natCast]
      simp
    rw [this]
    have : 0 ≤ a / 2 ^ 52 := by positivity
    linarith
  · rw [max_eq_left h, zpow_sub₀ (by norm_num)]
    have h1 : ((2 : ℕ) : ℚ) ^ Int.log 2 a ≤ a := Int.zpow_log_le_self (by norm_num) ha
    have h2 : (2 : ℚ) ^ Int.log 2 a ≤ a := by simpa using h1
    have h3 : (2 : ℚ) ^ (52 : ℤ) = 2 ^ 52 := by norm_cast
    rw [h3]
    have : (2 : ℚ) ^ Int.log 2 a / 2 ^ 52 ≤ a / 2 ^ 52 := by
      apply div_le_div_of_nonneg_right h2 (by positivity)
    have : (0 : ℚ) ≤ 1 / 2 ^ 1074 := by positivity
    linarith

/-- Rounding zero gives zero. -/
theorem roundHalfEven_zero : roundHalfEven 0 = 0 := by
  simpa using roundHalfEven_natCast 0

/-- The rounded magnitude is within half a spacing of the magnitude. -/
theorem round_ulp_err (a : ℚ) (ha : 0 < a) :
    |(roundHalfEven (a / ulp a) : ℚ) * ulp a - a| ≤ a / 2 ^ 53 + 1 / 2 ^ 1075 := by
  have hu := ulp_pos a
  have hr := roundHalfEven_spec (a / ulp a) (by positivity)
  have hule := ulp_le a ha
  generalize roundHalfEven (a / ulp a) = m at hr
  generalize ulp a = w at hu hr hule
  have key : |(m : ℚ) * w - a| ≤ w / 2 := by
    have e : (m : ℚ) * w - a = ((m : ℚ) - a / w) * w := by
      field_simp
    rw [e, abs_mul, abs_of_pos hu]
    calc |(m : ℚ) - a / w| * w ≤ 1 / 2 * w := by
          apply mul_le_mul_of_nonneg_right hr hu.le
      _ = w / 2 := by ring
  calc |(m : ℚ) * w - a| ≤ w / 2 := key
    _ ≤ (a / 2 ^ 52 + 1 / 2 ^ 1074) / 2 := by linarith
    _ = a / 2 ^ 53 + 1 / 2 ^ 1075 := by ring

/-- Rounding to a `float64`: below the overflow threshold the result is finite, has the
sign of the number, and is off by at most the relative error `2 ^ -53` plus half the
least spacing. -/
theorem ofRat_err (z : ℚ) (hz : |z| < overflowThreshold) :
    ∃ y : ℚ, ofRat z = fin y ∧ |y - z| ≤ |z| / 2 ^ 53 + 1 / 2 ^ 1075 ∧
      (0 ≤ z → 0 ≤ y) ∧ (z ≤ 0 → y ≤ 0) := by
  unfold ofRat
  rw [if_neg (not_le.mpr hz)]
  clear hz
  rcases lt_trichotomy z 0 with hneg | rfl | hpos
  · refine ⟨_, rfl, ?_, ?_, ?_⟩
    · have key := round_ulp_err |z| (abs_pos.mpr hneg.ne)
      rw [if_pos hneg]
      rw [abs_of_neg hneg] at key ⊢
      have e : -((roundHalfEven (-z / ulp (-z)) : ℚ) * ulp (-z)) - z =
          -((roundHalfEven (-z / ulp (-z)) : ℚ) * ulp (-z) - -z) := by ring
      rw [e, abs_neg]
      exact key
    · intro h0
      exact absurd hneg (not_lt.mpr h0)
    · intro _
      rw [if_pos hneg]
      have := ulp_pos |z|
      have : (0 : ℚ) ≤ (roundHalfEven (|z| / ulp |z|) : ℚ) * ulp |z| := by positivity
      linarith
  · refine ⟨0, ?_, ?_, ?_, ?_⟩
    · simp [roundHalfEven_zero]
    · simp
    · simp
    · simp
  · refine ⟨_, rfl, ?_, ?_, ?_⟩
    · have key := round_ulp_err |z| (abs_pos.mpr hpos.ne')
      rw [if_neg (not_lt.mpr hpos.le)]
      rw [abs_of_pos hpos] at key ⊢
      exact key
    · intro _
      rw [if_neg (not_lt.mpr hpos.le)]
      have := ulp_pos |z|
      positivity
    · intro h0
      exact absurd hpos (not_lt.mpr h0)


theorem fin_add_fin (a b : ℚ) : fin a + fin b = ofRat (a + b) := rfl
theorem fin_sub_fin (a b : ℚ) : fin a - fin b = ofRat (a - b) := rfl
theorem fin_mul_fin (a b : ℚ) : fin a * fin b = ofRat (a * b) := rfl
theorem fin_div_fin (a b : ℚ) (hb : b ≠ 0) : fin a / fin b = ofRat (a / b) := by
  show div (fin a) (fin b) = _
  simp [div, hb]

/-- Rounding to the nearest natural number, from a strict enclosure. -/
theorem roundHalfEven_eq (x : ℚ) (n : ℕ) (hx : 0 ≤ x) (h1 : (n : ℚ) - 1 / 2 < x)
    (h2 : x < n + 1 / 2) : roundHalfEven x = n := by
  obtain ⟨f1, f2⟩ := floor_toNat_spec x hx
  unfold roundHalfEven
  dsimp only
  generalize (Rat.floor x).toNat = k at f1 f2
  have hk : k = n ∨ k + 1 = n := by
    have a1 : (k : ℚ) < n + 1 := by linarith
    have a2 : (n : ℚ) < k + 2 := by linarith
    have a1' : k < n + 1 := by exact_mod_cast a1
    have a2' : n < k + 2 := by exact_mod_cast a2
    omega
  rcases hk with rfl | rfl
  · rw [if_pos (by linarith)]
  · push_cast at h1 h2
    rw [if_neg (by linarith), if_pos (by linarith)]

/-- Rounding a number halfway between two natural numbers gives the even one. -/
theorem roundHalfEven_tie (x : ℚ) (n m : ℕ) (hx : x = n + 1 / 2) (hm : m % 2 = 0)
    (hnm : m = n ∨ m = n + 1) : roundHalfEven x = m := by
  have h0 : 0 ≤ x := by
    rw [hx]
    positivity
  obtain ⟨f1, f2⟩ := floor_toNat_spec x h0
  unfold roundHalfEven
  dsimp only
  generalize (Rat.floor x).toNat = k at f1 f2
  have hk : k = n := by
    rw [hx] at f1 f2
    have a1 : (k : ℚ) < n + 1 := by linarith
    have a2 : (n : ℚ) < k + 1 := by linarith
    have a1' : k < n + 1 := by exact_mod_cast a1
    have a2' : n < k + 1 := by exact_mod_cast a2
    omega
  subst hk
  rw [if_neg (by rw [hx]; norm_num), if_neg (by rw [hx]; norm_num)]
  rcases hnm with rfl | rfl
  · rw [if_pos hm]
  · rw [if_neg (by omega)]

set_option exponentiation.threshold 2048 in
/-- A number below `2 ^ 1000` is below the overflow threshold. -/
theorem lt_overflowThreshold (q : ℚ) (h : q ≤ 2 ^ 1000) : q < overflowThreshold := by
  have : (2 : ℚ) ^ 1000 < overflowThreshold := by
    unfold overflowThreshold
    norm_num
  exact lt_of_le_of_lt h this

/-- The `float64` nearest to a positive number between `2 ^ (52 - k)` and `2 ^ (53 - k)`,
where the spacing is `2 ^ -k`. -/
theorem ofRat_eval_frac (q : ℚ) (k m : ℕ) (hk : k ≤ 1074) (h1 : (2 : ℚ) ^ 52 ≤ q * 2 ^ k)
    (h2 : q * 2 ^ k < 2 ^ 53) (hm : roundHalfEven (q * 2 ^ k) = m) :
    ofRat q = fin (m / 2 ^ k) := by
  have hpk : (0 : ℚ) < 2 ^ k := by positivity
  have hq : 0 < q := by
    by_contra hc
    have : q * 2 ^ k ≤ 0 := mul_nonpos_of_nonpos_of_nonneg (not_lt.mp hc) hpk.le
    have : (0 : ℚ) < 2 ^ 52 := by positivity
    linarith
  have hlt : q < overflowThreshold := by
    apply lt_overflowThreshold
    have h3 : q ≤ q * 2 ^ k := by
      have : (1 : ℚ) ≤ 2 ^ k := one_le_pow₀ (by norm_num)
      nlinarith
    have h4 : (2 : ℚ) ^ 53 ≤ 2 ^ 1000 := by
      apply pow_le_pow_right₀ (by norm_num) (by norm_num)
    linarith
  have hlog : Int.log 2 q = 52 - (k : ℤ) := by
    apply log_eq
    · rw [zpow_sub₀ (by norm_num), zpow_natCast, div_le_iff₀ hpk]
      exact_mod_cast h1
    · rw [show (52 - (k : ℤ) + 1) = (53 : ℤ) - (k : ℤ) by ring, zpow_sub₀ (by norm_num),
        zpow_natCast, lt_div_iff₀ hpk]
      exact_mod_cast h2
  have hulp : ulp q = 1 / 2 ^ k := by
    unfold ulp
    rw [hlog, max_eq_left (by omega), show (52 - (k : ℤ) - 52) = -(k : ℤ) by ring, zpow_neg,
      zpow_natCast]
    simp
  have e : q / (1 / 2 ^ k) = q * 2 ^ k := by
    field_simp
  unfold ofRat
  dsimp only
  rw [abs_of_pos hq, if_neg (not_le.mpr hlt), if_neg (not_lt.mpr hq.le), hulp, e, hm]
  congr 1
  field_simp

/-- The `float64` nearest to a positive number between `2 ^ (52 + k)` and `2 ^ (53 + k)`,
where the spacing is `2 ^ k`. -/
theorem ofRat_eval_int (q : ℚ) (k m : ℕ) (hlt : q < overflowThreshold)
    (h1 : (2 : ℚ) ^ 52 ≤ q / 2 ^ k) (h2 : q / 2 ^ k < 2 ^ 53)
    (hm : roundHalfEven (q / 2 ^ k) = m) : ofRat q = fin (m * 2 ^ k) := by
  have hpk : (0 : ℚ) < 2 ^ k := by positivity
  have hq : 0 < q := by
    by_contra hc
    have : q / 2 ^ k ≤ 0 := div_nonpos_of_nonpos_of_nonneg (not_lt.mp hc) hpk.le
    have : (0 : ℚ) < 2 ^ 52 := by positivity
    linarith
  have hlog : Int.log 2 q = 52 + (k : ℤ) := by
    apply log_eq
    · rw [zpow_add₀ (by norm_num), zpow_natCast, ← le_div_iff₀ hpk]
      exact_mod_cast h1
    · rw [show (52 + (k : ℤ) + 1) = (53 : ℤ) + (k : ℤ) by ring, zpow_add₀ (by norm_num),
        zpow_natCast, ← div_lt_iff₀ hpk]
      exact_mod_cast h2
  have hulp : ulp q = 2 ^ k := by
    unfold ulp
    rw [hlog, max_eq_left (by omega), show (52 + (k : ℤ) - 52) = (k : ℤ) by ring, zpow_natCast]
  unfold ofRat
  dsimp only
  rw [abs_of_pos hq, if_neg (not_le.mpr hlt), if_neg (not_lt.mpr hq.le), hulp, hm]

/-- Rounding zero gives zero. -/
theorem ofRat_zero : ofRat 0 = fin 0 := by
  have hlt : ¬ overflowThreshold ≤ |(0 : ℚ)| := by
    rw [abs_zero]
    exact not_le.mpr (lt_overflowThreshold 0 (by positivity))
  unfold ofRat
  rw [if_neg hlt]
  simp [roundHalfEven_zero]

/-- One multiplication by a positive factor: the relative error grows by `2 ^ -52`. -/
theorem mul_step (x X g ρ α G : ℚ) (hx : |x - X| ≤ ρ * |X| + α) (hρ0 : 0 ≤ ρ) (hρ1 : ρ ≤ 1)
    (hα : 0 ≤ α) (hg : 0 < g) (hgG : g ≤ G) (hT : (2 * |X| + α) * G ≤ 2 ^ 1000) :
    ∃ z : ℚ, ofRat (x * g) = fin z ∧
      |z - X * g| ≤ (ρ + 2 / 2 ^ 53) * |X * g| + (2 * G * α + 1 / 2 ^ 1075) := by
  have hA : 0 ≤ |X| := abs_nonneg X
  have hxa : |x| ≤ |X| + (ρ * |X| + α) := by
    have := abs_sub_abs_le_abs_sub x X
    linarith
  have hR : ρ * |X| ≤ |X| := by nlinarith
  have hR0 : 0 ≤ ρ * |X| := mul_nonneg hρ0 hA
  have hxg : |x * g| = |x| * g := by rw [abs_mul, abs_of_pos hg]
  have hXg : |X * g| = |X| * g := by rw [abs_mul, abs_of_pos hg]
  have hlt : |x * g| < overflowThreshold := by
    apply lt_overflowThreshold
    rw [hxg]
    calc |x| * g ≤ (2 * |X| + α) * g := by
          apply mul_le_mul_of_nonneg_right _ hg.le
          linarith
      _ ≤ (2 * |X| + α) * G := by
          apply mul_le_mul_of_nonneg_left hgG
          linarith
      _ ≤ 2 ^ 1000 := hT
  obtain ⟨y, hy, herr, -, -⟩ := ofRat_err (x * g) hlt
  refine ⟨y, hy, ?_⟩
  have h1 : |y - X * g| ≤ |y - x * g| + |x - X| * g := by
    have e : y - X * g = (y - x * g) + (x - X) * g := by ring
    rw [e]
    have := abs_add (y - x * g) ((x - X) * g)
    rw [abs_mul, abs_of_pos hg] at this
    exact this
  rw [hxg] at herr
  rw [hXg]
  have b1 : |x| * g ≤ (|X| + (ρ * |X| + α)) * g := mul_le_mul_of_nonneg_right hxa hg.le
  have b2 : |x - X| * g ≤ (ρ * |X| + α) * g := mul_le_mul_of_nonneg_right hx hg.le
  have b3 : α * g ≤ α * G := mul_le_mul_of_nonneg_left hgG hα
  have b4 : ρ * |X| * g ≤ |X| * g := mul_le_mul_of_nonneg_right hR hg.le
  have b5 : 0 ≤ |X| * g := mul_nonneg hA hg.le
  have b6 : 0 ≤ α * g := mul_nonneg hα hg.le
  have b7 : 0 ≤ ρ * |X| * g := mul_nonneg hR0 hg.le
  have e1 : (|X| + (ρ * |X| + α)) * g = |X| * g + ρ * |X| * g + α * g := by ring
  have e2 : (ρ * |X| + α) * g = ρ * |X| * g + α * g := by ring
  have e3 : (ρ + 2 / 2 ^ 53) * (|X| * g) = ρ * |X| * g + 2 / 2 ^ 53 * (|X| * g) := by ring
  rw [e1] at b1
  rw [e2] at b2
  rw [e3]
  generalize |X| * g = P at *
  generalize ρ * |X| * g = R at *
  generalize α * g = Q at *
  generalize |x| * g = W at *
  have hu : (1 : ℚ) / 2 ^ 1075 = 1 / 2 ^ 1075 := rfl
  generalize (1 : ℚ) / 2 ^ 1075 = η at *
  have : W / 2 ^ 53 ≤ (P + R + Q) / 2 ^ 53 := by
    apply div_le_div_of_nonneg_right b1 (by positivity)
  linarith

/-- One rounding after an operation with a known absolute error. -/
theorem abs_step (t Z E M : ℚ) (h1 : |t - Z| ≤ E) (h2 : |Z| ≤ M) (h3 : M + E ≤ 2 ^ 1000) :
    ∃ z : ℚ, ofRat t = fin z ∧ |z - Z| ≤ E + (M + E) / 2 ^ 53 + 1 / 2 ^ 1075 := by
  have ht : |t| ≤ M + E := by
    have := abs_sub_abs_le_abs_sub t Z
    linarith
  obtain ⟨y, hy, herr, -, -⟩ := ofRat_err t (lt_overflowThreshold _ (le_trans ht h3))
  refine ⟨y, hy, ?_⟩
  have e : y - Z = (y - t) + (t - Z) := by ring
  rw [e]
  have := abs_add (y - t) (t - Z)
  have : |t| / 2 ^ 53 ≤ (M + E) / 2 ^ 53 := by
    apply div_le_div_of_nonneg_right ht (by positivity)
  linarith

set_option exponentiation.threshold 2048 in
/-- A conversion step, a multiplication by one factor and a division by another: the
relative error grows by `2 ^ -51`. -/
theorem scale_approx (x X p q ρ α : ℚ) (hx : |x - X| ≤ ρ * |X| + α) (hρ0 : 0 ≤ ρ)
    (hρ1 : ρ ≤ 1 / 2) (hα0 : 0 ≤ α) (hα1 : α ≤ 1) (hp1 : 1 / 2 ^ 21 ≤ p) (hp2 : p ≤ 2 ^ 21)
    (hq1 : 1 / 2 ^ 21 ≤ q) (hX : |X| ≤ 2 ^ 950) :
    ∃ w : ℚ, fin x * fin p / fin q = fin w ∧
      |w - X * p / q| ≤ (ρ + 4 / 2 ^ 53) * |X * p / q| + (2 ^ 44 * α + 2 ^ 23 / 2 ^ 1075) := by
  have hp : 0 < p := lt_of_lt_of_le (by positivity) hp1
  have hq : 0 < q := lt_of_lt_of_le (by positivity) hq1
  have hqi : q⁻¹ ≤ 2 ^ 21 := by
    rw [inv_le_comm₀ hq (by positivity)]
    simpa using hq1
  have hA : 0 ≤ |X| := abs_nonneg X
  obtain ⟨z, hz, ez⟩ := mul_step x X p ρ α (2 ^ 21) hx hρ0 (by linarith) hα0 hp hp2 (by
    have : (2 * |X| + α) * 2 ^ 21 ≤ (2 * 2 ^ 950 + 1) * 2 ^ 21 := by
      apply mul_le_mul_of_nonneg_right _ (by positivity)
      linarith
    exact le_trans this (by norm_num))
  have hXp : |X * p| ≤ 2 ^ 971 := by
    rw [abs_mul, abs_of_pos hp]
    calc |X| * p ≤ 2 ^ 950 * 2 ^ 21 := mul_le_mul hX hp2 hp.le (by positivity)
      _ = 2 ^ 971 := by norm_num
  obtain ⟨w, hw, ew⟩ := mul_step z (X * p) q⁻¹ (ρ + 2 / 2 ^ 53) (2 * 2 ^ 21 * α + 1 / 2 ^ 1075)
    (2 ^ 21) ez (add_nonneg hρ0 (by norm_num)) (by norm_num; linarith)
    (add_nonneg (mul_nonneg (by norm_num) hα0) (by norm_num)) (inv_pos.mpr hq) hqi (by
    have h1 : 2 * 2 ^ 21 * α + 1 / 2 ^ 1075 ≤ 2 ^ 23 := by
      have : (1 : ℚ) / 2 ^ 1075 ≤ 1 := by norm_num
      nlinarith
    have : (2 * |X * p| + (2 * 2 ^ 21 * α + 1 / 2 ^ 1075)) * 2 ^ 21 ≤
        (2 * 2 ^ 971 + 2 ^ 23) * 2 ^ 21 := by
      apply mul_le_mul_of_nonneg_right _ (by positivity)
      linarith
    exact le_trans this (by norm_num))
  refine ⟨w, ?_, ?_⟩
  · rw [fin_mul_fin, hz, fin_div_fin _ _ hq.ne', div_eq_mul_inv, hw]
  · rw [div_eq_mul_inv]
    have e1 : ρ + 2 / 2 ^ 53 + 2 / 2 ^ 53 = ρ + 4 / 2 ^ 53 := by ring
    rw [e1] at ew
    have e2 : 2 * 2 ^ 21 * (2 * 2 ^ 21 * α + 1 / 2 ^ 1075) + 1 / 2 ^ 1075 ≤
        2 ^ 44 * α + 2 ^ 23 / 2 ^ 1075 := by
      have : (0 : ℚ) ≤ 1 / 2 ^ 1075 := by positivity
      have e3 : (2 : ℚ) ^ 23 / 2 ^ 1075 = 2 ^ 23 * (1 / 2 ^ 1075) := by ring
      rw [e3]
      generalize (1 : ℚ) / 2 ^ 1075 = η at *
      norm_num
      linarith
    linarith

set_option exponentiation.threshold 2048 in
/-- Converting and converting back with the factors swapped returns a number within the
relative error `2 ^ -50` of the value. -/
theorem scale_round_trip (x p q : ℚ) (hp1 : 1 / 2 ^ 21 ≤ p) (hp2 : p ≤ 2 ^ 21)
    (hq1 : 1 / 2 ^ 21 ≤ q) (hq2 : q ≤ 2 ^ 21) (hx : |x| ≤ 2 ^ 900) :
    ∃ r w : ℚ, fin x * fin p / fin q = fin r ∧ fin r * fin q / fin p = fin w ∧
      |w - x| ≤ |x| / 2 ^ 50 + 1 / 2 ^ 1000 := by
  have hp : 0 < p := lt_of_lt_of_le (by positivity) hp1
  have hq : 0 < q := lt_of_lt_of_le (by positivity) hq1
  obtain ⟨r, hr, er⟩ := scale_approx x x p q 0 0 (by simp) le_rfl (by norm_num) le_rfl
    (by norm_num) hp1 hp2 hq1 (le_trans hx (by norm_num))
  have hX : |x * p / q| ≤ 2 ^ 950 := by
    rw [abs_div, abs_mul, abs_of_pos hp, abs_of_pos hq, div_le_iff₀ hq]
    have h1 : |x| * p ≤ 2 ^ 900 * 2 ^ 21 := mul_le_mul hx hp2 hp.le (by positivity)
    have h2 : (2 : ℚ) ^ 950 * (1 / 2 ^ 21) ≤ 2 ^ 950 * q :=
      mul_le_mul_of_nonneg_left hq1 (by positivity)
    have h3 : (2 : ℚ) ^ 900 * 2 ^ 21 ≤ 2 ^ 950 * (1 / 2 ^ 21) := by norm_num
    linarith
  obtain ⟨w, hw, ew⟩ := scale_approx r (x * p / q) q p (0 + 4 / 2 ^ 53)
    (2 ^ 44 * 0 + 2 ^ 23 / 2 ^ 1075) er (by norm_num) (by norm_num) (by norm_num) (by norm_num)
    hq1 hq2 hp1 hX
  refine ⟨r, w, hr, hw, ?_⟩
  have e : x * p / q * q / p = x := by
    field_simp
  rw [e] at ew
  have e2 : (0 + 4 / 2 ^ 53 + 4 / 2 ^ 53) * |x| +
      (2 ^ 44 * (2 ^ 44 * 0 + 2 ^ 23 / 2 ^ 1075) + 2 ^ 23 / 2 ^ 1075) ≤
      |x| / 2 ^ 50 + 1 / 2 ^ 1000 := by
    have : (0 + 4 / 2 ^ 53 + 4 / 2 ^ 53 : ℚ) = 1 / 2 ^ 50 := by norm_num
    rw [this]
    have : (2 ^ 44 * (2 ^ 44 * 0 + 2 ^ 23 / 2 ^ 1075) + 2 ^ 23 / 2 ^ 1075 : ℚ) ≤ 1 / 2 ^ 1000 := by
      norm_num
    linarith
  linarith


set_option exponentiation.threshold 2048 in
/-- The value `x * p / q` is in range when `x` is. -/
theorem scale_bound (x p q : ℚ) (hp : 0 < p) (hp2 : p ≤ 2 ^ 21) (hq1 : 1 / 2 ^ 21 ≤ q)
    (hx : |x| ≤ 2 ^ 900) : |x * p / q| ≤ 2 ^ 950 := by
  have hq : 0 < q := lt_of_lt_of_le (by norm_num) hq1
  rw [abs_div, abs_mul, abs_of_pos hp, abs_of_pos hq, div_le_iff₀ hq]
  have h1 : |x| * p ≤ 2 ^ 900 * 2 ^ 21 := mul_le_mul hx hp2 hp.le (by norm_num)
  have h2 : (2 : ℚ) ^ 950 * (1 / 2 ^ 21) ≤ 2 ^ 950 * q :=
    mul_le_mul_of_nonneg_left hq1 (by norm_num)
  have h3 : (2 : ℚ) ^ 900 * 2 ^ 21 ≤ 2 ^ 950 * (1 / 2 ^ 21) := by norm_num
  linarith

set_option exponentiation.threshold 2048 in
/-- Converting through a second unit gives a number within the relative error `2 ^ -49`
of the number that converting directly gives. -/
theorem scale_compose (x p q r : ℚ) (hp1 : 1 / 2 ^ 21 ≤ p) (hp2 : p ≤ 2 ^ 21)
    (hq1 : 1 / 2 ^ 21 ≤ q) (hq2 : q ≤ 2 ^ 21) (hr1 : 1 / 2 ^ 21 ≤ r) (hx : |x| ≤ 2 ^ 900) :
    ∃ w1 w2 w3 : ℚ, fin x * fin p / fin q = fin w1 ∧ fin w1 * fin q / fin r = fin w2 ∧
      fin x * fin p / fin r = fin w3 ∧ |w2 - w3| ≤ |w3| / 2 ^ 49 + 1 / 2 ^ 1000 := by
  have hp : 0 < p := lt_of_lt_of_le (by norm_num) hp1
  have hq : 0 < q := lt_of_lt_of_le (by norm_num) hq1
  have hr : 0 < r := lt_of_lt_of_le (by norm_num) hr1
  obtain ⟨w1, h1, e1⟩ := scale_approx x x p q 0 0 (by simp) le_rfl (by norm_num) le_rfl
    (by norm_num) hp1 hp2 hq1 (le_trans hx (by norm_num))
  obtain ⟨w3, h3, e3⟩ := scale_approx x x p r 0 0 (by simp) le_rfl (by norm_num) le_rfl
    (by norm_num) hp1 hp2 hr1 (le_trans hx (by norm_num))
  obtain ⟨w2, h2, e2⟩ := scale_approx w1 (x * p / q) q r (0 + 4 / 2 ^ 53)
    (2 ^ 44 * 0 + 2 ^ 23 / 2 ^ 1075) e1 (by norm_num) (by norm_num) (by norm_num) (by norm_num)
    hq1 hq2 hr1 (scale_bound x p q hp hp2 hq1 hx)
  refine ⟨w1, w2, w3, h1, h2, h3, ?_⟩
  have e : x * p / q * q / r = x * p / r := by
    field_simp
  rw [e] at e2
  clear hx e1 h1 h2 h3
  have hA := abs_nonneg (x * p / r)
  have hB := abs_sub_abs_le_abs_sub (x * p / r) w3
  rw [abs_sub_comm] at hB
  have hC : |w2 - w3| ≤ |w2 - x * p / r| + |w3 - x * p / r| := by
    have := abs_sub_le w2 (x * p / r) w3
    rw [abs_sub_comm (x * p / r) w3] at this
    exact this
  generalize |x * p / r| = A at *
  generalize |w3| = B at *
  generalize |w2 - x * p / r| = C2 at *
  generalize |w3 - x * p / r| = C3 at *
  generalize |w2 - w3| = D at *
  have t1 : (2 ^ 44 * (2 ^ 44 * 0 + 2 ^ 23 / 2 ^ 1075) + 2 ^ 23 / 2 ^ 1075 : ℚ) ≤
      1 / 2 ^ 1001 := by norm_num
  have t2 : (2 ^ 44 * 0 + 2 ^ 23 / 2 ^ 1075 : ℚ) ≤ 1 / 2 ^ 1002 := by norm_num
  have t0 : (0 : ℚ) ≤ 2 ^ 44 * 0 + 2 ^ 23 / 2 ^ 1075 := by norm_num
  have t3 : (1 : ℚ) / 2 ^ 1000 = 1 / 2 ^ 1001 + 2 * (1 / 2 ^ 1002) := by norm_num
  rw [t3]
  generalize (2 ^ 44 * (2 ^ 44 * 0 + 2 ^ 23 / 2 ^ 1075) + 2 ^ 23 / 2 ^ 1075 : ℚ) = T2 at *
  generalize (2 ^ 44 * 0 + 2 ^ 23 / 2 ^ 1075 : ℚ) = T3 at *
  generalize (1 : ℚ) / 2 ^ 1001 = U2 at *
  generalize (1 : ℚ) / 2 ^ 1002 = U3 at *
  norm_num at e2 e3 ⊢
  linarith

/-- The quotient of two factors is within the relative error `3 * 2 ^ -52` of the
quotient of the decimals they are nearest to. -/
theorem factor_quotient (p q dp dq : ℚ) (hdp : 0 < dp) (hdq : 0 < dq)
    (hp : |p - dp| ≤ dp / 2 ^ 52) (hq : |q - dq| ≤ dq / 2 ^ 52) :
    |p / q - dp / dq| ≤ 3 / 2 ^ 52 * (dp / dq) := by
  obtain ⟨p1, p2⟩ := abs_le.mp hp
  obtain ⟨q1, q2⟩ := abs_le.mp hq
  have hq0 : 0 < q := by
    have : dq / 2 ^ 52 ≤ dq / 2 := by
      apply div_le_div_of_nonneg_left hdq.le (by norm_num) (by norm_num)
    linarith
  have hq23 : 2 * dq ≤ 3 * q := by
    have : dq / 2 ^ 52 ≤ dq / 3 := by
      apply div_le_div_of_nonneg_left hdq.le (by norm_num) (by norm_num)
    linarith
  have key : |p * dq - q * dp| ≤ 2 / 2 ^ 52 * (dp * dq) := by
    have e : p * dq - q * dp = (p - dp) * dq - dp * (q - dq) := by ring
    rw [e]
    have a1 : |(p - dp) * dq| ≤ dp / 2 ^ 52 * dq := by
      rw [abs_mul, abs_of_pos hdq]
      exact mul_le_mul_of_nonneg_right hp hdq.le
    have a2 : |dp * (q - dq)| ≤ dp * (dq / 2 ^ 52) := by
      rw [abs_mul, abs_of_pos hdp]
      exact mul_le_mul_of_nonneg_left hq hdp.le
    have := abs_sub ((p - dp) * dq) (dp * (q - dq))
    have e2 : dp / 2 ^ 52 * dq + dp * (dq / 2 ^ 52) = 2 / 2 ^ 52 * (dp * dq) := by ring
    linarith
  have e : p / q - dp / dq = (p * dq - q * dp) / (q * dq) := by
    field_simp
  rw [e, abs_div, abs_of_pos (mul_pos hq0 hdq), div_le_iff₀ (mul_pos hq0 hdq)]
  have e3 : 3 / 2 ^ 52 * (dp / dq) * (q * dq) = 3 / 2 ^ 52 * (dp * q) := by
    field_simp
    ring
  rw [e3]
  have : 2 * (dp * dq) ≤ 3 * (dp * q) := by nlinarith
  have e4 : 2 / 2 ^ 52 * (dp * dq) = (2 * (dp * dq)) / 2 ^ 52 := by ring
  have e5 : 3 / 2 ^ 52 * (dp * q) = (3 * (dp * q)) / 2 ^ 52 := by ring
  rw [e5]
  rw [e4] at key
  have : (2 * (dp * dq)) / 2 ^ 52 ≤ (3 * (dp * q)) / 2 ^ 52 := by
    apply div_le_div_of_nonneg_right this (by norm_num)
  linarith

set_option exponentiation.threshold 2048 in
/-- A conversion is within the relative error `2 ^ -49` of the exact quotient formed
with the decimal factors. -/
theorem scale_decimal (x p q dp dq : ℚ) (hp1 : 1 / 2 ^ 21 ≤ p) (hp2 : p ≤ 2 ^ 21)
    (hq1 : 1 / 2 ^ 21 ≤ q) (hdp : 0 < dp) (hdq : 0 < dq)
    (hp : |p - dp| ≤ dp / 2 ^ 52) (hq : |q - dq| ≤ dq / 2 ^ 52) (hx : |x| ≤ 2 ^ 900) :
    ∃ w : ℚ, fin x * fin p / fin q = fin w ∧
      |w - x * dp / dq| ≤ |x * dp / dq| / 2 ^ 49 + 1 / 2 ^ 1000 := by
  obtain ⟨w, h1, e1⟩ := scale_approx x x p q 0 0 (by simp) le_rfl (by norm_num) le_rfl
    (by norm_num) hp1 hp2 hq1 (le_trans hx (by norm_num))
  refine ⟨w, h1, ?_⟩
  clear hx h1
  have hf := factor_quotient p q dp dq hdp hdq hp hq
  have hZY : |x * p / q - x * dp / dq| ≤ 3 / 2 ^ 52 * |x * dp / dq| := by
    have e : x * p / q - x * dp / dq = x * (p / q - dp / dq) := by ring
    have e2 : x * dp / dq = x * (dp / dq) := by ring
    rw [e, e2, abs_mul, abs_mul, abs_of_pos (div_pos hdp hdq)]
    have := mul_le_mul_of_nonneg_left hf (abs_nonneg x)
    linarith
  have hA := abs_nonneg (x * dp / dq)
  have hB := abs_sub_abs_le_abs_sub (x * p / q) (x * dp / dq)
  have hC := abs_sub_le w (x * p / q) (x * dp / dq)
  generalize |x * dp / dq| = A at *
  generalize |x * p / q| = B at *
  generalize |w - x * p / q| = C1 at *
  generalize |x * p / q - x * dp / dq| = C2 at *
  generalize |w - x * dp / dq| = D at *
  have t : (2 ^ 44 * 0 + 2 ^ 23 / 2 ^ 1075 : ℚ) ≤ 1 / 2 ^ 1000 := by norm_num
  have t0 : (0 : ℚ) ≤ 2 ^ 44 * 0 + 2 ^ 23 / 2 ^ 1075 := by norm_num
  generalize (2 ^ 44 * 0 + 2 ^ 23 / 2 ^ 1075 : ℚ) = T at *
  generalize (1 : ℚ) / 2 ^ 1000 = U at *
  norm_num at e1 hZY ⊢
  linarith

/-- Rounding a magnitude at or beyond the overflow threshold gives the positive
infinity. -/
theorem ofRat_overflow (q : ℚ) (h : overflowThreshold ≤ q) : ofRat q = inf false := by
  have h0 : (0 : ℚ) ≤ overflowThreshold := by
    unfold overflowThreshold
    exact Nat.cast_nonneg _
  have hq : 0 ≤ q := le_trans h0 h
  unfold ofRat
  rw [abs_of_nonneg hq, if_pos h]
  simp [not_lt.mpr hq]

/-- Rounding the negative of a positive number gives the negative of its rounding. -/
theorem ofRat_neg_eval (q y : ℚ) (hq : 0 < q) (h : ofRat q = fin y) : ofRat (-q) = fin (-y) := by
  unfold ofRat at h ⊢
  rw [abs_neg]
  by_cases hov : overflowThreshold ≤ |q|
  · rw [if_pos hov] at h
    cases h
  · rw [if_neg hov] at h ⊢
    dsimp only at h ⊢
    rw [if_neg (not_lt.mpr hq.le)] at h
    rw [if_pos (by linarith : -q < 0)]
    cases h
    rfl

/-- An infinity scaled by a positive factor and divided by a positive factor stays as it
is, and so does NaN. -/
theorem nonfinite_mul_div (v : F64) (hv : ∀ x : ℚ, v ≠ fin x) (p q : ℚ) (hp : 0 < p)
    (hq : 0 < q) : v * fin p / fin q = v := by
  have hp0 : p ≠ 0 := ne_of_gt hp
  have hpn : ¬ p < 0 := not_lt.mpr hp.le
  have hqn : ¬ q < 0 := not_lt.mpr hq.le
  cases v with
  | fin x => exact absurd rfl (hv x)
  | inf s => simp [F64.mul, F64.div, hp0, hpn, hqn]
  | nan => simp [F64.mul, F64.div]

/-- An infinity divided by a positive finite number stays as it is. -/
theorem inf_div_fin (s : Bool) (q : ℚ) (hq : 0 < q) : inf s / fin q = inf s := by
  simp [F64.div, not_lt.mpr hq.le]

/-- One rounding after an operation with a known absolute error, with the least spacing
bounded by `2 ^ -53`. -/
theorem abs_step_one (t Z E M : ℚ) (h1 : |t - Z| ≤ E) (h2 : |Z| ≤ M) (h3 : M + E ≤ 2 ^ 1000) :
    ∃ z : ℚ, ofRat t = fin z ∧ |z - Z| ≤ E + (M + E + 1) / 2 ^ 53 := by
  obtain ⟨z, hz, e⟩ := abs_step t Z E M h1 h2 h3
  refine ⟨z, hz, ?_⟩
  have : (1 : ℚ) / 2 ^ 1075 ≤ 1 / 2 ^ 53 := by
    apply one_div_le_one_div_of_le (by norm_num)
    exact pow_le_pow_right₀ (by norm_num) (by norm_num)
  have e2 : (M + E + 1) / 2 ^ 53 = (M + E) / 2 ^ 53 + 1 / 2 ^ 53 := by ring
  linarith

end F64

/-! ## The converters -/

/-- A key that is found is paired in the table with the value returned. -/
theorem mapIndex_mem (m : List (String × F64)) (k : String) (h : (mapIndex m k).2 = true) :
    (k, (mapIndex m k).1) ∈ m := by
  induction m with
  | nil => simp [mapIndex, List.lookup] at h
  | cons p m ih =>
    obtain ⟨k', v⟩ := p
    by_cases hk : k = k'
    · subst hk
      simp [mapIndex, List.lookup]
    · have hb : (k == k') = false := by simpa using hk
      have e : mapIndex ((k', v) :: m) k = mapIndex m k := by
        simp [mapIndex, List.lookup, hb]
      rw [e] at h ⊢
      exact List.mem_cons_of_mem _ (ih h)

/-- The index operation finds exactly the keys of the table. -/
theorem mapIndex_ok_iff (m : List (String × F64)) (k : String) :
    (mapIndex m k).2 = true ↔ k ∈ m.map Prod.fst := by
  induction m with
  | nil => simp [mapIndex, List.lookup]
  | cons p m ih =>
    obtain ⟨k', v⟩ := p
    by_cases hk : k = k'
    · subst hk
      simp [mapIndex, List.lookup]
    · have hb : (k == k') = false := by simpa using hk
      have e : mapIndex ((k', v) :: m) k = mapIndex m k := by
        simp [mapIndex, List.lookup, hb]
      rw [e, ih]
      simp [hk]

/-- A key that is not found yields the zero value. -/
theorem mapIndex_not_ok (m : List (String × F64)) (k : String) (h : (mapIndex m k).2 = false) :
    mapIndex m k = (0, false) := by
  unfold mapIndex at h ⊢
  split at h <;> simp_all

/-- A decimal constant between `2 ^ -20` and `2 ^ 20` is a positive finite `float64`
between `2 ^ -21` and `2 ^ 21`, within the relative error `2 ^ -52` of the decimal. -/
theorem F64.ofRat_factor (c : ℚ) (h1 : 1 / 2 ^ 20 ≤ c) (h2 : c ≤ 2 ^ 20) :
    ∃ q : ℚ, F64.ofRat c = F64.fin q ∧ 1 / 2 ^ 21 ≤ q ∧ q ≤ 2 ^ 21 ∧
      |q - c| ≤ c / 2 ^ 52 := by
  have hc : 0 < c := lt_of_lt_of_le (by positivity) h1
  have hlt : |c| < overflowThreshold := by
    rw [abs_of_pos hc]
    exact F64.lt_overflowThreshold c (le_trans h2 (by norm_num))
  obtain ⟨q, hq, herr, -, -⟩ := F64.ofRat_err c hlt
  rw [abs_of_pos hc] at herr
  have hsmall : (1 : ℚ) / 2 ^ 1075 ≤ c / 2 ^ 53 := by
    rw [div_le_div_iff₀ (by positivity) (by positivity)]
    have : (1 : ℚ) / 2 ^ 20 * 2 ^ 1075 ≤ c * 2 ^ 1075 :=
      mul_le_mul_of_nonneg_right h1 (by positivity)
    have e : (1 : ℚ) / 2 ^ 20 * 2 ^ 1075 = 2 ^ 1055 := by norm_num
    have : (2 : ℚ) ^ 53 ≤ 2 ^ 1055 := by norm_num
    linarith
  have herr2 : |q - c| ≤ c / 2 ^ 52 := by
    have : c / 2 ^ 53 + c / 2 ^ 53 = c / 2 ^ 52 := by ring
    linarith
  have hb : c / 2 ^ 52 ≤ c / 2 := by
    apply div_le_div_of_nonneg_left hc.le (by norm_num) (by norm_num)
  obtain ⟨e1, e2⟩ := abs_le.mp herr2
  refine ⟨q, hq, ?_, ?_, herr2⟩
  · have : (1 : ℚ) / 2 ^ 21 = 1 / 2 ^ 20 / 2 := by norm_num
    linarith
  · have : (2 : ℚ) ^ 21 = 2 ^ 20 * 2 := by norm_num
    linarith

/-- Every factor of the length table is a finite number between `2 ^ -21` and `2 ^ 21`. -/
theorem lengthToMeters_bounds (p : String × F64) (h : p ∈ lengthToMeters) :
    ∃ q : ℚ, 1 / 2 ^ 21 ≤ q ∧ q ≤ 2 ^ 21 ∧ p.2 = F64.fin q := by
  simp only [lengthToMeters, List.mem_cons, List.mem_singleton, List.not_mem_nil, or_false] at h
  rcases h with h | h | h | h | h | h | h | h <;> subst h
  · obtain ⟨q, e, a, b, -⟩ := F64.ofRat_factor 0.001 (by norm_num) (by norm_num)
    exact ⟨q, a, b, e⟩
  · obtain ⟨q, e, a, b, -⟩ := F64.ofRat_factor 0.01 (by norm_num) (by norm_num)
    exact ⟨q, a, b, e⟩
  · exact ⟨1, by norm_num, by norm_num, rfl⟩
  · exact ⟨1000, by norm_num, by norm_num, rfl⟩
  · obtain ⟨q, e, a, b, -⟩ := F64.ofRat_factor 0.0254 (by norm_num) (by norm_num)
    exact ⟨q, a, b, e⟩
  · obtain ⟨q, e, a, b, -⟩ := F64.ofRat_factor 0.3048 (by norm_num) (by norm_num)
    exact ⟨q, a, b, e⟩
  · obtain ⟨q, e, a, b, -⟩ := F64.ofRat_factor 0.9144 (by norm_num) (by norm_num)
    exact ⟨q, a, b, e⟩
  · obtain ⟨q, e, a, b, -⟩ := F64.ofRat_factor 1609.344 (by norm_num) (by norm_num)
    exact ⟨q, a, b, e⟩

/-- Every factor of the weight table is a finite number between `2 ^ -21` and `2 ^ 21`. -/
theorem weightToKg_bounds (p : String × F64) (h : p ∈ weightToKg) :
    ∃ q : ℚ, 1 / 2 ^ 21 ≤ q ∧ q ≤ 2 ^ 21 ∧ p.2 = F64.fin q := by
  simp only [weightToKg, List.mem_cons, List.mem_singleton, List.not_mem_nil, or_false] at h
  rcases h with h | h | h | h | h <;> subst h
  · obtain ⟨q, e, a, b, -⟩ := F64.ofRat_factor 1e-6 (by norm_num) (by norm_num)
    exact ⟨q, a, b, e⟩
  · obtain ⟨q, e, a, b, -⟩ := F64.ofRat_factor 1e-3 (by norm_num) (by norm_num)
    exact ⟨q, a, b, e⟩
  · exact ⟨1, by norm_num, by norm_num, rfl⟩
  · obtain ⟨q, e, a, b, -⟩ := F64.ofRat_factor 0.028349523125 (by norm_num) (by norm_num)
    exact ⟨q, a, b, e⟩
  · obtain ⟨q, e, a, b, -⟩ := F64.ofRat_factor 0.45359237 (by norm_num) (by norm_num)
    exact ⟨q, a, b, e⟩

/-- Every factor of the length table is a positive finite number. -/
theorem lengthToMeters_pos (p : String × F64) (h : p ∈ lengthToMeters) :
    ∃ q : ℚ, 0 < q ∧ p.2 = F64.fin q := by
  obtain ⟨q, a, -, e⟩ := lengthToMeters_bounds p h
  exact ⟨q, lt_of_lt_of_le (by positivity) a, e⟩

/-- Every factor of the weight table is a positive finite number. -/
theorem weightToKg_pos (p : String × F64) (h : p ∈ weightToKg) :
    ∃ q : ℚ, 0 < q ∧ p.2 = F64.fin q := by
  obtain ⟨q, a, -, e⟩ := weightToKg_bounds p h
  exact ⟨q, lt_of_lt_of_le (by positivity) a, e⟩

/-- The length converter, in terms of the two table lookups. -/
theorem convertLength_eq (v : F64) (a b : String) :
    convertLength v a b =
      if (mapIndex lengthToMeters a).2 = true ∧ (mapIndex lengthToMeters b).2 = true then
        (v * (mapIndex lengthToMeters a).1 / (mapIndex lengthToMeters b).1, "")
      else (0, "Unsupported length unit.") := by
  unfold convertLength
  rcases mapIndex lengthToMeters a with ⟨fk, okF⟩
  rcases mapIndex lengthToMeters b with ⟨tk, okT⟩
  cases okF <;> cases okT <;> simp

/-- The weight converter, in terms of the two table lookups. -/
theorem convertWeight_eq (v : F64) (a b : String) :
    convertWeight v a b =
      if (mapIndex weightToKg a).2 = true ∧ (mapIndex weightToKg b).2 = true then
        (v * (mapIndex weightToKg a).1 / (mapIndex weightToKg b).1, "")
      else (0, "Unsupported weight unit.") := by
  unfold convertWeight
  rcases mapIndex weightToKg a with ⟨fk, okF⟩
  rcases mapIndex weightToKg b with ⟨tk, okT⟩
  cases okF <;> cases okT <;> simp

/-- The keys of the length table. -/
theorem lengthToMeters_keys :
    lengthToMeters.map Prod.fst =
      ["millimeter", "centimeter", "meter", "kilometer", "inch", "foot", "yard", "mile"] := rfl

/-- The keys of the weight table. -/
theorem weightToKg_keys :
    weightToKg.map Prod.fst = ["milligram", "gram", "kilogram", "ounce", "pound"] := rfl

/-- In a table without repeated keys, indexing a listed key returns its value. -/
theorem mapIndex_of_mem (m : List (String × F64)) (hnd : (m.map Prod.fst).Nodup)
    (k : String) (v : F64) (h : (k, v) ∈ m) : mapIndex m k = (v, true) := by
  induction m with
  | nil => simp at h
  | cons p m ih =>
    obtain ⟨k', v'⟩ := p
    rw [List.map_cons, List.nodup_cons] at hnd
    rcases List.mem_cons.mp h with h1 | h2
    · cases h1
      simp [mapIndex, List.lookup]
    · have hk : k ≠ k' := by
        intro e
        apply hnd.1
        rw [← e]
        exact List.mem_map.mpr ⟨(k, v), h2, rfl⟩
      have hb : (k == k') = false := by simpa using hk
      have e : mapIndex ((k', v') :: m) k = mapIndex m k := by
        simp [mapIndex, List.lookup, hb]
      rw [e]
      exact ih hnd.2 h2

/-- The length table has no repeated key. -/
theorem lengthToMeters_nodup : (lengthToMeters.map Prod.fst).Nodup := by
  rw [lengthToMeters_keys]
  decide

/-- The weight table has no repeated key. -/
theorem weightToKg_nodup : (weightToKg.map Prod.fst).Nodup := by
  rw [weightToKg_keys]
  decide

/-- The length converter on two listed units. -/
theorem convertLength_of_mem (v : F64) (a b : String) (fa fb : F64)
    (ha : (a, fa) ∈ lengthToMeters) (hb : (b, fb) ∈ lengthToMeters) :
    convertLength v a b = (v * fa / fb, "") := by
  rw [convertLength_eq, mapIndex_of_mem _ lengthToMeters_nodup a fa ha,
    mapIndex_of_mem _ lengthToMeters_nodup b fb hb]
  simp

/-- The weight converter on two listed units. -/
theorem convertWeight_of_mem (v : F64) (a b : String) (fa fb : F64)
    (ha : (a, fa) ∈ weightToKg) (hb : (b, fb) ∈ weightToKg) :
    convertWeight v a b = (v * fa / fb, "") := by
  rw [convertWeight_eq, mapIndex_of_mem _ weightToKg_nodup a fa ha,
    mapIndex_of_mem _ weightToKg_nodup b fb hb]
  simp

/-- A length unit is listed with a positive finite factor. -/
theorem lengthToMeters_index (a : String)
    (ha : a ∈ ["millimeter", "centimeter", "meter", "kilometer", "inch", "foot", "yard",
      "mile"]) :
    ∃ q : ℚ, 0 < q ∧ mapIndex lengthToMeters a = (F64.fin q, true) := by
  have h1 : (mapIndex lengthToMeters a).2 = true := by
    rw [mapIndex_ok_iff, lengthToMeters_keys]
    exact ha
  obtain ⟨q, hq, e⟩ := lengthToMeters_pos _ (mapIndex_mem _ _ h1)
  exact ⟨q, hq, Prod.ext e h1⟩

/-- A weight unit is listed with a positive finite factor. -/
theorem weightToKg_index (a : String)
    (ha : a ∈ ["milligram", "gram", "kilogram", "ounce", "pound"]) :
    ∃ q : ℚ, 0 < q ∧ mapIndex weightToKg a = (F64.fin q, true) := by
  have h1 : (mapIndex weightToKg a).2 = true := by
    rw [mapIndex_ok_iff, weightToKg_keys]
    exact ha
  obtain ⟨q, hq, e⟩ := weightToKg_pos _ (mapIndex_mem _ _ h1)
  exact ⟨q, hq, Prod.ext e h1⟩

/-- The first stage of the temperature conversion fails exactly off the three units. -/
theorem toCelsius_err_iff (v : F64) (a : String) :
    (toCelsius v a).2 ≠ "" ↔ a ∉ ["Celsius", "Fahrenheit", "Kelvin"] := by
  unfold toCelsius
  split_ifs <;> simp [*]

/-- The second stage of the temperature conversion fails exactly off the three units. -/
theorem fromCelsius_err_iff (c : F64) (b : String) :
    (fromCelsius c b).2 ≠ "" ↔ b ∉ ["Celsius", "Fahrenheit", "Kelvin"] := by
  unfold fromCelsius
  split_ifs <;> simp [*]

/-- A failing first stage returns zero and the temperature message. -/
theorem toCelsius_of_err (v : F64) (a : String) (h : (toCelsius v a).2 ≠ "") :
    toCelsius v a = (0, "Unsupported temperature unit.") := by
  unfold toCelsius at h ⊢
  split_ifs at h ⊢ <;> simp_all

/-- A failing second stage returns zero and the temperature message. -/
theorem fromCelsius_of_err (c : F64) (b : String) (h : (fromCelsius c b).2 ≠ "") :
    fromCelsius c b = (0, "Unsupported temperature unit.") := by
  unfold fromCelsius at h ⊢
  split_ifs at h ⊢ <;> simp_all

/-- The temperature converter, in terms of its two stages. -/
theorem convertTemp_eq (v : F64) (a b : String) :
    convertTemp v a b =
      if (toCelsius v a).2 ≠ "" then (0, (toCelsius v a).2)
      else if (fromCelsius (toCelsius v a).1 b).2 ≠ "" then
        (0, (fromCelsius (toCelsius v a).1 b).2)
      else ((fromCelsius (toCelsius v a).1 b).1, "") := by
  unfold convertTemp
  rcases toCelsius v a with ⟨c, err⟩
  simp only

/-- The temperature converter on two of the three units is the second stage after the
first, with no error. -/
theorem convertTemp_of_mem (v : F64) (a b : String)
    (ha : a ∈ ["Celsius", "Fahrenheit", "Kelvin"])
    (hb : b ∈ ["Celsius", "Fahrenheit", "Kelvin"]) :
    convertTemp v a b = ((fromCelsius (toCelsius v a).1 b).1, "") := by
  have h1 : ¬ (toCelsius v a).2 ≠ "" := by
    rw [toCelsius_err_iff]
    exact fun h => h ha
  have h2 : ¬ (fromCelsius (toCelsius v a).1 b).2 ≠ "" := by
    rw [fromCelsius_err_iff]
    exact fun h => h hb
  rw [convertTemp_eq, if_neg h1, if_neg h2]

/-- The first stage on one of the three units reports no error. -/
theorem toCelsius_ok (v : F64) (a : String) (ha : a ∈ ["Celsius", "Fahrenheit", "Kelvin"]) :
    (toCelsius v a).2 = "" := by
  by_contra h
  exact (toCelsius_err_iff v a).mp h ha

/-- The second stage on one of the three units reports no error. -/
theorem fromCelsius_ok (c : F64) (b : String) (hb : b ∈ ["Celsius", "Fahrenheit", "Kelvin"]) :
    (fromCelsius c b).2 = "" := by
  by_contra h
  exact (fromCelsius_err_iff c b).mp h hb

/-- The length converter on two listed units, with the factors. -/
theorem convertLength_of_units (v : F64) (a b : String)
    (ha : a ∈ ["millimeter", "centimeter", "meter", "kilometer", "inch", "foot", "yard",
      "mile"])
    (hb : b ∈ ["millimeter", "centimeter", "meter", "kilometer", "inch", "foot", "yard",
      "mile"]) :
    ∃ p q : ℚ, 0 < p ∧ 0 < q ∧ mapIndex lengthToMeters a = (F64.fin p, true) ∧
      mapIndex lengthToMeters b = (F64.fin q, true) ∧
      convertLength v a b = (v * F64.fin p / F64.fin q, "") := by
  obtain ⟨p, hp, ea⟩ := lengthToMeters_index a ha
  obtain ⟨q, hq, eb⟩ := lengthToMeters_index b hb
  refine ⟨p, q, hp, hq, ea, eb, ?_⟩
  rw [convertLength_eq, ea, eb]
  simp

/-- The weight converter on two listed units, with the factors. -/
theorem convertWeight_of_units (v : F64) (a b : String)
    (ha : a ∈ ["milligram", "gram", "kilogram", "ounce", "pound"])
    (hb : b ∈ ["milligram", "gram", "kilogram", "ounce", "pound"]) :
    ∃ p q : ℚ, 0 < p ∧ 0 < q ∧ mapIndex weightToKg a = (F64.fin p, true) ∧
      mapIndex weightToKg b = (F64.fin q, true) ∧
      convertWeight v a b = (v * F64.fin p / F64.fin q, "") := by
  obtain ⟨p, hp, ea⟩ := weightToKg_index a ha
  obtain ⟨q, hq, eb⟩ := weightToKg_index b hb
  refine ⟨p, q, hp, hq, ea, eb, ?_⟩
  rw [convertWeight_eq, ea, eb]
  simp

/-! ## Rounding in the converters -/

/-- The first stage on Celsius. -/
theorem toCelsius_celsius (v : F64) : toCelsius v "Celsius" = (v, "") := by
  unfold toCelsius
  rw [if_pos rfl]

/-- The second stage on Celsius. -/
theorem fromCelsius_celsius (c : F64) : fromCelsius c "Celsius" = (c, "") := by
  unfold fromCelsius
  rw [if_pos rfl]

/-- The first stage on Fahrenheit. -/
theorem toCelsius_fahrenheit (v : F64) : toCelsius v "Fahrenheit" = ((v - 32) * 5 / 9, "") := by
  unfold toCelsius
  rw [if_neg (by decide), if_pos rfl]

/-- The first stage on Kelvin. -/
theorem toCelsius_kelvin (v : F64) : toCelsius v "Kelvin" = (v - 273.15, "") := by
  unfold toCelsius
  rw [if_neg (by decide), if_neg (by decide), if_pos rfl]

/-- The second stage on Fahrenheit. -/
theorem fromCelsius_fahrenheit (c : F64) : fromCelsius c "Fahrenheit" = (c * 9 / 5 + 32, "") := by
  unfold fromCelsius
  rw [if_neg (by decide), if_pos rfl]

/-- The second stage on Kelvin. -/
theorem fromCelsius_kelvin (c : F64) : fromCelsius c "Kelvin" = (c + 273.15, "") := by
  unfold fromCelsius
  rw [if_neg (by decide), if_neg (by decide), if_pos rfl]

/-- The constant 273.15 of the program is a `float64` within `2 ^ -43` of the decimal. -/
theorem kelvin_offset : ∃ k : ℚ, (273.15 : F64) = F64.fin k ∧ |k - 273.15| ≤ 1 / 2 ^ 43 := by
  obtain ⟨k, h, -, -, e⟩ := F64.ofRat_factor 273.15 (by norm_num) (by norm_num)
  refine ⟨k, h, le_trans e (by norm_num)⟩

set_option exponentiation.threshold 2048 in
/-- The first stage on a finite Fahrenheit value that approximates `X`. -/
theorem toCelsius_fahrenheit_approx (x X E M : ℚ) (hx : |x - X| ≤ E) (hX : |X| ≤ M)
    (hE : E ≤ M + 300) (hM : M ≤ 2 ^ 990) :
    ∃ z : ℚ, toCelsius (F64.fin x) "Fahrenheit" = (F64.fin z, "") ∧
      |z - (X - 32) * 5 / 9| ≤ 2 * E + (M + 300) / 2 ^ 49 := by
  have hE0 : 0 ≤ E := le_trans (abs_nonneg _) hx
  have hM0 : 0 ≤ M := le_trans (abs_nonneg _) hX
  have hb : (2 : ℚ) ^ 1000 = 2 ^ 990 * 1024 := by norm_num
  obtain ⟨z1, h1, e1⟩ := F64.abs_step_one (x - 32) (X - 32) E (M + 32)
    (by rw [show x - 32 - (X - 32) = x - X by ring]; exact hx)
    (by
      have := abs_sub X 32
      rw [abs_of_pos (by norm_num : (0 : ℚ) < 32)] at this
      linarith)
    (by rw [hb]; linarith)
  obtain ⟨z2, h2, e2⟩ := F64.abs_step_one (z1 * 5) ((X - 32) * 5)
    (5 * (E + (M + 32 + E + 1) / 2 ^ 53)) (5 * (M + 32))
    (by
      rw [show z1 * 5 - (X - 32) * 5 = (z1 - (X - 32)) * 5 by ring, abs_mul,
        abs_of_pos (by norm_num : (0 : ℚ) < 5)]
      linarith)
    (by
      rw [abs_mul, abs_of_pos (by norm_num : (0 : ℚ) < 5)]
      have := abs_sub X 32
      rw [abs_of_pos (by norm_num : (0 : ℚ) < 32)] at this
      linarith)
    (by rw [hb]; linarith)
  obtain ⟨z3, h3, e3⟩ := F64.abs_step_one (z2 / 9) ((X - 32) * 5 / 9)
    ((5 * (E + (M + 32 + E + 1) / 2 ^ 53) +
      (5 * (M + 32) + 5 * (E + (M + 32 + E + 1) / 2 ^ 53) + 1) / 2 ^ 53) / 9)
    (5 * (M + 32) / 9)
    (by
      rw [show z2 / 9 - (X - 32) * 5 / 9 = (z2 - (X - 32) * 5) / 9 by ring, abs_div,
        abs_of_pos (by norm_num : (0 : ℚ) < 9)]
      apply div_le_div_of_nonneg_right e2 (by norm_num))
    (by
      rw [abs_div, abs_mul, abs_of_pos (by norm_num : (0 : ℚ) < 5),
        abs_of_pos (by norm_num : (0 : ℚ) < 9)]
      have := abs_sub X 32
      rw [abs_of_pos (by norm_num : (0 : ℚ) < 32)] at this
      apply div_le_div_of_nonneg_right _ (by norm_num)
      linarith)
    (by rw [hb]; linarith)
  refine ⟨z3, ?_, ?_⟩
  · rw [toCelsius_fahrenheit, F64.ofNat_eq, F64.ofNat_eq, F64.ofNat_eq, F64.fin_sub_fin, h1,
      F64.fin_mul_fin, h2, F64.fin_div_fin _ _ (by norm_num), h3]
  · clear hM hb
    linarith


set_option exponentiation.threshold 2048 in
/-- The first stage on a finite Kelvin value that approximates `X`. -/
theorem toCelsius_kelvin_approx (x X E M : ℚ) (hx : |x - X| ≤ E) (hX : |X| ≤ M)
    (hE : E ≤ M + 300) (hM : M ≤ 2 ^ 990) :
    ∃ z : ℚ, toCelsius (F64.fin x) "Kelvin" = (F64.fin z, "") ∧
      |z - (X - 273.15)| ≤ 2 * E + (M + 300) / 2 ^ 49 := by
  have hE0 : 0 ≤ E := le_trans (abs_nonneg _) hx
  have hM0 : 0 ≤ M := le_trans (abs_nonneg _) hX
  have hb : (2 : ℚ) ^ 1000 = 2 ^ 990 * 1024 := by norm_num
  obtain ⟨k, hk, ek⟩ := kelvin_offset
  obtain ⟨z1, h1, e1⟩ := F64.abs_step_one (x - k) (X - 273.15) (E + 1 / 2 ^ 43) (M + 274)
    (by
      rw [show x - k - (X - 273.15) = (x - X) - (k - 273.15) by ring]
      have := abs_sub (x - X) (k - 273.15)
      linarith)
    (by
      have := abs_sub X 273.15
      rw [abs_of_pos (by norm_num : (0 : ℚ) < 273.15)] at this
      have : (273.15 : ℚ) ≤ 274 := by norm_num
      linarith)
    (by
      rw [hb]
      have : (1 : ℚ) / 2 ^ 43 ≤ 1 := by norm_num
      linarith)
  refine ⟨z1, ?_, ?_⟩
  · rw [toCelsius_kelvin, hk, F64.fin_sub_fin, h1]
  · clear hM hb
    have : (1 : ℚ) / 2 ^ 43 = 64 / 2 ^ 49 := by norm_num
    have e2 : (M + 300) / 2 ^ 49 = M / 2 ^ 49 + 300 / 2 ^ 49 := by ring
    have e3 : (M + 274 + (E + 1 / 2 ^ 43) + 1) / 2 ^ 53 =
        M / 2 ^ 53 + E / 2 ^ 53 + (275 + 1 / 2 ^ 43) / 2 ^ 53 := by ring
    have e4 : M / 2 ^ 53 ≤ M / 2 ^ 49 := by
      apply div_le_div_of_nonneg_left hM0 (by norm_num) (by norm_num)
    have e5 : E / 2 ^ 53 ≤ E := by
      apply div_le_self hE0 (by norm_num)
    have e6 : ((275 : ℚ) + 1 / 2 ^ 43) / 2 ^ 53 + 1 / 2 ^ 43 ≤ 300 / 2 ^ 49 := by norm_num
    linarith

set_option exponentiation.threshold 2048 in
/-- The second stage to Fahrenheit on a finite value that approximates `X`. -/
theorem fromCelsius_fahrenheit_approx (x X E M : ℚ) (hx : |x - X| ≤ E) (hX : |X| ≤ M)
    (hE : E ≤ M + 300) (hM : M ≤ 2 ^ 990) :
    ∃ z : ℚ, fromCelsius (F64.fin x) "Fahrenheit" = (F64.fin z, "") ∧
      |z - (X * 9 / 5 + 32)| ≤ 2 * E + (M + 300) / 2 ^ 49 := by
  have hE0 : 0 ≤ E := le_trans (abs_nonneg _) hx
  have hM0 : 0 ≤ M := le_trans (abs_nonneg _) hX
  have hb : (2 : ℚ) ^ 1000 = 2 ^ 990 * 1024 := by norm_num
  obtain ⟨z1, h1, e1⟩ := F64.abs_step_one (x * 9) (X * 9) (9 * E) (9 * M)
    (by
      rw [show x * 9 - X * 9 = (x - X) * 9 by ring, abs_mul,
        abs_of_pos (by norm_num : (0 : ℚ) < 9)]
      linarith)
    (by
      rw [abs_mul, abs_of_pos (by norm_num : (0 : ℚ) < 9)]
      linarith)
    (by rw [hb]; linarith)
  obtain ⟨z2, h2, e2⟩ := F64.abs_step_one (z1 / 5) (X * 9 / 5)
    ((9 * E + (9 * M + 9 * E + 1) / 2 ^ 53) / 5) (9 * M / 5)
    (by
      rw [show z1 / 5 - X * 9 / 5 = (z1 - X * 9) / 5 by ring, abs_div,
        abs_of_pos (by norm_num : (0 : ℚ) < 5)]
      apply div_le_div_of_nonneg_right e1 (by norm_num))
    (by
      rw [abs_div, abs_mul, abs_of_pos (by norm_num : (0 : ℚ) < 9),
        abs_of_pos (by norm_num : (0 : ℚ) < 5)]
      apply div_le_div_of_nonneg_right _ (by norm_num)
      linarith)
    (by rw [hb]; linarith)
  obtain ⟨z3, h3, e3⟩ := F64.abs_step_one (z2 + 32) (X * 9 / 5 + 32)
    ((9 * E + (9 * M + 9 * E + 1) / 2 ^ 53) / 5 +
      (9 * M / 5 + (9 * E + (9 * M + 9 * E + 1) / 2 ^ 53) / 5 + 1) / 2 ^ 53)
    (9 * M / 5 + 32)
    (by
      rw [show z2 + 32 - (X * 9 / 5 + 32) = z2 - X * 9 / 5 by ring]
      exact e2)
    (by
      have := abs_add (X * 9 / 5) 32
      rw [abs_of_pos (by norm_num : (0 : ℚ) < 32), abs_div, abs_mul,
        abs_of_pos (by norm_num : (0 : ℚ) < 9), abs_of_pos (by norm_num : (0 : ℚ) < 5)] at this
      have : |X| * 9 / 5 ≤ 9 * M / 5 := by
        apply div_le_div_of_nonneg_right _ (by norm_num)
        linarith
      linarith)
    (by rw [hb]; linarith)
  refine ⟨z3, ?_, ?_⟩
  · rw [fromCelsius_fahrenheit, F64.ofNat_eq, F64.ofNat_eq, F64.ofNat_eq, F64.fin_mul_fin, h1,
      F64.fin_div_fin _ _ (by norm_num), h2, F64.fin_add_fin, h3]
  · clear hM hb
    linarith

set_option exponentiation.threshold 2048 in
/-- The second stage to Kelvin on a finite value that approximates `X`. -/
theorem fromCelsius_kelvin_approx (x X E M : ℚ) (hx : |x - X| ≤ E) (hX : |X| ≤ M)
    (hE : E ≤ M + 300) (hM : M ≤ 2 ^ 990) :
    ∃ z : ℚ, fromCelsius (F64.fin x) "Kelvin" = (F64.fin z, "") ∧
      |z - (X + 273.15)| ≤ 2 * E + (M + 300) / 2 ^ 49 := by
  have hE0 : 0 ≤ E := le_trans (abs_nonneg _) hx
  have hM0 : 0 ≤ M := le_trans (abs_nonneg _) hX
  have hb : (2 : ℚ) ^ 1000 = 2 ^ 990 * 1024 := by norm_num
  obtain ⟨k, hk, ek⟩ := kelvin_offset
  obtain ⟨z1, h1, e1⟩ := F64.abs_step_one (x + k) (X + 273.15) (E + 1 / 2 ^ 43) (M + 274)
    (by
      rw [show x + k - (X + 273.15) = (x - X) + (k - 273.15) by ring]
      have := abs_add (x - X) (k - 273.15)
      linarith)
    (by
      have := abs_add X 273.15
      rw [abs_of_pos (by norm_num : (0 : ℚ) < 273.15)] at this
      have : (273.15 : ℚ) ≤ 274 := by norm_num
      linarith)
    (by
      rw [hb]
      have : (1 : ℚ) / 2 ^ 43 ≤ 1 := by norm_num
      linarith)
  refine ⟨z1, ?_, ?_⟩
  · rw [fromCelsius_kelvin, hk, F64.fin_add_fin, h1]
  · clear hM hb
    have e2 : (M + 300) / 2 ^ 49 = M / 2 ^ 49 + 300 / 2 ^ 49 := by ring
    have e3 : (M + 274 + (E + 1 / 2 ^ 43) + 1) / 2 ^ 53 =
        M / 2 ^ 53 + E / 2 ^ 53 + (275 + 1 / 2 ^ 43) / 2 ^ 53 := by ring
    have e4 : M / 2 ^ 53 ≤ M / 2 ^ 49 := by
      apply div_le_div_of_nonneg_left hM0 (by norm_num) (by norm_num)
    have e5 : E / 2 ^ 53 ≤ E := by
      apply div_le_self hE0 (by norm_num)
    have e6 : ((275 : ℚ) + 1 / 2 ^ 43) / 2 ^ 53 + 1 / 2 ^ 43 ≤ 300 / 2 ^ 49 := by norm_num
    linarith

/-- The first stage on a finite value that approximates `X`, for each of the three units:
the result approximates the exact formula. -/
theorem toCelsius_approx (u : String) (hu : u ∈ ["Celsius", "Fahrenheit", "Kelvin"])
    (x X E M : ℚ) (hx : |x - X| ≤ E) (hX : |X| ≤ M) (hE : E ≤ M + 300) (hM : M ≤ 2 ^ 990) :
    ∃ z : ℚ, toCelsius (F64.fin x) u = (F64.fin z, "") ∧
      |z - exactToCelsius X u| ≤ 2 * E + (M + 300) / 2 ^ 49 ∧
      |exactToCelsius X u| ≤ 2 * M + 300 := by
  have hE0 : 0 ≤ E := le_trans (abs_nonneg _) hx
  have hM0 : 0 ≤ M := le_trans (abs_nonneg _) hX
  obtain ⟨hX1, hX2⟩ := abs_le.mp hX
  simp only [List.mem_cons, List.mem_singleton, List.not_mem_nil, or_false] at hu
  rcases hu with rfl | rfl | rfl
  · refine ⟨x, by simp [toCelsius], ?_, ?_⟩
    · have : (0 : ℚ) ≤ (M + 300) / 2 ^ 49 := div_nonneg (by linarith) (by norm_num)
      simp only [exactToCelsius, if_true]
      linarith
    · simp only [exactToCelsius, if_true]
      linarith
  · obtain ⟨z, h, e⟩ := toCelsius_fahrenheit_approx x X E M hx hX hE hM
    have e0 : exactToCelsius X "Fahrenheit" = (X - 32) * 5 / 9 := by
      unfold exactToCelsius
      rw [if_neg (by decide), if_pos rfl]
    rw [e0]
    refine ⟨z, h, e, ?_⟩
    rw [abs_le]
    constructor <;> linarith
  · obtain ⟨z, h, e⟩ := toCelsius_kelvin_approx x X E M hx hX hE hM
    have e0 : exactToCelsius X "Kelvin" = X - 273.15 := by
      unfold exactToCelsius
      rw [if_neg (by decide), if_neg (by decide), if_pos rfl]
    rw [e0]
    refine ⟨z, h, e, ?_⟩
    rw [abs_le]
    constructor <;> norm_num <;> linarith

/-- The second stage on a finite value that approximates `X`, for each of the three
units: the result approximates the exact formula. -/
theorem fromCelsius_approx (u : String) (hu : u ∈ ["Celsius", "Fahrenheit", "Kelvin"])
    (x X E M : ℚ) (hx : |x - X| ≤ E) (hX : |X| ≤ M) (hE : E ≤ M + 300) (hM : M ≤ 2 ^ 990) :
    ∃ z : ℚ, fromCelsius (F64.fin x) u = (F64.fin z, "") ∧
      |z - exactFromCelsius X u| ≤ 2 * E + (M + 300) / 2 ^ 49 ∧
      |exactFromCelsius X u| ≤ 2 * M + 300 := by
  have hE0 : 0 ≤ E := le_trans (abs_nonneg _) hx
  have hM0 : 0 ≤ M := le_trans (abs_nonneg _) hX
  obtain ⟨hX1, hX2⟩ := abs_le.mp hX
  simp only [List.mem_cons, List.mem_singleton, List.not_mem_nil, or_false] at hu
  rcases hu with rfl | rfl | rfl
  · refine ⟨x, by simp [fromCelsius], ?_, ?_⟩
    · have : (0 : ℚ) ≤ (M + 300) / 2 ^ 49 := div_nonneg (by linarith) (by norm_num)
      simp only [exactFromCelsius, if_true]
      linarith
    · simp only [exactFromCelsius, if_true]
      linarith
  · obtain ⟨z, h, e⟩ := fromCelsius_fahrenheit_approx x X E M hx hX hE hM
    have e0 : exactFromCelsius X "Fahrenheit" = X * 9 / 5 + 32 := by
      unfold exactFromCelsius
      rw [if_neg (by decide), if_pos rfl]
    rw [e0]
    refine ⟨z, h, e, ?_⟩
    rw [abs_le]
    constructor <;> linarith
  · obtain ⟨z, h, e⟩ := fromCelsius_kelvin_approx x X E M hx hX hE hM
    have e0 : exactFromCelsius X "Kelvin" = X + 273.15 := by
      unfold exactFromCelsius
      rw [if_neg (by decide), if_neg (by decide), if_pos rfl]
    rw [e0]
    refine ⟨z, h, e, ?_⟩
    rw [abs_le]
    constructor <;> norm_num <;> linarith

/-- In exact arithmetic the second stage undoes the first. -/
theorem exactFromCelsius_exactToCelsius (x : ℚ) (u : String)
    (hu : u ∈ ["Celsius", "Fahrenheit", "Kelvin"]) :
    exactFromCelsius (exactToCelsius x u) u = x := by
  simp only [List.mem_cons, List.mem_singleton, List.not_mem_nil, or_false] at hu
  rcases hu with rfl | rfl | rfl <;> simp [exactFromCelsius, exactToCelsius]

/-- In exact arithmetic the first stage undoes the second. -/
theorem exactToCelsius_exactFromCelsius (c : ℚ) (u : String)
    (hu : u ∈ ["Celsius", "Fahrenheit", "Kelvin"]) :
    exactToCelsius (exactFromCelsius c u) u = c := by
  simp only [List.mem_cons, List.mem_singleton, List.not_mem_nil, or_false] at hu
  rcases hu with rfl | rfl | rfl <;> simp [exactFromCelsius, exactToCelsius]

set_option exponentiation.threshold 2048 in
/-- The temperature converter on a finite value that approximates `X`: the result
approximates the exact two-stage formula. -/
theorem convertTemp_approx (a b : String) (ha : a ∈ ["Celsius", "Fahrenheit", "Kelvin"])
    (hb : b ∈ ["Celsius", "Fahrenheit", "Kelvin"]) (x X E M : ℚ) (hx : |x - X| ≤ E)
    (hX : |X| ≤ M) (hE : E ≤ (M + 300) / 4) (hM : M ≤ 2 ^ 980) :
    ∃ w : ℚ, convertTemp (F64.fin x) a b = (F64.fin w, "") ∧
      |w - exactFromCelsius (exactToCelsius X a) b| ≤ 4 * E + (M + 300) / 2 ^ 47 ∧
      |exactFromCelsius (exactToCelsius X a) b| ≤ 4 * M + 900 := by
  have hE0 : 0 ≤ E := le_trans (abs_nonneg _) hx
  have hM0 : 0 ≤ M := le_trans (abs_nonneg _) hX
  have hb1 : (2 : ℚ) ^ 990 = 2 ^ 980 * 1024 := by norm_num
  obtain ⟨z, hz, ez, mz⟩ := toCelsius_approx a ha x X E M hx hX (by linarith)
    (by rw [hb1]; linarith)
  have hsmall : (M + 300) / 2 ^ 49 ≤ (M + 300) / 4 := by
    apply div_le_div_of_nonneg_left (by linarith) (by norm_num) (by norm_num)
  obtain ⟨w, hw, ew, mw⟩ := fromCelsius_approx b hb z (exactToCelsius X a)
    (2 * E + (M + 300) / 2 ^ 49) (2 * M + 300) ez mz (by linarith) (by rw [hb1]; linarith)
  refine ⟨w, ?_, ?_, ?_⟩
  · rw [convertTemp_of_mem _ a b ha hb, hz, hw]
  · clear hM hb1
    have e1 : (2 * M + 300 + 300) / 2 ^ 49 = 2 * ((M + 300) / 2 ^ 49) := by ring
    have e2 : (M + 300) / 2 ^ 47 = 4 * ((M + 300) / 2 ^ 49) := by ring
    linarith
  · linarith

/-- A length unit is listed with a finite factor between `2 ^ -21` and `2 ^ 21`. -/
theorem lengthToMeters_index_bounds (a : String)
    (ha : a ∈ ["millimeter", "centimeter", "meter", "kilometer", "inch", "foot", "yard",
      "mile"]) :
    ∃ q : ℚ, 1 / 2 ^ 21 ≤ q ∧ q ≤ 2 ^ 21 ∧ mapIndex lengthToMeters a = (F64.fin q, true) := by
  have h1 : (mapIndex lengthToMeters a).2 = true := by
    rw [mapIndex_ok_iff, lengthToMeters_keys]
    exact ha
  obtain ⟨q, hq1, hq2, e⟩ := lengthToMeters_bounds _ (mapIndex_mem _ _ h1)
  exact ⟨q, hq1, hq2, Prod.ext e h1⟩

/-- A weight unit is listed with a finite factor between `2 ^ -21` and `2 ^ 21`. -/
theorem weightToKg_index_bounds (a : String)
    (ha : a ∈ ["milligram", "gram", "kilogram", "ounce", "pound"]) :
    ∃ q : ℚ, 1 / 2 ^ 21 ≤ q ∧ q ≤ 2 ^ 21 ∧ mapIndex weightToKg a = (F64.fin q, true) := by
  have h1 : (mapIndex weightToKg a).2 = true := by
    rw [mapIndex_ok_iff, weightToKg_keys]
    exact ha
  obtain ⟨q, hq1, hq2, e⟩ := weightToKg_bounds _ (mapIndex_mem _ _ h1)
  exact ⟨q, hq1, hq2, Prod.ext e h1⟩

/-- The length converter on two listed units, with the factors and their bounds. -/
theorem convertLength_of_index (a b : String)
    (ha : a ∈ ["millimeter", "centimeter", "meter", "kilometer", "inch", "foot", "yard",
      "mile"])
    (hb : b ∈ ["millimeter", "centimeter", "meter", "kilometer", "inch", "foot", "yard",
      "mile"]) :
    ∃ p q : ℚ, (1 / 2 ^ 21 ≤ p ∧ p ≤ 2 ^ 21) ∧ (1 / 2 ^ 21 ≤ q ∧ q ≤ 2 ^ 21) ∧
      mapIndex lengthToMeters a = (F64.fin p, true) ∧
      mapIndex lengthToMeters b = (F64.fin q, true) ∧
      ∀ v : F64, convertLength v a b = (v * F64.fin p / F64.fin q, "") := by
  obtain ⟨p, hp1, hp2, ea⟩ := lengthToMeters_index_bounds a ha
  obtain ⟨q, hq1, hq2, eb⟩ := lengthToMeters_index_bounds b hb
  refine ⟨p, q, ⟨hp1, hp2⟩, ⟨hq1, hq2⟩, ea, eb, fun v => ?_⟩
  rw [convertLength_eq, ea, eb]
  simp

/-- The weight converter on two listed units, with the factors and their bounds. -/
theorem convertWeight_of_index (a b : String)
    (ha : a ∈ ["milligram", "gram", "kilogram", "ounce", "pound"])
    (hb : b ∈ ["milligram", "gram", "kilogram", "ounce", "pound"]) :
    ∃ p q : ℚ, (1 / 2 ^ 21 ≤ p ∧ p ≤ 2 ^ 21) ∧ (1 / 2 ^ 21 ≤ q ∧ q ≤ 2 ^ 21) ∧
      mapIndex weightToKg a = (F64.fin p, true) ∧
      mapIndex weightToKg b = (F64.fin q, true) ∧
      ∀ v : F64, convertWeight v a b = (v * F64.fin p / F64.fin q, "") := by
  obtain ⟨p, hp1, hp2, ea⟩ := weightToKg_index_bounds a ha
  obtain ⟨q, hq1, hq2, eb⟩ := weightToKg_index_bounds b hb
  refine ⟨p, q, ⟨hp1, hp2⟩, ⟨hq1, hq2⟩, ea, eb, fun v => ?_⟩
  rw [convertWeight_eq, ea, eb]
  simp

/-- A decimal factor of the length table: the unit is listed with the `float64` nearest to
the decimal. -/
theorem lengthToMeters_decimal (a : String) (d : ℚ)
    (h : (a, d) ∈ [("millimeter", (0.001 : ℚ)), ("centimeter", 0.01), ("meter", 1),
      ("kilometer", 1000), ("inch", 0.0254), ("foot", 0.3048), ("yard", 0.9144),
      ("mile", 1609.344)]) :
    ∃ p : ℚ, mapIndex lengthToMeters a = (F64.fin p, true) ∧ 1 / 2 ^ 21 ≤ p ∧ p ≤ 2 ^ 21 ∧
      0 < d ∧ |p - d| ≤ d / 2 ^ 52 := by
  simp only [List.mem_cons, List.mem_singleton, List.not_mem_nil, or_false,
    Prod.mk.injEq] at h
  rcases h with h | h | h | h | h | h | h | h <;> obtain ⟨ha, hd⟩ := h <;> subst ha hd
  · obtain ⟨q, e, a1, a2, a3⟩ := F64.ofRat_factor 0.001 (by norm_num) (by norm_num)
    exact ⟨q, by rw [mapIndex_of_mem _ lengthToMeters_nodup "millimeter" 0.001
      (by simp [lengthToMeters])]; exact Prod.ext e rfl, a1, a2, by norm_num, a3⟩
  · obtain ⟨q, e, a1, a2, a3⟩ := F64.ofRat_factor 0.01 (by norm_num) (by norm_num)
    exact ⟨q, by rw [mapIndex_of_mem _ lengthToMeters_nodup "centimeter" 0.01
      (by simp [lengthToMeters])]; exact Prod.ext e rfl, a1, a2, by norm_num, a3⟩
  · exact ⟨1, by rw [mapIndex_of_mem _ lengthToMeters_nodup "meter" 1
      (by simp [lengthToMeters])]; simp, by norm_num, by norm_num, by norm_num, by norm_num⟩
  · exact ⟨1000, by rw [mapIndex_of_mem _ lengthToMeters_nodup "kilometer" 1000
      (by simp [lengthToMeters])]; simp, by norm_num, by norm_num, by norm_num, by norm_num⟩
  · obtain ⟨q, e, a1, a2, a3⟩ := F64.ofRat_factor 0.0254 (by norm_num) (by norm_num)
    exact ⟨q, by rw [mapIndex_of_mem _ lengthToMeters_nodup "inch" 0.0254
      (by simp [lengthToMeters])]; exact Prod.ext e rfl, a1, a2, by norm_num, a3⟩
  · obtain ⟨q, e, a1, a2, a3⟩ := F64.ofRat_factor 0.3048 (by norm_num) (by norm_num)
    exact ⟨q, by rw [mapIndex_of_mem _ lengthToMeters_nodup "foot" 0.3048
      (by simp [lengthToMeters])]; exact Prod.ext e rfl, a1, a2, by norm_num, a3⟩
  · obtain ⟨q, e, a1, a2, a3⟩ := F64.ofRat_factor 0.9144 (by norm_num) (by norm_num)
    exact ⟨q, by rw [mapIndex_of_mem _ lengthToMeters_nodup "yard" 0.9144
      (by simp [lengthToMeters])]; exact Prod.ext e rfl, a1, a2, by norm_num, a3⟩
  · obtain ⟨q, e, a1, a2, a3⟩ := F64.ofRat_factor 1609.344 (by norm_num) (by norm_num)
    exact ⟨q, by rw [mapIndex_of_mem _ lengthToMeters_nodup "mile" 1609.344
      (by simp [lengthToMeters])]; exact Prod.ext e rfl, a1, a2, by norm_num, a3⟩

/-- A decimal factor of the weight table: the unit is listed with the `float64` nearest to
the decimal. -/
theorem weightToKg_decimal (a : String) (d : ℚ)
    (h : (a, d) ∈ [("milligram", (1e-6 : ℚ)), ("gram", 1e-3), ("kilogram", 1),
      ("ounce", 0.028349523125), ("pound", 0.45359237)]) :
    ∃ p : ℚ, mapIndex weightToKg a = (F64.fin p, true) ∧ 1 / 2 ^ 21 ≤ p ∧ p ≤ 2 ^ 21 ∧
      0 < d ∧ |p - d| ≤ d / 2 ^ 52 := by
  simp only [List.mem_cons, List.mem_singleton, List.not_mem_nil, or_false,
    Prod.mk.injEq] at h
  rcases h with ⟨rfl, rfl⟩ | ⟨rfl, rfl⟩ | ⟨rfl, rfl⟩ | ⟨rfl, rfl⟩ | ⟨rfl, rfl⟩
  · obtain ⟨q, e, a1, a2, a3⟩ := F64.ofRat_factor 1e-6 (by norm_num) (by norm_num)
    exact ⟨q, by rw [mapIndex_of_mem _ weightToKg_nodup "milligram" 1e-6
      (by simp [weightToKg])]; exact Prod.ext e rfl, a1, a2, by norm_num, a3⟩
  · obtain ⟨q, e, a1, a2, a3⟩ := F64.ofRat_factor 1e-3 (by norm_num) (by norm_num)
    exact ⟨q, by rw [mapIndex_of_mem _ weightToKg_nodup "gram" 1e-3
      (by simp [weightToKg])]; exact Prod.ext e rfl, a1, a2, by norm_num, a3⟩
  · exact ⟨1, by rw [mapIndex_of_mem _ weightToKg_nodup "kilogram" 1
      (by simp [weightToKg])]; simp, by norm_num, by norm_num, by norm_num, by norm_num⟩
  · obtain ⟨q, e, a1, a2, a3⟩ := F64.ofRat_factor 0.028349523125 (by norm_num) (by norm_num)
    exact ⟨q, by rw [mapIndex_of_mem _ weightToKg_nodup "ounce" 0.028349523125
      (by simp [weightToKg])]; exact Prod.ext e rfl, a1, a2, by norm_num, a3⟩
  · obtain ⟨q, e, a1, a2, a3⟩ := F64.ofRat_factor 0.45359237 (by norm_num) (by norm_num)
    exact ⟨q, by rw [mapIndex_of_mem _ weightToKg_nodup "pound" 0.45359237
      (by simp [weightToKg])]; exact Prod.ext e rfl, a1, a2, by norm_num, a3⟩

/-- An infinity or NaN goes through the temperature converter unchanged. -/
theorem convertTemp_nonfinite (v : F64) (hv : ∀ x : ℚ, v ≠ F64.fin x) (a b : String)
    (ha : a ∈ ["Celsius", "Fahrenheit", "Kelvin"])
    (hb : b ∈ ["Celsius", "Fahrenheit", "Kelvin"]) : convertTemp v a b = (v, "") := by
  obtain ⟨k, hk, -⟩ := kelvin_offset
  rw [convertTemp_of_mem v a b ha hb]
  simp only [List.mem_cons, List.mem_singleton, List.not_mem_nil, or_false] at ha hb
  cases v with
  | fin x => exact absurd rfl (hv x)
  | inf s =>
    have h9 : ¬ ((9 : ℚ) < 0) := by norm_num
    have h5 : ¬ ((5 : ℚ) < 0) := by norm_num
    rcases ha with rfl | rfl | rfl <;> rcases hb with rfl | rfl | rfl <;>
      simp [toCelsius, fromCelsius, hk, F64.add, F64.sub, F64.mul, F64.div, h9, h5]
  | nan =>
    rcases ha with rfl | rfl | rfl <;> rcases hb with rfl | rfl | rfl <;>
      simp [toCelsius, fromCelsius, hk, F64.add, F64.sub, F64.mul, F64.div]

/-- An infinity or NaN goes through the length converter unchanged. -/
theorem convertLength_nonfinite (v : F64) (hv : ∀ x : ℚ, v ≠ F64.fin x) (a b : String)
    (ha : a ∈ ["millimeter", "centimeter", "meter", "kilometer", "inch", "foot", "yard",
      "mile"])
    (hb : b ∈ ["millimeter", "centimeter", "meter", "kilometer", "inch", "foot", "yard",
      "mile"]) : convertLength v a b = (v, "") := by
  obtain ⟨p, q, ⟨hp, -⟩, ⟨hq, -⟩, -, -, e⟩ := convertLength_of_index a b ha hb
  rw [e, F64.nonfinite_mul_div v hv p q (lt_of_lt_of_le (by norm_num) hp)
    (lt_of_lt_of_le (by norm_num) hq)]

/-- An infinity or NaN goes through the weight converter unchanged. -/
theorem convertWeight_nonfinite (v : F64) (hv : ∀ x : ℚ, v ≠ F64.fin x) (a b : String)
    (ha : a ∈ ["milligram", "gram", "kilogram", "ounce", "pound"])
    (hb : b ∈ ["milligram", "gram", "kilogram", "ounce", "pound"]) :
    convertWeight v a b = (v, "") := by
  obtain ⟨p, q, ⟨hp, -⟩, ⟨hq, -⟩, -, -, e⟩ := convertWeight_of_index a b ha hb
  rw [e, F64.nonfinite_mul_div v hv p q (lt_of_lt_of_le (by norm_num) hp)
    (lt_of_lt_of_le (by norm_num) hq)]

set_option exponentiation.threshold 2048 in
/-- Scaling by a factor and dividing by the same factor returns a number within the
relative error `2 ^ -51` of the value. -/
theorem F64.scale_same (x p : ℚ) (hp1 : 1 / 2 ^ 21 ≤ p) (hp2 : p ≤ 2 ^ 21)
    (hx : |x| ≤ 2 ^ 900) :
    ∃ w : ℚ, F64.fin x * F64.fin p / F64.fin p = F64.fin w ∧
      |w - x| ≤ |x| / 2 ^ 51 + 1 / 2 ^ 1000 := by
  have hp : 0 < p := lt_of_lt_of_le (by norm_num) hp1
  obtain ⟨w, hw, e⟩ := F64.scale_approx x x p p 0 0 (by simp) le_rfl (by norm_num) le_rfl
    (by norm_num) hp1 hp2 hp1 (le_trans hx (by norm_num))
  refine ⟨w, hw, ?_⟩
  have e1 : x * p / p = x := by field_simp
  rw [e1] at e
  clear hx hw
  have t : (2 ^ 44 * 0 + 2 ^ 23 / 2 ^ 1075 : ℚ) ≤ 1 / 2 ^ 1000 := by norm_num
  have e2 : (0 + 4 / 2 ^ 53 : ℚ) * |x| = |x| / 2 ^ 51 := by ring
  rw [e2] at e
  linarith

/-- A `float64` value scaled by the factor 1 and divided by the factor 1 is unchanged. -/
theorem F64.scale_one (x : ℚ) (hx : F64.ofRat x = F64.fin x) :
    F64.fin x * F64.fin 1 / F64.fin 1 = F64.fin x := by
  rw [F64.fin_mul_fin, mul_one, hx, F64.fin_div_fin _ _ one_ne_zero, div_one, hx]

set_option exponentiation.threshold 2048 in
/-- A temperature converted from one unit to a second and on to a third: the result is
within `(|x| + 300) * 2 ^ -44` of the exact conversion from the first to the third. -/
theorem convertTemp_twice_approx (a b c : String) (ha : a ∈ ["Celsius", "Fahrenheit", "Kelvin"])
    (hb : b ∈ ["Celsius", "Fahrenheit", "Kelvin"]) (hc : c ∈ ["Celsius", "Fahrenheit", "Kelvin"])
    (x : ℚ) (hx : |x| ≤ 2 ^ 900) :
    ∃ w1 w2 : ℚ, convertTemp (F64.fin x) a b = (F64.fin w1, "") ∧
      convertTemp (F64.fin w1) b c = (F64.fin w2, "") ∧
      |w2 - exactFromCelsius (exactToCelsius x a) c| ≤ (|x| + 300) / 2 ^ 44 := by
  have hA : 0 ≤ |x| := abs_nonneg x
  obtain ⟨w1, h1, e1, m1⟩ := convertTemp_approx a b ha hb x x 0 |x| (by simp) le_rfl
    (div_nonneg (add_nonneg hA (by norm_num)) (by norm_num))
    (le_trans hx (by norm_num))
  have hM : 4 * |x| + 900 ≤ 2 ^ 980 := by
    have : 4 * |x| + 900 ≤ 4 * 2 ^ 900 + 900 := by linarith
    exact le_trans this (by norm_num)
  have hE : 4 * 0 + (|x| + 300) / 2 ^ 47 ≤ (4 * |x| + 900 + 300) / 4 := by
    clear hx hM
    have : (|x| + 300) / 2 ^ 47 ≤ (|x| + 300) / 1 := by
      apply div_le_div_of_nonneg_left (by linarith) (by norm_num) (by norm_num)
    linarith
  obtain ⟨w2, h2, e2, -⟩ := convertTemp_approx b c hb hc w1
    (exactFromCelsius (exactToCelsius x a) b) (4 * 0 + (|x| + 300) / 2 ^ 47) (4 * |x| + 900)
    e1 m1 hE hM
  refine ⟨w1, w2, h1, h2, ?_⟩
  rw [exactToCelsius_exactFromCelsius _ b hb] at e2
  clear hx hM hE
  have e3 : 4 * (4 * 0 + (|x| + 300) / 2 ^ 47) + (4 * |x| + 900 + 300) / 2 ^ 47 =
      (|x| + 300) / 2 ^ 44 := by ring
  linarith

/-! ## The examples in `float64` arithmetic

Each value below is the nearest `float64`, written as an integer times or over a power of
two; the decimal in the comment is its shortest decimal form. -/

/-- The factor 0.9144 of the tables as a `float64`. -/
theorem F64.yard_factor : (0.9144 : F64) = F64.fin (8236182998535163 / 2 ^ 53) := by
  show F64.ofRat (0.9144 : ℚ) = _
  exact (F64.ofRat_eval_frac _ 53 8236182998535163 (by norm_num) (by norm_num) (by norm_num) (F64.roundHalfEven_eq _ 8236182998535163 (by norm_num) (by norm_num) (by norm_num))).trans (by norm_num)

/-- The factor 0.3048 of the tables as a `float64`. -/
theorem F64.foot_factor : (0.3048 : F64) = F64.fin (5490788665690109 / 2 ^ 54) := by
  show F64.ofRat (0.3048 : ℚ) = _
  exact (F64.ofRat_eval_frac _ 54 5490788665690109 (by norm_num) (by norm_num) (by norm_num) (F64.roundHalfEven_eq _ 5490788665690109 (by norm_num) (by norm_num) (by norm_num))).trans (by norm_num)

/-- In `float64`, 3 times 0.9144 is 2.7432. -/
theorem F64.example_1 : F64.fin 3 * F64.fin (8236182998535163 / 2 ^ 53) = F64.fin (1544284312225343 / 2 ^ 49) := by
  rw [F64.fin_mul_fin]
  exact (F64.ofRat_eval_frac _ 51 6177137248901372 (by norm_num) (by norm_num) (by norm_num) (F64.roundHalfEven_eq _ 6177137248901372 (by norm_num) (by norm_num) (by norm_num))).trans (by norm_num)

/-- In `float64`, 2.7432 over 0.3048 is 8.999999999999998. -/
theorem F64.example_2 : F64.fin (1544284312225343 / 2 ^ 49) / F64.fin (5490788665690109 / 2 ^ 54) = F64.fin (5066549580791807 / 2 ^ 49) := by
  rw [F64.fin_div_fin _ _ (by norm_num)]
  exact (F64.ofRat_eval_frac _ 49 5066549580791807 (by norm_num) (by norm_num) (by norm_num) (F64.roundHalfEven_eq _ 5066549580791807 (by norm_num) (by norm_num) (by norm_num))).trans (by norm_num)

/-- The example 3 yard in foot: 8.999999999999998, one spacing below 9. -/
theorem three_yard_in_foot :
    convertLength 3 "yard" "foot" = (F64.fin (5066549580791807 / 2 ^ 49), "") := by
  rw [convertLength_of_mem _ "yard" "foot" 0.9144 0.3048 (by simp [lengthToMeters]) (by simp [lengthToMeters])]
  simp only [F64.ofNat_eq, F64.one_eq, F64.zero_eq, F64.foot_factor, F64.yard_factor]
  rw [F64.example_1, F64.example_2]

/-- The constant 2.54 as a `float64`. -/
theorem F64.literal_2_54 : (2.54 : F64) = F64.fin (2859785763380265 / 2 ^ 50) := by
  show F64.ofRat (2.54 : ℚ) = _
  exact (F64.ofRat_eval_frac _ 51 5719571526760530 (by norm_num) (by norm_num) (by norm_num) (F64.roundHalfEven_eq _ 5719571526760530 (by norm_num) (by norm_num) (by norm_num))).trans (by norm_num)

/-- The factor 0.01 of the tables as a `float64`. -/
theorem F64.centimeter_factor : (0.01 : F64) = F64.fin (5764607523034235 / 2 ^ 59) := by
  show F64.ofRat (0.01 : ℚ) = _
  exact (F64.ofRat_eval_frac _ 59 5764607523034235 (by norm_num) (by norm_num) (by norm_num) (F64.roundHalfEven_eq _ 5764607523034235 (by norm_num) (by norm_num) (by norm_num))).trans (by norm_num)

/-- The factor 0.0254 of the tables as a `float64`. -/
theorem F64.inch_factor : (0.0254 : F64) = F64.fin (3660525777126739 / 2 ^ 57) := by
  show F64.ofRat (0.0254 : ℚ) = _
  exact (F64.ofRat_eval_frac _ 58 7321051554253478 (by norm_num) (by norm_num) (by norm_num) (F64.roundHalfEven_eq _ 7321051554253478 (by norm_num) (by norm_num) (by norm_num))).trans (by norm_num)

/-- In `float64`, 2.54 times 0.01 is 0.025400000000000002. -/
theorem F64.example_3 : F64.fin (2859785763380265 / 2 ^ 50) * F64.fin (5764607523034235 / 2 ^ 59) = F64.fin (7321051554253479 / 2 ^ 58) := by
  rw [F64.fin_mul_fin]
  exact (F64.ofRat_eval_frac _ 58 7321051554253479 (by norm_num) (by norm_num) (by norm_num) (F64.roundHalfEven_eq _ 7321051554253479 (by norm_num) (by norm_num) (by norm_num))).trans (by norm_num)

/-- In `float64`, 0.025400000000000002 over 0.0254 is 1.0000000000000002. -/
theorem F64.example_4 : F64.fin (7321051554253479 / 2 ^ 58) / F64.fin (3660525777126739 / 2 ^ 57) = F64.fin (4503599627370497 / 2 ^ 52) := by
  rw [F64.fin_div_fin _ _ (by norm_num)]
  exact (F64.ofRat_eval_frac _ 52 4503599627370497 (by norm_num) (by norm_num) (by norm_num) (F64.roundHalfEven_eq _ 4503599627370497 (by norm_num) (by norm_num) (by norm_num))).trans (by norm_num)

/-- The example 2.54 centimeter in inch: 1.0000000000000002, one spacing above 1. -/
theorem centimeters_in_inch :
    convertLength 2.54 "centimeter" "inch" = (F64.fin (4503599627370497 / 2 ^ 52), "") := by
  rw [convertLength_of_mem _ "centimeter" "inch" 0.01 0.0254 (by simp [lengthToMeters]) (by simp [lengthToMeters])]
  simp only [F64.ofNat_eq, F64.one_eq, F64.zero_eq, F64.centimeter_factor, F64.inch_factor, F64.literal_2_54]
  rw [F64.example_3, F64.example_4]

/-- The factor 0.028349523125 of the tables as a `float64`. -/
theorem F64.ounce_factor : (0.028349523125 : F64) = F64.fin (8171193714040401 / 2 ^ 58) := by
  show F64.ofRat (0.028349523125 : ℚ) = _
  exact (F64.ofRat_eval_frac _ 58 8171193714040401 (by norm_num) (by norm_num) (by norm_num) (F64.roundHalfEven_eq _ 8171193714040401 (by norm_num) (by norm_num) (by norm_num))).trans (by norm_num)

/-- The factor 0.45359237 of the tables as a `float64`. -/
theorem F64.pound_factor : (0.45359237 : F64) = F64.fin (8171193714040401 / 2 ^ 54) := by
  show F64.ofRat (0.45359237 : ℚ) = _
  exact (F64.ofRat_eval_frac _ 54 8171193714040401 (by norm_num) (by norm_num) (by norm_num) (F64.roundHalfEven_eq _ 8171193714040401 (by norm_num) (by norm_num) (by norm_num))).trans (by norm_num)

/-- In `float64`, 16 times 0.028349523125 is 0.45359237. -/
theorem F64.example_5 : F64.fin 16 * F64.fin (8171193714040401 / 2 ^ 58) = F64.fin (8171193714040401 / 2 ^ 54) := by
  rw [F64.fin_mul_fin]
  exact (F64.ofRat_eval_frac _ 54 8171193714040401 (by norm_num) (by norm_num) (by norm_num) (F64.roundHalfEven_eq _ 8171193714040401 (by norm_num) (by norm_num) (by norm_num))).trans (by norm_num)

/-- In `float64`, 0.45359237 over 0.45359237 is 1. -/
theorem F64.example_6 : F64.fin (8171193714040401 / 2 ^ 54) / F64.fin (8171193714040401 / 2 ^ 54) = F64.fin 1 := by
  rw [F64.fin_div_fin _ _ (by norm_num)]
  exact (F64.ofRat_eval_frac _ 52 4503599627370496 (by norm_num) (by norm_num) (by norm_num) (F64.roundHalfEven_eq _ 4503599627370496 (by norm_num) (by norm_num) (by norm_num))).trans (by norm_num)

/-- The example 16 ounce in pound: exactly 1. -/
theorem sixteen_ounce_in_pound :
    convertWeight 16 "ounce" "pound" = (F64.fin 1, "") := by
  rw [convertWeight_of_mem _ "ounce" "pound" 0.028349523125 0.45359237 (by simp [weightToKg]) (by simp [weightToKg])]
  simp only [F64.ofNat_eq, F64.one_eq, F64.zero_eq, F64.ounce_factor, F64.pound_factor]
  rw [F64.example_5, F64.example_6]

/-- The constant 273.15 as a `float64`. -/
theorem F64.kelvin_constant : (273.15 : F64) = F64.fin (2402652809016115 / 2 ^ 43) := by
  show F64.ofRat (273.15 : ℚ) = _
  exact (F64.ofRat_eval_frac _ 44 4805305618032230 (by norm_num) (by norm_num) (by norm_num) (F64.roundHalfEven_eq _ 4805305618032230 (by norm_num) (by norm_num) (by norm_num))).trans (by norm_num)

/-- In `float64`, 0 plus 273.15 is 273.15. -/
theorem F64.example_7 : F64.fin 0 + F64.fin (2402652809016115 / 2 ^ 43) = F64.fin (2402652809016115 / 2 ^ 43) := by
  rw [F64.fin_add_fin]
  exact (F64.ofRat_eval_frac _ 44 4805305618032230 (by norm_num) (by norm_num) (by norm_num) (F64.roundHalfEven_eq _ 4805305618032230 (by norm_num) (by norm_num) (by norm_num))).trans (by norm_num)

/-- The example 0 Celsius in Kelvin: the `float64` nearest to 273.15. -/
theorem zero_celsius_in_kelvin :
    convertTemp 0 "Celsius" "Kelvin" = (F64.fin (2402652809016115 / 2 ^ 43), "") := by
  rw [convertTemp_of_mem _ _ _ (by simp) (by simp)]
  simp only [toCelsius_celsius, fromCelsius_kelvin, F64.ofNat_eq, F64.one_eq, F64.zero_eq, F64.kelvin_constant]
  rw [F64.example_7]

/-- In `float64`, 100 times 9 is 900. -/
theorem F64.example_8 : F64.fin 100 * F64.fin 9 = F64.fin 900 := by
  rw [F64.fin_mul_fin]
  exact (F64.ofRat_eval_frac _ 43 7916483719987200 (by norm_num) (by norm_num) (by norm_num) (F64.roundHalfEven_eq _ 7916483719987200 (by norm_num) (by norm_num) (by norm_num))).trans (by norm_num)

/-- In `float64`, 900 over 5 is 180. -/
theorem F64.example_9 : F64.fin 900 / F64.fin 5 = F64.fin 180 := by
  rw [F64.fin_div_fin _ _ (by norm_num)]
  exact (F64.ofRat_eval_frac _ 45 6333186975989760 (by norm_num) (by norm_num) (by norm_num) (F64.roundHalfEven_eq _ 6333186975989760 (by norm_num) (by norm_num) (by norm_num))).trans (by norm_num)

/-- In `float64`, 180 plus 32 is 212. -/
theorem F64.example_10 : F64.fin 180 + F64.fin 32 = F64.fin 212 := by
  rw [F64.fin_add_fin]
  exact (F64.ofRat_eval_frac _ 45 7459086882832384 (by norm_num) (by norm_num) (by norm_num) (F64.roundHalfEven_eq _ 7459086882832384 (by norm_num) (by norm_num) (by norm_num))).trans (by norm_num)

/-- The example 100 Celsius in Fahrenheit: exactly 212. -/
theorem hundred_celsius_in_fahrenheit :
    convertTemp 100 "Celsius" "Fahrenheit" = (F64.fin 212, "") := by
  rw [convertTemp_of_mem _ _ _ (by simp) (by simp)]
  simp only [toCelsius_celsius, fromCelsius_fahrenheit, F64.ofNat_eq, F64.one_eq, F64.zero_eq]
  rw [F64.example_8, F64.example_9, F64.example_10]

/-- In `float64`, 32 minus 32 is 0. -/
theorem F64.example_11 : F64.fin 32 - F64.fin 32 = F64.fin 0 := by
  rw [F64.fin_sub_fin]
  have e : (32 : ℚ) - 32 = 0 := by norm_num
  rw [e, F64.ofRat_zero]

/-- In `float64`, 0 times 5 is 0. -/
theorem F64.example_12 : F64.fin 0 * F64.fin 5 = F64.fin 0 := by
  rw [F64.fin_mul_fin]
  have e : (0 : ℚ) * 5 = 0 := by norm_num
  rw [e, F64.ofRat_zero]

/-- In `float64`, 0 over 9 is 0. -/
theorem F64.example_13 : F64.fin 0 / F64.fin 9 = F64.fin 0 := by
  rw [F64.fin_div_fin _ _ (by norm_num)]
  have e : (0 : ℚ) / 9 = 0 := by norm_num
  rw [e, F64.ofRat_zero]

/-- The example 32 Fahrenheit in Celsius: exactly 0. -/
theorem freezing_fahrenheit_in_celsius :
    convertTemp 32 "Fahrenheit" "Celsius" = (F64.fin 0, "") := by
  rw [convertTemp_of_mem _ _ _ (by simp) (by simp)]
  simp only [toCelsius_fahrenheit, fromCelsius_celsius, F64.ofNat_eq, F64.one_eq, F64.zero_eq]
  rw [F64.example_11, F64.example_12, F64.example_13]

/-- In `float64`, 300 minus 273.15 is 26.850000000000023. -/
theorem F64.example_14 : F64.fin 300 - F64.fin (2402652809016115 / 2 ^ 43) = F64.fin (236175097646285 / 2 ^ 43) := by
  rw [F64.fin_sub_fin]
  exact (F64.ofRat_eval_frac _ 48 7557603124681120 (by norm_num) (by norm_num) (by norm_num) (F64.roundHalfEven_eq _ 7557603124681120 (by norm_num) (by norm_num) (by norm_num))).trans (by norm_num)

/-- The example 300 Kelvin in Celsius: 26.850000000000023, which is not the `float64` nearest to 26.85. -/
theorem kelvin_300_in_celsius :
    convertTemp 300 "Kelvin" "Celsius" = (F64.fin (236175097646285 / 2 ^ 43), "") := by
  rw [convertTemp_of_mem _ _ _ (by simp) (by simp)]
  simp only [toCelsius_kelvin, fromCelsius_celsius, F64.ofNat_eq, F64.one_eq, F64.zero_eq, F64.kelvin_constant]
  rw [F64.example_14]

/-- The constant 26.85 as a `float64`. -/
theorem F64.literal_26_85 : (26.85 : F64) = F64.fin (3778801562340557 / 2 ^ 47) := by
  show F64.ofRat (26.85 : ℚ) = _
  exact (F64.ofRat_eval_frac _ 48 7557603124681114 (by norm_num) (by norm_num) (by norm_num) (F64.roundHalfEven_eq _ 7557603124681114 (by norm_num) (by norm_num) (by norm_num))).trans (by norm_num)

/-- The factor 1609.344 of the tables as a `float64`. -/
theorem F64.mile_factor : (1609.344 : F64) = F64.fin (1769492441091539 / 2 ^ 40) := by
  show F64.ofRat (1609.344 : ℚ) = _
  exact (F64.ofRat_eval_frac _ 42 7077969764366156 (by norm_num) (by norm_num) (by norm_num) (F64.roundHalfEven_eq _ 7077969764366156 (by norm_num) (by norm_num) (by norm_num))).trans (by norm_num)

/-- In `float64`, 7 times 0.3048 is 2.1336. -/
theorem F64.example_15 : F64.fin 7 * F64.fin (5490788665690109 / 2 ^ 54) = F64.fin (4804440082478845 / 2 ^ 51) := by
  rw [F64.fin_mul_fin]
  exact (F64.ofRat_eval_frac _ 51 4804440082478845 (by norm_num) (by norm_num) (by norm_num) (F64.roundHalfEven_eq _ 4804440082478845 (by norm_num) (by norm_num) (by norm_num))).trans (by norm_num)

/-- In `float64`, 2.1336 over 1609.344 is 0.0013257575757575756. -/
theorem F64.example_16 : F64.fin (4804440082478845 / 2 ^ 51) / F64.fin (1769492441091539 / 2 ^ 40) = F64.fin (764247209493175 / 2 ^ 59) := by
  rw [F64.fin_div_fin _ _ (by norm_num)]
  exact (F64.ofRat_eval_frac _ 62 6113977675945400 (by norm_num) (by norm_num) (by norm_num) (F64.roundHalfEven_eq _ 6113977675945400 (by norm_num) (by norm_num) (by norm_num))).trans (by norm_num)

/-- The example 7 foot in mile. -/
theorem seven_foot_in_mile :
    convertLength 7 "foot" "mile" = (F64.fin (764247209493175 / 2 ^ 59), "") := by
  rw [convertLength_of_mem _ "foot" "mile" 0.3048 1609.344 (by simp [lengthToMeters]) (by simp [lengthToMeters])]
  simp only [F64.ofNat_eq, F64.one_eq, F64.zero_eq, F64.foot_factor, F64.mile_factor]
  rw [F64.example_15, F64.example_16]

/-- In `float64`, 0.0013257575757575756 times 1609.344 is 2.1336. -/
theorem F64.example_17 : F64.fin (764247209493175 / 2 ^ 59) * F64.fin (1769492441091539 / 2 ^ 40) = F64.fin (4804440082478845 / 2 ^ 51) := by
  rw [F64.fin_mul_fin]
  exact (F64.ofRat_eval_frac _ 51 4804440082478845 (by norm_num) (by norm_num) (by norm_num) (F64.roundHalfEven_eq _ 4804440082478845 (by norm_num) (by norm_num) (by norm_num))).trans (by norm_num)

/-- In `float64`, 2.1336 over 0.3048 is 6.999999999999999. -/
theorem F64.example_18 : F64.fin (4804440082478845 / 2 ^ 51) / F64.fin (5490788665690109 / 2 ^ 54) = F64.fin (7881299347898367 / 2 ^ 50) := by
  rw [F64.fin_div_fin _ _ (by norm_num)]
  exact (F64.ofRat_eval_frac _ 50 7881299347898367 (by norm_num) (by norm_num) (by norm_num) (F64.roundHalfEven_eq _ 7881299347898367 (by norm_num) (by norm_num) (by norm_num))).trans (by norm_num)

/-- The example 7 foot in mile, converted back to foot: 6.999999999999999. -/
theorem seven_foot_in_mile_back :
    convertLength (F64.fin (764247209493175 / 2 ^ 59)) "mile" "foot" = (F64.fin (7881299347898367 / 2 ^ 50), "") := by
  rw [convertLength_of_mem _ "mile" "foot" 1609.344 0.3048 (by simp [lengthToMeters]) (by simp [lengthToMeters])]
  simp only [F64.ofNat_eq, F64.one_eq, F64.zero_eq, F64.foot_factor, F64.mile_factor]
  rw [F64.example_17, F64.example_18]

set_option exponentiation.threshold 2048 in
/-- The constant 1e305 as a `float64`. -/
theorem F64.literal_1e305 : (1e305 : F64) = F64.fin (2565335500811485 * 2 ^ 962) := by
  show F64.ofRat (1e305 : ℚ) = _
  exact (F64.ofRat_eval_int _ 961 5130671001622970 (by unfold overflowThreshold; norm_num) (by norm_num) (by norm_num) (F64.roundHalfEven_eq _ 5130671001622970 (by norm_num) (by norm_num) (by norm_num))).trans (by norm_num)

/-- The factor 0.001 of the tables as a `float64`. -/
theorem F64.millimeter_factor : (0.001 : F64) = F64.fin (1152921504606847 / 2 ^ 60) := by
  show F64.ofRat (0.001 : ℚ) = _
  exact (F64.ofRat_eval_frac _ 62 4611686018427388 (by norm_num) (by norm_num) (by norm_num) (F64.roundHalfEven_eq _ 4611686018427388 (by norm_num) (by norm_num) (by norm_num))).trans (by norm_num)

set_option exponentiation.threshold 2048 in
/-- In `float64`, 1e+305 times 1000 is 1e+308. -/
theorem F64.example_19 : F64.fin (2565335500811485 * 2 ^ 962) * F64.fin 1000 = F64.fin (156575653125701 * 2 ^ 976) := by
  rw [F64.fin_mul_fin]
  exact (F64.ofRat_eval_int _ 971 5010420900022432 (by unfold overflowThreshold; norm_num) (by norm_num) (by norm_num) (F64.roundHalfEven_eq _ 5010420900022432 (by norm_num) (by norm_num) (by norm_num))).trans (by norm_num)

set_option exponentiation.threshold 2048 in
/-- In `float64`, 1e+308 over 0.001 is +Inf. -/
theorem F64.example_20 : F64.fin (156575653125701 * 2 ^ 976) / F64.fin (1152921504606847 / 2 ^ 60) = F64.inf false := by
  rw [F64.fin_div_fin _ _ (by norm_num)]
  exact F64.ofRat_overflow _ (by
    unfold overflowThreshold
    norm_num)

/-- The example 1e305 kilometer in millimeter overflows to the positive infinity. -/
theorem huge_kilometer_in_millimeter :
    convertLength 1e305 "kilometer" "millimeter" = (F64.inf false, "") := by
  rw [convertLength_of_mem _ "kilometer" "millimeter" 1000 0.001 (by simp [lengthToMeters]) (by simp [lengthToMeters])]
  simp only [F64.ofNat_eq, F64.one_eq, F64.zero_eq, F64.literal_1e305, F64.millimeter_factor]
  rw [F64.example_19, F64.example_20]

/-- The example 7 foot in foot: 6.999999999999999. -/
theorem seven_foot_in_foot :
    convertLength 7 "foot" "foot" = (F64.fin (7881299347898367 / 2 ^ 50), "") := by
  rw [convertLength_of_mem _ "foot" "foot" 0.3048 0.3048 (by simp [lengthToMeters]) (by simp [lengthToMeters])]
  simp only [F64.ofNat_eq, F64.one_eq, F64.zero_eq, F64.foot_factor]
  rw [F64.example_15, F64.example_18]

/-- The factor 1e-6 of the tables as a `float64`. -/
theorem F64.milligram_factor : (1e-6 : F64) = F64.fin (4722366482869645 / 2 ^ 72) := by
  show F64.ofRat (1e-6 : ℚ) = _
  exact (F64.ofRat_eval_frac _ 72 4722366482869645 (by norm_num) (by norm_num) (by norm_num) (F64.roundHalfEven_eq _ 4722366482869645 (by norm_num) (by norm_num) (by norm_num))).trans (by norm_num)

/-- In `float64`, 31 times 1e-06 is 3.1e-05. -/
theorem F64.example_21 : F64.fin 31 * F64.fin (4722366482869645 / 2 ^ 72) = F64.fin (4574792530279969 / 2 ^ 67) := by
  rw [F64.fin_mul_fin]
  exact (F64.ofRat_eval_frac _ 67 4574792530279969 (by norm_num) (by norm_num) (by norm_num) (F64.roundHalfEven_eq _ 4574792530279969 (by norm_num) (by norm_num) (by norm_num))).trans (by norm_num)

/-- In `float64`, 3.1e-05 over 1e-06 is 31.000000000000004. -/
theorem F64.example_22 : F64.fin (4574792530279969 / 2 ^ 67) / F64.fin (4722366482869645 / 2 ^ 72) = F64.fin (8725724278030337 / 2 ^ 48) := by
  rw [F64.fin_div_fin _ _ (by norm_num)]
  exact (F64.ofRat_eval_frac _ 48 8725724278030337 (by norm_num) (by norm_num) (by norm_num) (F64.roundHalfEven_eq _ 8725724278030337 (by norm_num) (by norm_num) (by norm_num))).trans (by norm_num)

/-- The example 31 milligram in milligram: 31.000000000000004. -/
theorem milligram_31_in_milligram :
    convertWeight 31 "milligram" "milligram" = (F64.fin (8725724278030337 / 2 ^ 48), "") := by
  rw [convertWeight_of_mem _ "milligram" "milligram" 1e-6 1e-6 (by simp [weightToKg]) (by simp [weightToKg])]
  simp only [F64.ofNat_eq, F64.one_eq, F64.zero_eq, F64.milligram_factor]
  rw [F64.example_21, F64.example_22]

/-- The constant 0.1 as a `float64`. -/
theorem F64.literal_0_1 : (0.1 : F64) = F64.fin (3602879701896397 / 2 ^ 55) := by
  show F64.ofRat (0.1 : ℚ) = _
  exact (F64.ofRat_eval_frac _ 56 7205759403792794 (by norm_num) (by norm_num) (by norm_num) (F64.roundHalfEven_eq _ 7205759403792794 (by norm_num) (by norm_num) (by norm_num))).trans (by norm_num)

/-- In `float64`, 0.1 minus 273.15 is -273.04999999999995. -/
theorem F64.example_23 : F64.fin (3602879701896397 / 2 ^ 55) - F64.fin (2402652809016115 / 2 ^ 43) = F64.fin (-(1200886599856947 / 2 ^ 42)) := by
  rw [F64.fin_sub_fin]
  have e : ((3602879701896397 / 2 ^ 55) - (2402652809016115 / 2 ^ 43) : ℚ) = -(9837663026028110643 / 36028797018963968) := by norm_num
  rw [e]
  exact (F64.ofRat_neg_eval _ _ (by norm_num) (F64.ofRat_eval_frac _ 44 4803546399427788 (by norm_num) (by norm_num) (by norm_num) (F64.roundHalfEven_eq _ 4803546399427788 (by norm_num) (by norm_num) (by norm_num)))).trans (by norm_num)

/-- In `float64`, -273.04999999999995 plus 273.15 is 0.10000000000002274. -/
theorem F64.example_24 : F64.fin (-(1200886599856947 / 2 ^ 42)) + F64.fin (2402652809016115 / 2 ^ 43) = F64.fin (879609302221 / 2 ^ 43) := by
  rw [F64.fin_add_fin]
  exact (F64.ofRat_eval_frac _ 56 7205759403794432 (by norm_num) (by norm_num) (by norm_num) (F64.roundHalfEven_eq _ 7205759403794432 (by norm_num) (by norm_num) (by norm_num))).trans (by norm_num)

/-- The example 0.1 Kelvin in Kelvin: 0.10000000000002274. -/
theorem tenth_kelvin_in_kelvin :
    convertTemp 0.1 "Kelvin" "Kelvin" = (F64.fin (879609302221 / 2 ^ 43), "") := by
  rw [convertTemp_of_mem _ _ _ (by simp) (by simp)]
  simp only [toCelsius_kelvin, fromCelsius_kelvin, F64.ofNat_eq, F64.one_eq, F64.zero_eq, F64.kelvin_constant, F64.literal_0_1]
  rw [F64.example_23, F64.example_24]

set_option exponentiation.threshold 2048 in
/-- The constant 1e308 as a `float64`. -/
theorem F64.literal_1e308 : (1e308 : F64) = F64.fin (156575653125701 * 2 ^ 976) := by
  show F64.ofRat (1e308 : ℚ) = _
  exact (F64.ofRat_eval_int _ 971 5010420900022432 (by unfold overflowThreshold; norm_num) (by norm_num) (by norm_num) (F64.roundHalfEven_eq _ 5010420900022432 (by norm_num) (by norm_num) (by norm_num))).trans (by norm_num)

set_option exponentiation.threshold 2048 in
/-- In `float64`, 1e+308 times 1609.344 is +Inf. -/
theorem F64.example_25 : F64.fin (156575653125701 * 2 ^ 976) * F64.fin (1769492441091539 / 2 ^ 40) = F64.inf false := by
  rw [F64.fin_mul_fin]
  exact F64.ofRat_overflow _ (by
    unfold overflowThreshold
    norm_num)

/-- The example 1e308 mile in mile overflows to the positive infinity. -/
theorem huge_mile_in_mile :
    convertLength 1e308 "mile" "mile" = (F64.inf false, "") := by
  rw [convertLength_of_mem _ "mile" "mile" 1609.344 1609.344 (by simp [lengthToMeters]) (by simp [lengthToMeters])]
  simp only [F64.ofNat_eq, F64.one_eq, F64.zero_eq, F64.literal_1e308, F64.mile_factor]
  rw [F64.example_25, F64.inf_div_fin _ _ (by norm_num)]

/-- In `float64`, 3 times 0.01 is 0.03. -/
theorem F64.example_26 : F64.fin 3 * F64.fin (5764607523034235 / 2 ^ 59) = F64.fin (1080863910568919 / 2 ^ 55) := by
  rw [F64.fin_mul_fin]
  exact (F64.ofRat_eval_frac _ 58 8646911284551352 (by norm_num) (by norm_num) (by norm_num) (F64.roundHalfEven_tie _ 8646911284551352 8646911284551352 (by norm_num) (by norm_num) (by norm_num))).trans (by norm_num)

/-- In `float64`, 0.03 over 0.0254 is 1.1811023622047243. -/
theorem F64.example_27 : F64.fin (1080863910568919 / 2 ^ 55) / F64.fin (3660525777126739 / 2 ^ 57) = F64.fin (5319212158311609 / 2 ^ 52) := by
  rw [F64.fin_div_fin _ _ (by norm_num)]
  exact (F64.ofRat_eval_frac _ 52 5319212158311609 (by norm_num) (by norm_num) (by norm_num) (F64.roundHalfEven_eq _ 5319212158311609 (by norm_num) (by norm_num) (by norm_num))).trans (by norm_num)

/-- The example 3 centimeter in inch. -/
theorem three_centimeter_in_inch :
    convertLength 3 "centimeter" "inch" = (F64.fin (5319212158311609 / 2 ^ 52), "") := by
  rw [convertLength_of_mem _ "centimeter" "inch" 0.01 0.0254 (by simp [lengthToMeters]) (by simp [lengthToMeters])]
  simp only [F64.ofNat_eq, F64.one_eq, F64.zero_eq, F64.centimeter_factor, F64.inch_factor]
  rw [F64.example_26, F64.example_27]

/-- In `float64`, 1.1811023622047243 times 0.0254 is 0.029999999999999995. -/
theorem F64.example_28 : F64.fin (5319212158311609 / 2 ^ 52) * F64.fin (3660525777126739 / 2 ^ 57) = F64.fin (8646911284551351 / 2 ^ 58) := by
  rw [F64.fin_mul_fin]
  exact (F64.ofRat_eval_frac _ 58 8646911284551351 (by norm_num) (by norm_num) (by norm_num) (F64.roundHalfEven_eq _ 8646911284551351 (by norm_num) (by norm_num) (by norm_num))).trans (by norm_num)

/-- In `float64`, 0.029999999999999995 over 0.001 is 29.999999999999996. -/
theorem F64.example_29 : F64.fin (8646911284551351 / 2 ^ 58) / F64.fin (1152921504606847 / 2 ^ 60) = F64.fin (8444249301319679 / 2 ^ 48) := by
  rw [F64.fin_div_fin _ _ (by norm_num)]
  exact (F64.ofRat_eval_frac _ 48 8444249301319679 (by norm_num) (by norm_num) (by norm_num) (F64.roundHalfEven_eq _ 8444249301319679 (by norm_num) (by norm_num) (by norm_num))).trans (by norm_num)

/-- The example 3 centimeter in inch, converted on to millimeter. -/
theorem three_centimeter_in_inch_in_millimeter :
    convertLength (F64.fin (5319212158311609 / 2 ^ 52)) "inch" "millimeter" = (F64.fin (8444249301319679 / 2 ^ 48), "") := by
  rw [convertLength_of_mem _ "inch" "millimeter" 0.0254 0.001 (by simp [lengthToMeters]) (by simp [lengthToMeters])]
  simp only [F64.ofNat_eq, F64.one_eq, F64.zero_eq, F64.inch_factor, F64.millimeter_factor]
  rw [F64.example_28, F64.example_29]

/-- In `float64`, 0.03 over 0.001 is 30. -/
theorem F64.example_30 : F64.fin (1080863910568919 / 2 ^ 55) / F64.fin (1152921504606847 / 2 ^ 60) = F64.fin 30 := by
  rw [F64.fin_div_fin _ _ (by norm_num)]
  exact (F64.ofRat_eval_frac _ 48 8444249301319680 (by norm_num) (by norm_num) (by norm_num) (F64.roundHalfEven_eq _ 8444249301319680 (by norm_num) (by norm_num) (by norm_num))).trans (by norm_num)

/-- The example 3 centimeter in millimeter, directly. -/
theorem three_centimeter_in_millimeter :
    convertLength 3 "centimeter" "millimeter" = (F64.fin 30, "") := by
  rw [convertLength_of_mem _ "centimeter" "millimeter" 0.01 0.001 (by simp [lengthToMeters]) (by simp [lengthToMeters])]
  simp only [F64.ofNat_eq, F64.one_eq, F64.zero_eq, F64.centimeter_factor, F64.millimeter_factor]
  rw [F64.example_26, F64.example_30]

/-- In `float64`, 17 times 1e-06 is 1.7e-05. -/
theorem F64.example_31 : F64.fin 17 * F64.fin (4722366482869645 / 2 ^ 72) = F64.fin (2508757194024499 / 2 ^ 67) := by
  rw [F64.fin_mul_fin]
  exact (F64.ofRat_eval_frac _ 68 5017514388048998 (by norm_num) (by norm_num) (by norm_num) (F64.roundHalfEven_eq _ 5017514388048998 (by norm_num) (by norm_num) (by norm_num))).trans (by norm_num)

/-- In `float64`, 1.7e-05 over 0.001 is 0.017. -/
theorem F64.example_32 : F64.fin (2508757194024499 / 2 ^ 67) / F64.fin (1152921504606847 / 2 ^ 60) = F64.fin (1224979098644775 / 2 ^ 56) := by
  rw [F64.fin_div_fin _ _ (by norm_num)]
  exact (F64.ofRat_eval_frac _ 58 4899916394579100 (by norm_num) (by norm_num) (by norm_num) (F64.roundHalfEven_eq _ 4899916394579100 (by norm_num) (by norm_num) (by norm_num))).trans (by norm_num)

/-- The example 17 milligram in gram. -/
theorem milligram_17_in_gram :
    convertWeight 17 "milligram" "gram" = (F64.fin (1224979098644775 / 2 ^ 56), "") := by
  rw [convertWeight_of_mem _ "milligram" "gram" 1e-6 1e-3 (by simp [weightToKg]) (by simp [weightToKg])]
  simp only [F64.ofNat_eq, F64.one_eq, F64.zero_eq, F64.milligram_factor, F64.millimeter_factor]
  rw [F64.example_31, F64.example_32]

/-- In `float64`, 0.017 times 0.001 is 1.7000000000000003e-05. -/
theorem F64.example_33 : F64.fin (1224979098644775 / 2 ^ 56) * F64.fin (1152921504606847 / 2 ^ 60) = F64.fin (5017514388048999 / 2 ^ 68) := by
  rw [F64.fin_mul_fin]
  exact (F64.ofRat_eval_frac _ 68 5017514388048999 (by norm_num) (by norm_num) (by norm_num) (F64.roundHalfEven_eq _ 5017514388048999 (by norm_num) (by norm_num) (by norm_num))).trans (by norm_num)

/-- In `float64`, 1.7000000000000003e-05 over 1 is 1.7000000000000003e-05. -/
theorem F64.example_34 : F64.fin (5017514388048999 / 2 ^ 68) / F64.fin 1 = F64.fin (5017514388048999 / 2 ^ 68) := by
  rw [F64.fin_div_fin _ _ (by norm_num)]
  exact (F64.ofRat_eval_frac _ 68 5017514388048999 (by norm_num) (by norm_num) (by norm_num) (F64.roundHalfEven_eq _ 5017514388048999 (by norm_num) (by norm_num) (by norm_num))).trans (by norm_num)

/-- The example 17 milligram in gram, converted on to kilogram. -/
theorem milligram_17_in_gram_in_kilogram :
    convertWeight (F64.fin (1224979098644775 / 2 ^ 56)) "gram" "kilogram" = (F64.fin (5017514388048999 / 2 ^ 68), "") := by
  rw [convertWeight_of_mem _ "gram" "kilogram" 1e-3 1 (by simp [weightToKg]) (by simp [weightToKg])]
  simp only [F64.ofNat_eq, F64.one_eq, F64.zero_eq, F64.millimeter_factor]
  rw [F64.example_33, F64.example_34]

/-- In `float64`, 1.7e-05 over 1 is 1.7e-05. -/
theorem F64.example_35 : F64.fin (2508757194024499 / 2 ^ 67) / F64.fin 1 = F64.fin (2508757194024499 / 2 ^ 67) := by
  rw [F64.fin_div_fin _ _ (by norm_num)]
  exact (F64.ofRat_eval_frac _ 68 5017514388048998 (by norm_num) (by norm_num) (by norm_num) (F64.roundHalfEven_eq _ 5017514388048998 (by norm_num) (by norm_num) (by norm_num))).trans (by norm_num)

/-- The example 17 milligram in kilogram, directly. -/
theorem milligram_17_in_kilogram :
    convertWeight 17 "milligram" "kilogram" = (F64.fin (2508757194024499 / 2 ^ 67), "") := by
  rw [convertWeight_of_mem _ "milligram" "kilogram" 1e-6 1 (by simp [weightToKg]) (by simp [weightToKg])]
  simp only [F64.ofNat_eq, F64.one_eq, F64.zero_eq, F64.milligram_factor]
  rw [F64.example_31, F64.example_35]

/-- In `float64`, 1 times 9 is 9. -/
theorem F64.example_36 : F64.fin 1 * F64.fin 9 = F64.fin 9 := by
  rw [F64.fin_mul_fin]
  exact (F64.ofRat_eval_frac _ 49 5066549580791808 (by norm_num) (by norm_num) (by norm_num) (F64.roundHalfEven_eq _ 5066549580791808 (by norm_num) (by norm_num) (by norm_num))).trans (by norm_num)

/-- In `float64`, 9 over 5 is 1.8. -/
theorem F64.example_37 : F64.fin 9 / F64.fin 5 = F64.fin (8106479329266893 / 2 ^ 52) := by
  rw [F64.fin_div_fin _ _ (by norm_num)]
  exact (F64.ofRat_eval_frac _ 52 8106479329266893 (by norm_num) (by norm_num) (by norm_num) (F64.roundHalfEven_eq _ 8106479329266893 (by norm_num) (by norm_num) (by norm_num))).trans (by norm_num)

/-- In `float64`, 1.8 plus 32 is 33.8. -/
theorem F64.example_38 : F64.fin (8106479329266893 / 2 ^ 52) + F64.fin 32 = F64.fin (2378463553205043 / 2 ^ 46) := by
  rw [F64.fin_add_fin]
  exact (F64.ofRat_eval_frac _ 47 4756927106410086 (by norm_num) (by norm_num) (by norm_num) (F64.roundHalfEven_eq _ 4756927106410086 (by norm_num) (by norm_num) (by norm_num))).trans (by norm_num)

/-- The example 1 Celsius in Fahrenheit: 33.8. -/
theorem one_celsius_in_fahrenheit :
    convertTemp 1 "Celsius" "Fahrenheit" = (F64.fin (2378463553205043 / 2 ^ 46), "") := by
  rw [convertTemp_of_mem _ _ _ (by simp) (by simp)]
  simp only [toCelsius_celsius, fromCelsius_fahrenheit, F64.ofNat_eq, F64.one_eq, F64.zero_eq]
  rw [F64.example_36, F64.example_37, F64.example_38]

/-- In `float64`, 33.8 minus 32 is 1.7999999999999972. -/
theorem F64.example_39 : F64.fin (2378463553205043 / 2 ^ 46) - F64.fin 32 = F64.fin (126663739519795 / 2 ^ 46) := by
  rw [F64.fin_sub_fin]
  exact (F64.ofRat_eval_frac _ 52 8106479329266880 (by norm_num) (by norm_num) (by norm_num) (F64.roundHalfEven_eq _ 8106479329266880 (by norm_num) (by norm_num) (by norm_num))).trans (by norm_num)

/-- In `float64`, 1.7999999999999972 times 5 is 8.999999999999986. -/
theorem F64.example_40 : F64.fin (126663739519795 / 2 ^ 46) * F64.fin 5 = F64.fin (633318697598975 / 2 ^ 46) := by
  rw [F64.fin_mul_fin]
  exact (F64.ofRat_eval_frac _ 49 5066549580791800 (by norm_num) (by norm_num) (by norm_num) (F64.roundHalfEven_eq _ 5066549580791800 (by norm_num) (by norm_num) (by norm_num))).trans (by norm_num)

/-- In `float64`, 8.999999999999986 over 9 is 0.9999999999999984. -/
theorem F64.example_41 : F64.fin (633318697598975 / 2 ^ 46) / F64.fin 9 = F64.fin (4503599627370489 / 2 ^ 52) := by
  rw [F64.fin_div_fin _ _ (by norm_num)]
  exact (F64.ofRat_eval_frac _ 53 9007199254740978 (by norm_num) (by norm_num) (by norm_num) (F64.roundHalfEven_eq _ 9007199254740978 (by norm_num) (by norm_num) (by norm_num))).trans (by norm_num)

/-- The example 1 Celsius in Fahrenheit, converted back to Celsius: 0.9999999999999984. -/
theorem one_celsius_in_fahrenheit_back :
    convertTemp (F64.fin (2378463553205043 / 2 ^ 46)) "Fahrenheit" "Celsius" = (F64.fin (4503599627370489 / 2 ^ 52), "") := by
  rw [convertTemp_of_mem _ _ _ (by simp) (by simp)]
  simp only [toCelsius_fahrenheit, fromCelsius_celsius, F64.ofNat_eq, F64.one_eq, F64.zero_eq]
  rw [F64.example_39, F64.example_40, F64.example_41]

set_option exponentiation.threshold 2048 in
/-- In `float64`, 1e+308 over 1000 is 1e+305. -/
theorem F64.example_42 : F64.fin (156575653125701 * 2 ^ 976) / F64.fin 1000 = F64.fin (2565335500811485 * 2 ^ 962) := by
  rw [F64.fin_div_fin _ _ (by norm_num)]
  exact (F64.ofRat_eval_int _ 961 5130671001622970 (by unfold overflowThreshold; norm_num) (by norm_num) (by norm_num) (F64.roundHalfEven_eq _ 5130671001622970 (by norm_num) (by norm_num) (by norm_num))).trans (by norm_num)

/-- The example 1e305 kilometer in kilometer. -/
theorem huge_kilometer_in_kilometer :
    convertLength 1e305 "kilometer" "kilometer" = (F64.fin (2565335500811485 * 2 ^ 962), "") := by
  rw [convertLength_of_mem _ "kilometer" "kilometer" 1000 1000 (by simp [lengthToMeters]) (by simp [lengthToMeters])]
  simp only [F64.ofNat_eq, F64.one_eq, F64.zero_eq, F64.literal_1e305]
  rw [F64.example_19, F64.example_42]

/-- In `float64`, 1.7000000000000003e-05 over 1e-06 is 17.000000000000004. -/
theorem F64.example_43 : F64.fin (5017514388048999 / 2 ^ 68) / F64.fin (4722366482869645 / 2 ^ 72) = F64.fin (4785074604081153 / 2 ^ 48) := by
  rw [F64.fin_div_fin _ _ (by norm_num)]
  exact (F64.ofRat_eval_frac _ 48 4785074604081153 (by norm_num) (by norm_num) (by norm_num) (F64.roundHalfEven_eq _ 4785074604081153 (by norm_num) (by norm_num) (by norm_num))).trans (by norm_num)

/-- The example 17 milligram in gram, converted back to milligram. -/
theorem milligram_17_in_gram_back :
    convertWeight (F64.fin (1224979098644775 / 2 ^ 56)) "gram" "milligram" = (F64.fin (4785074604081153 / 2 ^ 48), "") := by
  rw [convertWeight_of_mem _ "gram" "milligram" 1e-3 1e-6 (by simp [weightToKg]) (by simp [weightToKg])]
  simp only [F64.ofNat_eq, F64.one_eq, F64.zero_eq, F64.milligram_factor, F64.millimeter_factor]
  rw [F64.example_33, F64.example_43]

set_option exponentiation.threshold 2048 in
/-- In `float64`, 1e+305 times 1 is 1e+305. -/
theorem F64.example_44 : F64.fin (2565335500811485 * 2 ^ 962) * F64.fin 1 = F64.fin (2565335500811485 * 2 ^ 962) := by
  rw [F64.fin_mul_fin]
  exact (F64.ofRat_eval_int _ 961 5130671001622970 (by unfold overflowThreshold; norm_num) (by norm_num) (by norm_num) (F64.roundHalfEven_eq _ 5130671001622970 (by norm_num) (by norm_num) (by norm_num))).trans (by norm_num)

set_option exponentiation.threshold 2048 in
/-- In `float64`, 1e+305 over 1e-06 is +Inf. -/
theorem F64.example_45 : F64.fin (2565335500811485 * 2 ^ 962) / F64.fin (4722366482869645 / 2 ^ 72) = F64.inf false := by
  rw [F64.fin_div_fin _ _ (by norm_num)]
  exact F64.ofRat_overflow _ (by
    unfold overflowThreshold
    norm_num)

/-- The example 1e305 kilogram in milligram overflows to the positive infinity. -/
theorem huge_kilogram_in_milligram :
    convertWeight 1e305 "kilogram" "milligram" = (F64.inf false, "") := by
  rw [convertWeight_of_mem _ "kilogram" "milligram" 1 1e-6 (by simp [weightToKg]) (by simp [weightToKg])]
  simp only [F64.ofNat_eq, F64.one_eq, F64.zero_eq, F64.literal_1e305, F64.milligram_factor]
  rw [F64.example_44, F64.example_45]

/-- In `float64`, 100 times 1 is 100. -/
theorem F64.example_46 : F64.fin 100 * F64.fin 1 = F64.fin 100 := by
  rw [F64.fin_mul_fin]
  exact (F64.ofRat_eval_frac _ 46 7036874417766400 (by norm_num) (by norm_num) (by norm_num) (F64.roundHalfEven_eq _ 7036874417766400 (by norm_num) (by norm_num) (by norm_num))).trans (by norm_num)

/-- In `float64`, 100 over 1000 is 0.1. -/
theorem F64.example_47 : F64.fin 100 / F64.fin 1000 = F64.fin (3602879701896397 / 2 ^ 55) := by
  rw [F64.fin_div_fin _ _ (by norm_num)]
  exact (F64.ofRat_eval_frac _ 56 7205759403792794 (by norm_num) (by norm_num) (by norm_num) (F64.roundHalfEven_eq _ 7205759403792794 (by norm_num) (by norm_num) (by norm_num))).trans (by norm_num)

/-- The example 100 meter in kilometer: the `float64` nearest to 0.1. -/
theorem hundred_meter_in_kilometer :
    convertLength (F64.fin 100) "meter" "kilometer" = (F64.fin (3602879701896397 / 2 ^ 55), "") := by
  rw [convertLength_of_mem _ "meter" "kilometer" 1 1000 (by simp [lengthToMeters]) (by simp [lengthToMeters])]
  simp only [F64.ofNat_eq, F64.one_eq, F64.zero_eq]
  rw [F64.example_46, F64.example_47]

/-- In `float64`, 2500 times 0.001 is 2.5. -/
theorem F64.example_48 : F64.fin 2500 * F64.fin (1152921504606847 / 2 ^ 60) = F64.fin (5 / 2) := by
  rw [F64.fin_mul_fin]
  exact (F64.ofRat_eval_frac _ 51 5629499534213120 (by norm_num) (by norm_num) (by norm_num) (F64.roundHalfEven_eq _ 5629499534213120 (by norm_num) (by norm_num) (by norm_num))).trans (by norm_num)

/-- In `float64`, 2.5 over 1 is 2.5. -/
theorem F64.example_49 : F64.fin (5 / 2) / F64.fin 1 = F64.fin (5 / 2) := by
  rw [F64.fin_div_fin _ _ (by norm_num)]
  exact (F64.ofRat_eval_frac _ 51 5629499534213120 (by norm_num) (by norm_num) (by norm_num) (F64.roundHalfEven_eq _ 5629499534213120 (by norm_num) (by norm_num) (by norm_num))).trans (by norm_num)

/-- The example 2500 gram in kilogram: exactly 2.5. -/
theorem gram_2500_in_kilogram :
    convertWeight (F64.fin 2500) "gram" "kilogram" = (F64.fin (5 / 2), "") := by
  rw [convertWeight_of_mem _ "gram" "kilogram" 1e-3 1 (by simp [weightToKg]) (by simp [weightToKg])]
  simp only [F64.ofNat_eq, F64.one_eq, F64.zero_eq, F64.millimeter_factor]
  rw [F64.example_48, F64.example_49]

/-- In `float64`, 37 times 9 is 333. -/
theorem F64.example_50 : F64.fin 37 * F64.fin 9 = F64.fin 333 := by
  rw [F64.fin_mul_fin]
  exact (F64.ofRat_eval_frac _ 44 5858197952790528 (by norm_num) (by norm_num) (by norm_num) (F64.roundHalfEven_eq _ 5858197952790528 (by norm_num) (by norm_num) (by norm_num))).trans (by norm_num)

/-- In `float64`, 333 over 5 is 66.6. -/
theorem F64.example_51 : F64.fin 333 / F64.fin 5 = F64.fin (2343279181116211 / 2 ^ 45) := by
  rw [F64.fin_div_fin _ _ (by norm_num)]
  exact (F64.ofRat_eval_frac _ 46 4686558362232422 (by norm_num) (by norm_num) (by norm_num) (F64.roundHalfEven_eq _ 4686558362232422 (by norm_num) (by norm_num) (by norm_num))).trans (by norm_num)

/-- In `float64`, 66.6 plus 32 is 98.6. -/
theorem F64.example_52 : F64.fin (2343279181116211 / 2 ^ 45) + F64.fin 32 = F64.fin (3469179087958835 / 2 ^ 45) := by
  rw [F64.fin_add_fin]
  exact (F64.ofRat_eval_frac _ 46 6938358175917670 (by norm_num) (by norm_num) (by norm_num) (F64.roundHalfEven_eq _ 6938358175917670 (by norm_num) (by norm_num) (by norm_num))).trans (by norm_num)

/-- The example 37 Celsius in Fahrenheit: the `float64` nearest to 98.6. -/
theorem celsius_37_in_fahrenheit :
    convertTemp (F64.fin 37) "Celsius" "Fahrenheit" = (F64.fin (3469179087958835 / 2 ^ 45), "") := by
  rw [convertTemp_of_mem _ _ _ (by simp) (by simp)]
  simp only [toCelsius_celsius, fromCelsius_fahrenheit, F64.ofNat_eq, F64.one_eq, F64.zero_eq]
  rw [F64.example_50, F64.example_51, F64.example_52]

/-! ## The numeric parser and the handlers -/

/-- What `strings.TrimSpace` removes is white space, and what it leaves neither starts
nor ends with white space. -/
theorem trimSpaceChars_spec (cs : List Char) :
    ∃ pre post : List Char, cs = pre ++ trimSpaceChars cs ++ post ∧
      (∀ c ∈ pre, isSpace c = true) ∧ (∀ c ∈ post, isSpace c = true) ∧
      (∀ c, (trimSpaceChars cs).head? = some c → isSpace c = false) ∧
      (∀ c, (trimSpaceChars cs).getLast? = some c → isSpace c = false) := by
  refine ⟨cs.takeWhile isSpace,
    (((cs.dropWhile isSpace).reverse.takeWhile isSpace)).reverse, ?_, ?_, ?_, ?_, ?_⟩
  · unfold trimSpaceChars
    rw [List.append_assoc, ← List.reverse_append, List.takeWhile_append_dropWhile,
      List.reverse_reverse, List.takeWhile_append_dropWhile]
  · intro c hc
    exact List.mem_takeWhile_imp hc
  · intro c hc
    exact List.mem_takeWhile_imp (List.mem_reverse.mp hc)
  · intro c hc
    unfold trimSpaceChars at hc
    generalize hd : cs.dropWhile isSpace = d at hc
    have hhead : ∀ x, d.head? = some x → isSpace x = false := by
      intro x hx
      rw [← hd] at hx
      have := List.head?_dropWhile_not isSpace cs
      rw [hx] at this
      simpa using this
    cases d with
    | nil => simp at hc
    | cons x d' =>
      have hx : isSpace x = false := hhead x rfl
      by_cases hne : ((x :: d').reverse.dropWhile isSpace).reverse = []
      · rw [hne] at hc
        simp at hc
      · have hsuf : ((x :: d').reverse.dropWhile isSpace).reverse <+: (x :: d') := by
          have h1 : (x :: d').reverse.dropWhile isSpace <:+ (x :: d').reverse :=
            List.dropWhile_suffix _
          have h2 := List.reverse_prefix.mpr h1
          rwa [List.reverse_reverse] at h2
        obtain ⟨t, ht⟩ := hsuf
        cases hr : ((x :: d').reverse.dropWhile isSpace).reverse with
        | nil => exact absurd hr hne
        | cons y ys =>
          rw [hr] at hc ht
          simp only [List.cons_append, List.cons.injEq] at ht
          simp only [List.head?_cons, Option.some.injEq] at hc
          rw [← hc, ht.1]
          exact hx
  · intro c hc
    unfold trimSpaceChars at hc
    rw [List.getLast?_reverse] at hc
    have := List.head?_dropWhile_not isSpace (cs.dropWhile isSpace).reverse
    rw [hc] at this
    simpa using this

/-- Trimming leaves a text alone when it neither starts nor ends with white space. -/
theorem trimSpaceChars_id (cs : List Char)
    (h1 : ∀ c, cs.head? = some c → isSpace c = false)
    (h2 : ∀ c, cs.getLast? = some c → isSpace c = false) : trimSpaceChars cs = cs := by
  unfold trimSpaceChars
  have e1 : cs.dropWhile isSpace = cs := by
    cases cs with
    | nil => rfl
    | cons x xs =>
      have := h1 x rfl
      simp [List.dropWhile, this]
  rw [e1]
  have e2 : cs.reverse.dropWhile isSpace = cs.reverse := by
    cases hr : cs.reverse with
    | nil => rfl
    | cons x xs =>
      have hl : cs.getLast? = some x := by
        rw [← List.head?_reverse, hr]
        rfl
      have := h2 x hl
      simp [List.dropWhile, this]
  rw [e2, List.reverse_reverse]

/-- The three outcomes of `parseValue`, in terms of the trimmed text and the parse. -/
theorem parseValue_eq (r : Request) (name : String) :
    parseValue r name =
      if TrimSpace (r.FormValue name) = "" then (0, "Please enter a value.")
      else if (ParseFloat (removeCommas (TrimSpace (r.FormValue name)))).2 ≠ none then
        (0, "Invalid number.")
      else ((ParseFloat (removeCommas (TrimSpace (r.FormValue name)))).1, "") := by
  unfold parseValue
  rfl

/-- A failing `parseValue` returns zero with one of its two messages. -/
theorem parseValue_of_err (r : Request) (name : String) (h : (parseValue r name).2 ≠ "") :
    parseValue r name = (0, "Please enter a value.") ∨
      parseValue r name = (0, "Invalid number.") := by
  rw [parseValue_eq] at h ⊢
  split_ifs at h ⊢ <;> simp_all

/-- The handler for lengths, branch by branch. -/
theorem lengthHandler_eq (r : Request) :
    lengthHandler r =
      if r.Method = "POST" then
        if (parseValue r "value").2 ≠ "" then
          ⟨lengthUnits, r.FormValue "value", selectedOrDefault r "from" "meter",
            selectedOrDefault r "to" "kilometer", 0, false, (parseValue r "value").2, "length"⟩
        else if (convertLength (parseValue r "value").1 (selectedOrDefault r "from" "meter")
            (selectedOrDefault r "to" "kilometer")).2 ≠ "" then
          ⟨lengthUnits, r.FormValue "value", selectedOrDefault r "from" "meter",
            selectedOrDefault r "to" "kilometer", 0, false,
            (convertLength (parseValue r "value").1 (selectedOrDefault r "from" "meter")
              (selectedOrDefault r "to" "kilometer")).2, "length"⟩
        else
          ⟨lengthUnits, r.FormValue "value", selectedOrDefault r "from" "meter",
            selectedOrDefault r "to" "kilometer",
            round (convertLength (parseValue r "value").1 (selectedOrDefault r "from" "meter")
              (selectedOrDefault r "to" "kilometer")).1, true, "", "length"⟩
      else
        ⟨lengthUnits, r.FormValue "value", selectedOrDefault r "from" "meter",
          selectedOrDefault r "to" "kilometer", 0, false, "", "length"⟩ := by
  unfold lengthHandler MethodPost
  rcases parseValue r "value" with ⟨val, msg⟩
  simp only

/-- The handler for weights, branch by branch. -/
theorem weightHandler_eq (r : Request) :
    weightHandler r =
      if r.Method = "POST" then
        if (parseValue r "value").2 ≠ "" then
          ⟨weightUnits, r.FormValue "value", selectedOrDefault r "from" "gram",
            selectedOrDefault r "to" "kilogram", 0, false, (parseValue r "value").2, "weight"⟩
        else if (convertWeight (parseValue r "value").1 (selectedOrDefault r "from" "gram")
            (selectedOrDefault r "to" "kilogram")).2 ≠ "" then
          ⟨weightUnits, r.FormValue "value", selectedOrDefault r "from" "gram",
            selectedOrDefault r "to" "kilogram", 0, false,
            (convertWeight (parseValue r "value").1 (selectedOrDefault r "from" "gram")
              (selectedOrDefault r "to" "kilogram")).2, "weight"⟩
        else
          ⟨weightUnits, r.FormValue "value", selectedOrDefault r "from" "gram",
            selectedOrDefault r "to" "kilogram",
            round (convertWeight (parseValue r "value").1 (selectedOrDefault r "from" "gram")
              (selectedOrDefault r "to" "kilogram")).1, true, "", "weight"⟩
      else
        ⟨weightUnits, r.FormValue "value", selectedOrDefault r "from" "gram",
          selectedOrDefault r "to" "kilogram", 0, false, "", "weight"⟩ := by
  unfold weightHandler MethodPost
  rcases parseValue r "value" with ⟨val, msg⟩
  simp only

/-- The handler for temperatures, branch by branch. -/
theorem tempHandler_eq (r : Request) :
    tempHandler r =
      if r.Method = "POST" then
        if (parseValue r "value").2 ≠ "" then
          ⟨tempUnits, r.FormValue "value", selectedOrDefault r "from" "Celsius",
            selectedOrDefault r "to" "Fahrenheit", 0, false, (parseValue r "value").2,
            "temperature"⟩
        else if (convertTemp (parseValue r "value").1 (selectedOrDefault r "from" "Celsius")
            (selectedOrDefault r "to" "Fahrenheit")).2 ≠ "" then
          ⟨tempUnits, r.FormValue "value", selectedOrDefault r "from" "Celsius",
            selectedOrDefault r "to" "Fahrenheit", 0, false,
            (convertTemp (parseValue r "value").1 (selectedOrDefault r "from" "Celsius")
              (selectedOrDefault r "to" "Fahrenheit")).2, "temperature"⟩
        else
          ⟨tempUnits, r.FormValue "value", selectedOrDefault r "from" "Celsius",
            selectedOrDefault r "to" "Fahrenheit",
            round (convertTemp (parseValue r "value").1 (selectedOrDefault r "from" "Celsius")
              (selectedOrDefault r "to" "Fahrenheit")).1, true, "", "temperature"⟩
      else
        ⟨tempUnits, r.FormValue "value", selectedOrDefault r "from" "Celsius",
          selectedOrDefault r "to" "Fahrenheit", 0, false, "", "temperature"⟩ := by
  unfold tempHandler MethodPost
  rcases parseValue r "value" with ⟨val, msg⟩
  simp only

/-! ## Characters -/

/-- A character below 128 is one of the 128 ASCII characters. -/
theorem ascii_mem (c : Char) (h : c.toNat < 128) : c ∈ (List.range 128).map Char.ofNat := by
  rw [List.mem_map]
  exact ⟨c.toNat, List.mem_range.mpr h, Char.ofNat_toNat c⟩

set_option maxRecDepth 100000 in
/-- Facts about digits, hexadecimal letters and letters, checked on all ASCII characters. -/
theorem ascii_facts : ∀ c ∈ (List.range 128).map Char.ofNat,
    (isDigit c = true → floatChar c = true ∧ c ≠ '.' ∧ c ≠ ',' ∧ c ≠ '_' ∧ isSpace c = false ∧
      c.toLower ≠ 'x' ∧ c.toLower ≠ 'i' ∧ c.toLower ≠ 'e' ∧ c ≠ '+' ∧ c ≠ '-' ∧
      c ≠ 'i' ∧ c ≠ 'I' ∧ c ≠ 'n' ∧ c ≠ 'N') ∧
    (isHexLetter c = true → floatChar c = true ∧ c ≠ '.') ∧
    (c.isAlpha = true → isSpace c = false ∧ c ≠ ',' ∧
      (floatChar c = true → c.toLower ∈ "abcdefinptxy".data)) := by
  decide

/-- A decimal digit is an ASCII character. -/
theorem isDigit_lt (c : Char) (h : isDigit c = true) : c.toNat < 128 := by
  simp only [isDigit, Bool.and_eq_true, decide_eq_true_eq] at h
  omega

/-- A hexadecimal letter is an ASCII character. -/
theorem isHexLetter_lt (c : Char) (h : isHexLetter c = true) : c.toNat < 128 := by
  simp only [isHexLetter, Bool.or_eq_true, Bool.and_eq_true, decide_eq_true_eq] at h
  omega

/-- A letter is an ASCII character. -/
theorem isAlpha_lt (c : Char) (h : c.isAlpha = true) : c.toNat < 128 := by
  simp only [Char.isAlpha, Char.isUpper, Char.isLower, Bool.or_eq_true, Bool.and_eq_true,
    decide_eq_true_eq, ge_iff_le, UInt32.le_def, BitVec.le_def] at h
  have e : c.toNat = c.val.toBitVec.toNat := rfl
  simp at h
  omega

/-- What is used of a decimal digit. -/
theorem isDigit_facts (c : Char) (h : isDigit c = true) :
    floatChar c = true ∧ c ≠ '.' ∧ c ≠ ',' ∧ c ≠ '_' ∧ isSpace c = false ∧
      c.toLower ≠ 'x' ∧ c.toLower ≠ 'i' ∧ c.toLower ≠ 'e' ∧ c ≠ '+' ∧ c ≠ '-' ∧
      c ≠ 'i' ∧ c ≠ 'I' ∧ c ≠ 'n' ∧ c ≠ 'N' :=
  (ascii_facts c (ascii_mem c (isDigit_lt c h))).1 h

/-- What is used of a hexadecimal letter. -/
theorem isHexLetter_facts (c : Char) (h : isHexLetter c = true) :
    floatChar c = true ∧ c ≠ '.' :=
  (ascii_facts c (ascii_mem c (isHexLetter_lt c h))).2.1 h

/-- What is used of a letter. -/
theorem isAlpha_facts (c : Char) (h : c.isAlpha = true) :
    isSpace c = false ∧ c ≠ ',' ∧ (floatChar c = true → c.toLower ∈ "abcdefinptxy".data) :=
  (ascii_facts c (ascii_mem c (isAlpha_lt c h))).2.2 h

/-- A character whose lower case is one of the parser's letters is a parser character
and not the dot. -/
theorem floatChar_of_toLower (c l : Char) (h : c.toLower = l)
    (hl : l ∈ "abcdefinptxy".data) : floatChar c = true ∧ c ≠ '.' := by
  have h1 : ∀ x ∈ "abcdefinptxy".data, x ∈ "0123456789+-._abcdefinptxy".data ∧ x ≠ '.' := by
    decide
  obtain ⟨h2, h3⟩ := h1 l hl
  refine ⟨?_, ?_⟩
  · unfold floatChar
    rw [h]
    exact decide_eq_true h2
  · rintro rfl
    apply h3
    rw [← h]
    rfl

/-! ## The parser consumes parser characters only -/

/-- The characters `commonPrefixLenIgnoreCase` counts are, in lower case, characters of
the second text. -/
theorem commonPrefixLenIgnoreCase_spec (s p : List Char) :
    commonPrefixLenIgnoreCase s p ≤ s.length ∧
      ∀ c ∈ s.take (commonPrefixLenIgnoreCase s p), c.toLower ∈ p := by
  induction s generalizing p with
  | nil => simp [commonPrefixLenIgnoreCase]
  | cons a s ih =>
    cases p with
    | nil => simp [commonPrefixLenIgnoreCase]
    | cons b p =>
      unfold commonPrefixLenIgnoreCase
      split_ifs with h
      · obtain ⟨h1, h2⟩ := ih p
        refine ⟨by simpa using h1, ?_⟩
        intro c hc
        rw [List.take_succ_cons, List.mem_cons] at hc
        rcases hc with rfl | hc
        · rw [h]
          exact List.mem_cons_self _ _
        · exact List.mem_cons_of_mem _ (h2 c hc)
      · simp

/-- A text that `special` reads to its end consists of letters of `infinity` or `nan`
after an optional sign. -/
theorem special_chars (s : List Char) (v : F64) (h : special s = some (v, s.length)) :
    ∀ c ∈ s, floatChar c = true ∧ c ≠ '.' := by
  have hinf : ∀ (neg : Bool) (ns : Nat) (t : List Char),
      specialInf neg ns t = some (v, ns + t.length) → ∀ c ∈ t, floatChar c = true ∧ c ≠ '.' := by
    intro neg ns t ht c hc
    unfold specialInf at ht
    obtain ⟨h1, h2⟩ := commonPrefixLenIgnoreCase_spec t "infinity".data
    have h5 : ∀ x ∈ "infinity".data, x ∈ "abcdefinptxy".data := by decide
    generalize commonPrefixLenIgnoreCase t "infinity".data = k at ht h1 h2
    have hk : t.length ≤ k := by
      simp only at ht
      split_ifs at ht
      all_goals first
        | (simp at ht; done)
        | (simp only [Option.some.injEq, Prod.mk.injEq, add_right_inj] at ht; omega)
    rw [List.take_of_length_le hk] at h2
    exact floatChar_of_toLower c _ rfl (h5 _ (h2 c hc))
  cases s with
  | nil => simp
  | cons a t =>
    unfold special at h
    simp only at h
    split_ifs at h with h1 h2 h3 h4
    · intro c hc
      rcases List.mem_cons.mp hc with rfl | hc
      · rcases h1 with rfl | rfl <;> decide
      · refine hinf (decide (a = '-')) 1 t ?_ c hc
        rw [h]
        simp [Nat.add_comm]
    · intro c hc
      refine hinf false 0 (a :: t) ?_ c hc
      rw [h]
      simp
    · simp only [Option.some.injEq, Prod.mk.injEq] at h
      obtain ⟨_, h6⟩ := commonPrefixLenIgnoreCase_spec (a :: t) "nan".data
      rw [h4, h.2, List.take_length] at h6
      intro c hc
      refine floatChar_of_toLower c _ rfl ?_
      have h5 : ∀ x ∈ "nan".data, x ∈ "abcdefinptxy".data := by decide
      exact h5 _ (h6 c hc)

/-- The mantissa loop consumes parser characters, among them at most one dot. -/
theorem readMantissa_spec (hex : Bool) (cs : List Char) (m m' : Mantissa) (rest : List Char)
    (h : readMantissa hex cs m = (m', rest)) :
    ∃ pre, cs = pre ++ rest ∧ (∀ c ∈ pre, floatChar c = true) ∧
      pre.count '.' + (if m.sawdot = true then 1 else 0) ≤ 1 := by
  induction cs generalizing m with
  | nil =>
    rw [readMantissa] at h
    cases h
    exact ⟨[], rfl, by simp, by split_ifs <;> simp⟩
  | cons c cs ih =>
    have hstop : (m, c :: cs) = (m', rest) → ∃ pre, c :: cs = pre ++ rest ∧
        (∀ c ∈ pre, floatChar c = true) ∧
        pre.count '.' + (if m.sawdot = true then 1 else 0) ≤ 1 := by
      intro e
      cases e
      exact ⟨[], rfl, by simp, by split_ifs <;> simp⟩
    have hstep : ∀ m1 : Mantissa, readMantissa hex cs m1 = (m', rest) →
        floatChar c = true →
        ((if c = '.' then 1 else 0) + (if m.sawdot = true then 1 else 0) ≤
          (if m1.sawdot = true then 1 else 0)) →
        ∃ pre, c :: cs = pre ++ rest ∧ (∀ c ∈ pre, floatChar c = true) ∧
          pre.count '.' + (if m.sawdot = true then 1 else 0) ≤ 1 := by
      intro m1 e hc hcnt
      obtain ⟨pre, h1, h2, h3⟩ := ih m1 e
      refine ⟨c :: pre, by rw [h1]; rfl, ?_, ?_⟩
      · intro x hx
        rcases List.mem_cons.mp hx with rfl | hx
        · exact hc
        · exact h2 x hx
      · have hcount : List.count '.' (c :: pre) =
            List.count '.' pre + (if c = '.' then 1 else 0) := by
          rw [List.count_cons]
          by_cases hd : c = '.'
          · simp [hd]
          · have hb : (c == '.') = false := by simpa using hd
            simp [hd, hb]
        rw [hcount]
        generalize (if m.sawdot = true then 1 else 0) = a at hcnt h3 ⊢
        generalize (if m1.sawdot = true then 1 else 0) = b at hcnt h3 ⊢
        generalize (if c = '.' then 1 else 0) = d at hcnt h3 ⊢
        omega
    rw [readMantissa] at h
    by_cases h1 : c = '_'
    · rw [if_pos h1] at h
      subst h1
      exact hstep _ h (by decide) (by simp)
    rw [if_neg h1] at h
    by_cases h2 : c = '.'
    · rw [if_pos h2] at h
      by_cases h3 : m.sawdot = true
      · rw [if_pos h3] at h
        exact hstop h
      · rw [if_neg h3] at h
        subst h2
        exact hstep _ h (by decide) (by simp [h3])
    rw [if_neg h2] at h
    by_cases h4 : isDigit c = true
    · rw [if_pos h4] at h
      exact hstep _ h (isDigit_facts c h4).1 (by simp [h2])
    rw [if_neg h4] at h
    by_cases h5 : (hex && isHexLetter c) = true
    · rw [if_pos h5] at h
      simp only [Bool.and_eq_true] at h5
      exact hstep _ h (isHexLetter_facts c h5.2).1 (by simp [h2])
    · rw [if_neg h5] at h
      exact hstop h

/-- The exponent digit loop consumes digits and underscores. -/
theorem readExpDigits_spec (cs : List Char) (e : Nat) (u : Bool) (e' : Nat) (u' : Bool)
    (rest : List Char) (h : readExpDigits cs e u = (e', u', rest)) :
    ∃ pre, cs = pre ++ rest ∧ ∀ c ∈ pre, floatChar c = true ∧ c ≠ '.' := by
  induction cs generalizing e u with
  | nil =>
    rw [readExpDigits] at h
    cases h
    exact ⟨[], rfl, by simp⟩
  | cons c cs ih =>
    have hstep : ∀ e1 u1, readExpDigits cs e1 u1 = (e', u', rest) →
        (floatChar c = true ∧ c ≠ '.') →
        ∃ pre, c :: cs = pre ++ rest ∧ ∀ c ∈ pre, floatChar c = true ∧ c ≠ '.' := by
      intro e1 u1 he hc
      obtain ⟨pre, h3, h4⟩ := ih e1 u1 he
      refine ⟨c :: pre, by rw [h3]; rfl, ?_⟩
      intro x hx
      rcases List.mem_cons.mp hx with rfl | hx
      · exact hc
      · exact h4 x hx
    rw [readExpDigits] at h
    by_cases h1 : isDigit c = true
    · rw [if_pos h1] at h
      exact hstep _ _ h ⟨(isDigit_facts c h1).1, (isDigit_facts c h1).2.1⟩
    rw [if_neg h1] at h
    by_cases h2 : c = '_'
    · rw [if_pos h2] at h
      subst h2
      exact hstep _ _ h (by decide)
    · rw [if_neg h2] at h
      cases h
      exact ⟨[], rfl, by simp⟩

/-- The optional exponent consumes parser characters other than the dot. -/
theorem readExponent_spec (hex : Bool) (cs : List Char) (e : Int) (u : Bool) (rest : List Char)
    (h : readExponent hex cs = some (e, u, rest)) :
    ∃ pre, cs = pre ++ rest ∧ ∀ c ∈ pre, floatChar c = true ∧ c ≠ '.' := by
  cases cs with
  | nil =>
    unfold readExponent at h
    split_ifs at h
    cases h
    exact ⟨[], rfl, by simp⟩
  | cons c cs =>
    unfold readExponent at h
    dsimp only at h
    by_cases h1 : c.toLower = (if hex = true then 'p' else 'e')
    · rw [if_pos h1] at h
      have hc : floatChar c = true ∧ c ≠ '.' := by
        cases hex
        · exact floatChar_of_toLower c 'e' h1 (by decide)
        · exact floatChar_of_toLower c 'p' h1 (by decide)
      cases cs with
      | nil => simp at h
      | cons d ds =>
        simp only at h
        have key : ∀ (sg : Int) (pre0 ds' : List Char), d :: ds = pre0 ++ ds' →
            (∀ x ∈ pre0, floatChar x = true ∧ x ≠ '.') →
            (match ds' with
              | [] => none
              | d0 :: _ =>
                if isDigit d0 = true then
                  match readExpDigits ds' 0 false with
                  | (e, u, rest) => some (sg * (e : Int), u, rest)
                else none) = some (e, u, rest) →
            ∃ pre, c :: d :: ds = pre ++ rest ∧ ∀ x ∈ pre, floatChar x = true ∧ x ≠ '.' := by
          intro sg pre0 ds' hsplit hpre0 hm
          cases ds' with
          | nil => simp at hm
          | cons d0 ds0 =>
            simp only at hm
            split_ifs at hm with h2
            rcases hr : readExpDigits (d0 :: ds0) 0 false with ⟨e1, u1, rest1⟩
            rw [hr] at hm
            simp only [Option.some.injEq, Prod.mk.injEq] at hm
            obtain ⟨pre1, h3, h4⟩ := readExpDigits_spec _ _ _ _ _ _ hr
            refine ⟨c :: (pre0 ++ pre1), ?_, ?_⟩
            · rw [hsplit, h3, ← hm.2.2]
              simp
            · intro x hx
              rcases List.mem_cons.mp hx with rfl | hx
              · exact hc
              · rcases List.mem_append.mp hx with hx | hx
                · exact hpre0 x hx
                · exact h4 x hx
        by_cases h3 : d = '+'
        · simp only [h3, if_true] at h
          exact key 1 ['+'] ds (by rw [h3]; rfl) (by decide) h
        · by_cases h4 : d = '-'
          · simp only [h4, if_true] at h
            exact key (-1) ['-'] ds (by rw [h4]; rfl) (by decide) (by simpa using h)
          · simp only [h3, h4, if_false] at h
            exact key 1 [] (d :: ds) rfl (by simp) h
    · rw [if_neg h1] at h
      split_ifs at h
      cases h
      exact ⟨[], rfl, by simp⟩

/-- The base prefix consumes parser characters other than the dot. -/
theorem hexPrefix_spec (s1 : List Char) :
    ∃ p0, s1 = p0 ++ (hexPrefix s1).2 ∧ ∀ c ∈ p0, floatChar c = true ∧ c ≠ '.' := by
  unfold hexPrefix
  split
  · rename_i z x y r
    split_ifs with h
    · refine ⟨[z, x], rfl, ?_⟩
      intro c hc
      simp only [List.mem_cons, List.mem_singleton, List.not_mem_nil, or_false] at hc
      rcases hc with rfl | rfl
      · rw [h.1]
        decide
      · exact floatChar_of_toLower c 'x' h.2 (by decide)
    · exact ⟨[], rfl, by simp⟩
  · exact ⟨[], rfl, by simp⟩

/-- What `readFloat` consumes are parser characters, among them at most one dot. -/
theorem readFloat_spec (s : List Char) (r : ReadFloat) (h : readFloat s = some r) :
    ∃ pre, s = pre ++ r.rest ∧ (∀ c ∈ pre, floatChar c = true) ∧ pre.count '.' ≤ 1 := by
  cases s with
  | nil => simp [readFloat] at h
  | cons c t =>
    unfold readFloat at h
    dsimp only at h
    have hsign : ∃ p1, c :: t = p1 ++ (if c = '+' ∨ c = '-' then t else c :: t) ∧
        ∀ x ∈ p1, floatChar x = true ∧ x ≠ '.' := by
      split_ifs with hs
      · refine ⟨[c], rfl, ?_⟩
        intro x hx
        rw [List.mem_singleton] at hx
        subst hx
        rcases hs with rfl | rfl <;> decide
      · exact ⟨[], rfl, by simp⟩
    generalize (if c = '+' ∨ c = '-' then t else c :: t) = s1 at h hsign
    obtain ⟨p1, e1, hp1⟩ := hsign
    obtain ⟨p0, e0, hp0⟩ := hexPrefix_spec s1
    rcases hhp : hexPrefix s1 with ⟨hex, s2⟩
    rw [hhp] at h e0
    dsimp only at h e0
    rcases hrm : readMantissa hex s2 ⟨false, false, false, 0, 0⟩ with ⟨m, s3⟩
    rw [hrm] at h
    dsimp only at h
    obtain ⟨pm, em, hpm, hcm⟩ := readMantissa_spec _ _ _ _ _ hrm
    by_cases hd : (!m.sawdigits) = true
    · rw [if_pos hd] at h
      simp at h
    rw [if_neg hd] at h
    cases hre : readExponent hex s3 with
    | none => simp [hre] at h
    | some x =>
      obtain ⟨e, u, rest⟩ := x
      rw [hre] at h
      dsimp only at h
      obtain ⟨pe, ee, hpe⟩ := readExponent_spec _ _ _ _ _ hre
      by_cases hu : ((m.underscores || u) &&
          !underscoreOK (List.take ((c :: t).length - rest.length) (c :: t))) = true
      · rw [if_pos hu] at h
        simp at h
      rw [if_neg hu] at h
      simp only [Option.some.injEq] at h
      subst h
      dsimp only
      refine ⟨p1 ++ p0 ++ pm ++ pe, ?_, ?_, ?_⟩
      · rw [e1, e0, em, ee]
        simp
      · intro x hx
        simp only [List.mem_append] at hx
        rcases hx with ((hx | hx) | hx) | hx
        · exact (hp1 x hx).1
        · exact (hp0 x hx).1
        · exact hpm x hx
        · exact (hpe x hx).1
      · have z1 : p1.count '.' = 0 := List.count_eq_zero.mpr fun hx => (hp1 _ hx).2 rfl
        have z0 : p0.count '.' = 0 := List.count_eq_zero.mpr fun hx => (hp0 _ hx).2 rfl
        have ze : pe.count '.' = 0 := List.count_eq_zero.mpr fun hx => (hpe _ hx).2 rfl
        simp only [List.count_append, z1, z0, ze]
        simp only [Bool.false_eq_true, if_false] at hcm
        omega

/-- The result of `ParseFloat` in terms of `atof64`. -/
theorem ParseFloat_eq (s : String) :
    ParseFloat s =
      if (atof64 s.data).2.1 ≠ s.data.length ∧ (atof64 s.data).2.2 ≠ some NumError.ErrSyntax then
        (0, some NumError.ErrSyntax)
      else ((atof64 s.data).1, (atof64 s.data).2.2) := by
  unfold ParseFloat
  rfl

/-- A text that `ParseFloat` accepts consists of parser characters and has at most one
dot. -/
theorem ParseFloat_ok_spec (s : String) (h : (ParseFloat s).2 = none) :
    (∀ c ∈ s.data, floatChar c = true) ∧ s.data.count '.' ≤ 1 := by
  rw [ParseFloat_eq] at h
  by_cases h1 : (atof64 s.data).2.1 ≠ s.data.length ∧
      (atof64 s.data).2.2 ≠ some NumError.ErrSyntax
  · rw [if_pos h1] at h
    simp at h
  rw [if_neg h1] at h
  dsimp only at h
  have hn : (atof64 s.data).2.1 = s.data.length := by
    by_contra hc
    apply h1
    refine ⟨hc, ?_⟩
    rw [h]
    simp
  unfold atof64 at h hn
  cases hsp : special s.data with
  | some x =>
    obtain ⟨v, n⟩ := x
    rw [hsp] at hn
    dsimp only at hn
    subst hn
    have := special_chars s.data v hsp
    have hz : s.data.count '.' = 0 := List.count_eq_zero.mpr fun hx => (this _ hx).2 rfl
    exact ⟨fun c hc => (this c hc).1, by omega⟩
  | none =>
    rw [hsp] at h hn
    dsimp only at h hn
    cases hrf : readFloat s.data with
    | none =>
      rw [hrf] at h
      simp at h
    | some r =>
      rw [hrf] at h hn
      dsimp only at h hn
      obtain ⟨pre, e1, h2, h3⟩ := readFloat_spec _ _ hrf
      have hlen : r.rest.length = 0 := by
        have hl := congrArg List.length e1
        rw [List.length_append] at hl
        split_ifs at hn <;> dsimp only at hn <;> omega
      have hrest : r.rest = [] := List.length_eq_zero.mp hlen
      rw [hrest, List.append_nil] at e1
      rw [e1]
      exact ⟨h2, h3⟩

/-! ## Decimal numerals are accepted -/

/-- The mantissa loop on a run of digits. -/
theorem readMantissa_digits (ds rest : List Char) (hds : ∀ c ∈ ds, isDigit c = true)
    (m : Mantissa) :
    readMantissa false (ds ++ rest) m =
      readMantissa false rest
        ⟨m.sawdot, m.sawdigits || !ds.isEmpty, m.underscores,
          ds.foldl (fun n c => n * 10 + digitVal c) m.mant,
          if m.sawdot = true then m.frac + ds.length else m.frac⟩ := by
  induction ds generalizing m with
  | nil =>
    cases m
    simp
  | cons c ds ih =>
    have hc := isDigit_facts c (hds c (List.mem_cons_self _ _))
    have hd : isDigit c = true := hds c (List.mem_cons_self _ _)
    rw [List.cons_append, readMantissa, if_neg hc.2.2.2.1, if_neg hc.2.1, if_pos hd,
      ih (fun x hx => hds x (List.mem_cons_of_mem _ hx))]
    congr 1
    cases hs : m.sawdot
    · simp [hs]
    · simp only [hs, if_true, List.foldl_cons, List.length_cons, Bool.or_true, List.isEmpty_cons,
        Bool.not_false, Bool.true_or, Mantissa.mk.injEq, true_and, Bool.false_eq_true, if_false]
      omega

/-- The mantissa loop on a decimal numeral: digits, then possibly a dot and digits. -/
theorem readMantissa_numeral (ip fp : List Char) (dot : Bool)
    (hip : ∀ c ∈ ip, isDigit c = true) (hfp : ∀ c ∈ fp, isDigit c = true)
    (hdot : dot = false → fp = []) :
    readMantissa false (ip ++ (if dot = true then '.' :: fp else []))
        ⟨false, false, false, 0, 0⟩ =
      (⟨dot, !(ip ++ fp).isEmpty, false,
        (ip ++ fp).foldl (fun n c => n * 10 + digitVal c) 0, fp.length⟩, []) := by
  rw [readMantissa_digits ip _ hip]
  cases dot with
  | false =>
    rw [hdot rfl]
    simp [readMantissa]
  | true =>
    simp only [if_true]
    rw [readMantissa, if_neg (by decide), if_pos rfl]
    simp only [Bool.false_eq_true, if_false]
    have := readMantissa_digits fp [] hfp ⟨true, false || !ip.isEmpty, false,
      ip.foldl (fun n c => n * 10 + digitVal c) 0, 0⟩
    rw [List.append_nil] at this
    rw [this, readMantissa]
    simp [List.foldl_append]
    cases ip <;> cases fp <;> simp

/-- Facts about the dot used below. -/
theorem dot_facts : ('.' : Char).toLower ≠ 'x' ∧ ('.' : Char).toLower ≠ 'i' ∧
    ('.' : Char) ≠ '+' ∧ ('.' : Char) ≠ '-' ∧ ('.' : Char) ≠ 'i' ∧ ('.' : Char) ≠ 'I' ∧
    ('.' : Char) ≠ 'n' ∧ ('.' : Char) ≠ 'N' ∧ isSpace '.' = false ∧ ('.' : Char) ≠ ',' := by
  decide

/-- A text of digits and dots has no base prefix. -/
theorem hexPrefix_numeral (s1 : List Char) (hall : ∀ c ∈ s1, isDigit c = true ∨ c = '.') :
    hexPrefix s1 = (false, s1) := by
  unfold hexPrefix
  split
  · rename_i z x y r
    have hx : x.toLower ≠ 'x' := by
      rcases hall x (by simp) with hx | rfl
      · exact (isDigit_facts x hx).2.2.2.2.2.1
      · exact dot_facts.1
    rw [if_neg (fun h => hx h.2)]
  · rfl

/-- A text that starts with a digit or a dot, after an optional minus sign, is not one
of the special values. -/
theorem special_numeral (neg : Bool) (s1 : List Char) (hne : s1 ≠ [])
    (hall : ∀ c ∈ s1, isDigit c = true ∨ c = '.') :
    special ((if neg = true then ['-'] else []) ++ s1) = none := by
  cases s1 with
  | nil => exact absurd rfl hne
  | cons a t =>
    have ha : a.toLower ≠ 'i' ∧ a ≠ '+' ∧ a ≠ '-' ∧ a ≠ 'i' ∧ a ≠ 'I' ∧ a ≠ 'n' ∧ a ≠ 'N' := by
      rcases hall a (List.mem_cons_self _ _) with ha | rfl
      · have := isDigit_facts a ha
        exact ⟨this.2.2.2.2.2.2.1, this.2.2.2.2.2.2.2.2.1, this.2.2.2.2.2.2.2.2.2.1,
          this.2.2.2.2.2.2.2.2.2.2.1, this.2.2.2.2.2.2.2.2.2.2.2.1,
          this.2.2.2.2.2.2.2.2.2.2.2.2.1, this.2.2.2.2.2.2.2.2.2.2.2.2.2⟩
      · have := dot_facts
        exact ⟨this.2.1, this.2.2.1, this.2.2.2.1, this.2.2.2.2.1, this.2.2.2.2.2.1,
          this.2.2.2.2.2.2.1, this.2.2.2.2.2.2.2.1⟩
    cases neg with
    | true =>
      have h0 : commonPrefixLenIgnoreCase (a :: t) "infinity".data = 0 := by
        show commonPrefixLenIgnoreCase (a :: t) ('i' :: "nfinity".data) = 0
        rw [commonPrefixLenIgnoreCase, if_neg ha.1]
      simp [special, specialInf, h0]
    | false =>
      simp [special, ha]

/-- What `readFloat` returns on a decimal numeral. -/
theorem readFloat_numeral (neg dot : Bool) (ip fp : List Char)
    (hip : ∀ c ∈ ip, isDigit c = true) (hfp : ∀ c ∈ fp, isDigit c = true)
    (hdot : dot = false → fp = []) (hne : ip ++ fp ≠ []) :
    readFloat ((if neg = true then ['-'] else []) ++
        (ip ++ (if dot = true then '.' :: fp else []))) =
      some ⟨(ip ++ fp).foldl (fun n c => n * 10 + digitVal c) 0, -(fp.length : Int), neg,
        false, []⟩ := by
  have hall : ∀ c ∈ ip ++ (if dot = true then '.' :: fp else []),
      isDigit c = true ∨ c = '.' := by
    intro c hc
    rcases List.mem_append.mp hc with hc | hc
    · exact Or.inl (hip c hc)
    · split_ifs at hc
      · rcases List.mem_cons.mp hc with rfl | hc
        · exact Or.inr rfl
        · exact Or.inl (hfp c hc)
      · simp at hc
  have hs1 : ip ++ (if dot = true then '.' :: fp else []) ≠ [] := by
    intro hc
    rw [List.append_eq_nil] at hc
    cases dot with
    | false => exact hne (by rw [hc.1, hdot rfl]; rfl)
    | true => simp at hc
  have hsd : (!(ip ++ fp).isEmpty) = true := by
    cases h : ip ++ fp with
    | nil => exact absurd h hne
    | cons _ _ => rfl
  generalize hs1def : ip ++ (if dot = true then '.' :: fp else []) = s1 at hall hs1
  have hrm := readMantissa_numeral ip fp dot hip hfp hdot
  rw [hs1def] at hrm
  have key : ∀ (c : Char) (t : List Char) (b : Bool), b = decide (c = '-') →
      (if c = '+' ∨ c = '-' then t else c :: t) = s1 →
      readFloat (c :: t) = some ⟨(ip ++ fp).foldl (fun n c => n * 10 + digitVal c) 0,
        -(fp.length : Int), b, false, []⟩ := by
    intro c t b hb hs
    unfold readFloat
    dsimp only
    rw [hs, hexPrefix_numeral s1 hall]
    dsimp only
    rw [hrm]
    dsimp only
    rw [hsd]
    simp [readExponent, hb]
  cases neg with
  | true =>
    exact key '-' s1 true (by decide) (by simp)
  | false =>
    cases s1 with
    | nil => exact absurd rfl hs1
    | cons a t =>
      have ha : a ≠ '+' ∧ a ≠ '-' := by
        rcases hall a (List.mem_cons_self _ _) with ha | rfl
        · have := isDigit_facts a ha
          exact ⟨this.2.2.2.2.2.2.2.2.1, this.2.2.2.2.2.2.2.2.2.1⟩
        · exact ⟨dot_facts.2.2.1, dot_facts.2.2.2.1⟩
      exact key a t false (by simp [ha.2]) (by simp [ha])

/-- The exact value of a mantissa scaled by a negative power of ten. -/
theorem scale_neg (m k : Nat) : scale 10 m (-(k : Int)) = (m : ℚ) / 10 ^ k := by
  unfold scale
  split_ifs with h
  · have hk : k = 0 := by omega
    subst hk
    simp
  · simp

/-- What `ParseFloat` returns on a decimal numeral: its exact value, or a range error
when the value is too large for a `float64`. -/
theorem ParseFloat_numeral (neg dot : Bool) (ip fp : List Char)
    (hip : ∀ c ∈ ip, isDigit c = true) (hfp : ∀ c ∈ fp, isDigit c = true)
    (hdot : dot = false → fp = []) (hne : ip ++ fp ≠ []) :
    ParseFloat ⟨(if neg = true then ['-'] else []) ++
        (ip ++ (if dot = true then '.' :: fp else []))⟩ =
      if overflowThreshold ≤
          (((ip ++ fp).foldl (fun n c => n * 10 + digitVal c) 0 : Nat) : ℚ) / 10 ^ fp.length then
        (F64.inf neg, some NumError.ErrRange)
      else
        (F64.fin (if neg = true then
            -((((ip ++ fp).foldl (fun n c => n * 10 + digitVal c) 0 : Nat) : ℚ) / 10 ^ fp.length)
          else (((ip ++ fp).foldl (fun n c => n * 10 + digitVal c) 0 : Nat) : ℚ) / 10 ^ fp.length),
          none) := by
  have hs1 : ip ++ (if dot = true then '.' :: fp else []) ≠ [] := by
    intro hc
    rw [List.append_eq_nil] at hc
    cases dot with
    | false => exact hne (by rw [hc.1, hdot rfl]; rfl)
    | true => simp at hc
  have hall : ∀ c ∈ ip ++ (if dot = true then '.' :: fp else []),
      isDigit c = true ∨ c = '.' := by
    intro c hc
    rcases List.mem_append.mp hc with hc | hc
    · exact Or.inl (hip c hc)
    · split_ifs at hc
      · rcases List.mem_cons.mp hc with rfl | hc
        · exact Or.inr rfl
        · exact Or.inl (hfp c hc)
      · simp at hc
  have hat : atof64 ((if neg = true then ['-'] else []) ++
        (ip ++ (if dot = true then '.' :: fp else []))) =
      if overflowThreshold ≤
          (((ip ++ fp).foldl (fun n c => n * 10 + digitVal c) 0 : Nat) : ℚ) / 10 ^ fp.length then
        (F64.inf neg, ((if neg = true then ['-'] else []) ++
          (ip ++ (if dot = true then '.' :: fp else []))).length, some NumError.ErrRange)
      else
        (F64.fin (if neg = true then
            -((((ip ++ fp).foldl (fun n c => n * 10 + digitVal c) 0 : Nat) : ℚ) / 10 ^ fp.length)
          else (((ip ++ fp).foldl (fun n c => n * 10 + digitVal c) 0 : Nat) : ℚ) / 10 ^ fp.length),
          ((if neg = true then ['-'] else []) ++
            (ip ++ (if dot = true then '.' :: fp else []))).length, none) := by
    unfold atof64
    rw [special_numeral neg _ hs1 hall, readFloat_numeral neg dot ip fp hip hfp hdot hne]
    dsimp only
    simp only [Bool.false_eq_true, if_false, scale_neg, List.length_nil, Nat.sub_zero]
  rw [ParseFloat_eq]
  dsimp only
  generalize (if neg = true then ['-'] else []) ++
    (ip ++ (if dot = true then '.' :: fp else [])) = txt at hat ⊢
  by_cases h1 : overflowThreshold ≤
      (((ip ++ fp).foldl (fun n c => n * 10 + digitVal c) 0 : Nat) : ℚ) / 10 ^ fp.length
  · rw [if_pos h1] at hat ⊢
    rw [hat]
    simp
  · rw [if_neg h1] at hat ⊢
    rw [hat]
    simp

set_option exponentiation.threshold 2048 in
/-- The overflow threshold lies above `10 ^ 300`. -/
theorem overflowThreshold_gt : (10 : ℚ) ^ 300 < overflowThreshold := by
  unfold overflowThreshold
  norm_num

set_option exponentiation.threshold 2048 in
/-- The overflow threshold lies below `10 ^ 400`. -/
theorem overflowThreshold_le : overflowThreshold ≤ (10 : ℚ) ^ 400 := by
  unfold overflowThreshold
  norm_num

/-- A run of zeros multiplies the number read so far by a power of ten. -/
theorem foldl_zeros (k a : Nat) :
    (List.replicate k '0').foldl (fun n c => n * 10 + digitVal c) a = a * 10 ^ k := by
  induction k generalizing a with
  | zero => simp
  | succ k ih =>
    rw [List.replicate_succ, List.foldl_cons, ih]
    have : digitVal '0' = 0 := by decide
    rw [this, Nat.pow_succ]
    ring

/-- When `parseValue` reports no error, the trimmed text is not empty and the parse of
the text without commas succeeded. -/
theorem parseValue_ok_imp (r : Request) (name : String) (h : (parseValue r name).2 = "") :
    TrimSpace (r.FormValue name) ≠ "" ∧
      (ParseFloat (removeCommas (TrimSpace (r.FormValue name)))).2 = none := by
  rw [parseValue_eq] at h
  by_cases h1 : TrimSpace (r.FormValue name) = ""
  · rw [if_pos h1] at h
    exact absurd h (by decide)
  rw [if_neg h1] at h
  by_cases h2 : (ParseFloat (removeCommas (TrimSpace (r.FormValue name)))).2 ≠ none
  · rw [if_pos h2] at h
    exact absurd h (by decide)
  · exact ⟨h1, not_not.mp h2⟩

/-- A failing `parseValue` returns the number zero. -/
theorem parseValue_err_zero (r : Request) (name : String) (h : (parseValue r name).2 ≠ "") :
    (parseValue r name).1 = F64.fin 0 := by
  rcases parseValue_of_err r name h with e | e <;> rw [e] <;> simp

/-- A character of the field that is neither white space nor a comma is still there
after trimming and deleting the commas. -/
theorem mem_cleaned (s : String) (c : Char) (hc : c ∈ s.data) (hs : isSpace c = false)
    (hcomma : c ≠ ',') : c ∈ (removeCommas (TrimSpace s)).data := by
  obtain ⟨pre, post, e, hpre, hpost, -, -⟩ := trimSpaceChars_spec s.data
  have hmem : c ∈ trimSpaceChars s.data := by
    rw [e] at hc
    simp only [List.mem_append] at hc
    rcases hc with (hc | hc) | hc
    · rw [hpre c hc] at hs
      exact absurd hs (by decide)
    · exact hc
    · rw [hpost c hc] at hs
      exact absurd hs (by decide)
  show c ∈ (trimSpaceChars s.data).filter (fun c => c ≠ ',')
  rw [List.mem_filter]
  exact ⟨hmem, by simpa using hcomma⟩

/-- Trimming and deleting the commas keeps every dot of the field. -/
theorem count_dot_cleaned (s : String) :
    (removeCommas (TrimSpace s)).data.count '.' = s.data.count '.' := by
  obtain ⟨pre, post, e, hpre, hpost, -, -⟩ := trimSpaceChars_spec s.data
  have z1 : pre.count '.' = 0 := List.count_eq_zero.mpr fun hx => by
    have := hpre _ hx
    exact absurd this (by decide)
  have z2 : post.count '.' = 0 := List.count_eq_zero.mpr fun hx => by
    have := hpost _ hx
    exact absurd this (by decide)
  have e2 : s.data.count '.' = (trimSpaceChars s.data).count '.' := by
    conv_lhs => rw [e]
    simp only [List.count_append, z1, z2]
    omega
  rw [e2]
  show ((trimSpaceChars s.data).filter (fun c => c ≠ ',')).count '.' = _
  exact List.count_filter (by decide)

/-- A non-empty text without white space and commas is parsed as it stands. -/
theorem parseValue_of_clean (r : Request) (name : String) (txt : List Char)
    (hv : r.FormValue name = ⟨txt⟩) (hne : txt ≠ [])
    (hclean : ∀ c ∈ txt, isSpace c = false ∧ c ≠ ',') :
    parseValue r name =
      if (ParseFloat ⟨txt⟩).2 ≠ none then (0, "Invalid number.")
      else ((ParseFloat ⟨txt⟩).1, "") := by
  have h1 : TrimSpace (r.FormValue name) = ⟨txt⟩ := by
    rw [hv]
    unfold TrimSpace
    congr 1
    apply trimSpaceChars_id
    · intro c hc
      exact (hclean c (List.mem_of_mem_head? hc)).1
    · intro c hc
      exact (hclean c (List.mem_of_mem_getLast? hc)).1
  have h2 : removeCommas ⟨txt⟩ = ⟨txt⟩ := by
    unfold removeCommas
    congr 1
    rw [List.filter_eq_self]
    intro c hc
    simpa using (hclean c hc).2
  have h3 : (⟨txt⟩ : String) ≠ "" := by
    intro hc
    apply hne
    have := congrArg String.data hc
    simpa using this
  rw [parseValue_eq, h1, h2, if_neg h3]

/-- The numeral made of a 1 followed by `k` zeros is rejected once `10 ^ k` reaches the
overflow threshold. -/
theorem parseValue_long_numeral (k : Nat) (hk : overflowThreshold ≤ (10 : ℚ) ^ k) :
    parseValue ⟨"POST", [("value", ⟨'1' :: List.replicate k '0'⟩)]⟩ "value" =
      (F64.fin 0, "Invalid number.") := by
  have hdig : ∀ c ∈ '1' :: List.replicate k '0', isDigit c = true := by
    intro c hc
    rcases List.mem_cons.mp hc with rfl | hc
    · decide
    · rw [List.eq_of_mem_replicate hc]
      decide
  have hpf := ParseFloat_numeral false false ('1' :: List.replicate k '0') [] hdig
    (by simp) (fun _ => rfl) (by simp)
  simp only [Bool.false_eq_true, if_false, List.nil_append, List.append_nil, List.length_nil,
    pow_zero, div_one, List.foldl_cons] at hpf
  rw [foldl_zeros] at hpf
  have hbig : overflowThreshold ≤ (((0 * 10 + digitVal '1') * 10 ^ k : Nat) : ℚ) := by
    have h1 : digitVal '1' = 1 := by decide
    rw [h1]
    push_cast
    simpa using hk
  rw [if_pos hbig] at hpf
  have hv : Request.FormValue ⟨"POST", [("value", ⟨'1' :: List.replicate k '0'⟩)]⟩ "value" =
      ⟨'1' :: List.replicate k '0'⟩ := by
    simp [Request.FormValue, List.lookup]
  rw [parseValue_of_clean _ _ _ hv (by simp), hpf]
  · simp
  · intro c hc
    have := isDigit_facts c (hdig c hc)
    exact ⟨this.2.2.2.2.1, this.2.2.1⟩

/-! ### C1 -/

/-- C1, as stated, fails on two of its witnesses: in `float64` arithmetic 3 yard in foot
is 8.999999999999998, one spacing below 9, and 2.54 centimeter in inch is
1.0000000000000002, one spacing above 1. -/
theorem convert_table_scaling_not_exact :
    convertLength 3 "yard" "foot" = (F64.fin (5066549580791807 / 2 ^ 49), "") ∧
    convertLength 3 "yard" "foot" ≠ (9, "") ∧
    convertLength 2.54 "centimeter" "inch" = (F64.fin (4503599627370497 / 2 ^ 52), "") ∧
    convertLength 2.54 "centimeter" "inch" ≠ (1, "") := by
  refine ⟨three_yard_in_foot, ?_, centimeters_in_inch, ?_⟩
  · rw [three_yard_in_foot]
    simp only [F64.ofNat_eq, ne_eq, Prod.mk.injEq, F64.fin.injEq, and_true]
    norm_num
  · rw [centimeters_in_inch]
    simp only [F64.one_eq, ne_eq, Prod.mk.injEq, F64.fin.injEq, and_true]
    norm_num

/-- C1, amended: for every value and every pair of units of the length table
(millimeter 0.001, centimeter 0.01, meter 1, kilometer 1000, inch 0.0254, foot 0.3048,
yard 0.9144, mile 1609.344, each factor being the `float64` nearest to the decimal)
`convertLength` returns no error and the `float64` product of the value and the factor of
the source unit, divided in `float64` by the factor of the target unit; for a finite
value of magnitude at most `2 ^ 900` that number is finite and within the relative error
`2 ^ -49` (plus `2 ^ -1000`) of the exact value times the decimal factor of the source
unit over the decimal factor of the target unit.  `convertWeight` does the same over the
weight table (milligram 1e-6, gram 1e-3, kilogram 1, ounce 0.028349523125,
pound 0.45359237).  2.54 centimeter are 1.0000000000000002 inch and 3 yard are
8.999999999999998 foot, both within `10 ^ -9` of 1 and 9, and 16 ounce are exactly
1 pound. -/
theorem convert_table_scaling :
    (∀ (v : F64) (a b : String) (fa fb : F64),
      (a, fa) ∈ [("millimeter", (0.001 : F64)), ("centimeter", 0.01), ("meter", 1),
        ("kilometer", 1000), ("inch", 0.0254), ("foot", 0.3048), ("yard", 0.9144),
        ("mile", 1609.344)] →
      (b, fb) ∈ [("millimeter", (0.001 : F64)), ("centimeter", 0.01), ("meter", 1),
        ("kilometer", 1000), ("inch", 0.0254), ("foot", 0.3048), ("yard", 0.9144),
        ("mile", 1609.344)] →
      convertLength v a b = (v * fa / fb, "")) ∧
    (∀ (x : ℚ) (a b : String) (da db : ℚ),
      (a, da) ∈ [("millimeter", (0.001 : ℚ)), ("centimeter", 0.01), ("meter", 1),
        ("kilometer", 1000), ("inch", 0.0254), ("foot", 0.3048), ("yard", 0.9144),
        ("mile", 1609.344)] →
      (b, db) ∈ [("millimeter", (0.001 : ℚ)), ("centimeter", 0.01), ("meter", 1),
        ("kilometer", 1000), ("inch", 0.0254), ("foot", 0.3048), ("yard", 0.9144),
        ("mile", 1609.344)] →
      |x| ≤ 2 ^ 900 →
      ∃ w : ℚ, convertLength (F64.fin x) a b = (F64.fin w, "") ∧
        |w - x * da / db| ≤ |x * da / db| / 2 ^ 49 + 1 / 2 ^ 1000) ∧
    (∀ (v : F64) (a b : String) (fa fb : F64),
      (a, fa) ∈ [("milligram", (1e-6 : F64)), ("gram", 1e-3), ("kilogram", 1),
        ("ounce", 0.028349523125), ("pound", 0.45359237)] →
      (b, fb) ∈ [("milligram", (1e-6 : F64)), ("gram", 1e-3), ("kilogram", 1),
        ("ounce", 0.028349523125), ("pound", 0.45359237)] →
      convertWeight v a b = (v * fa / fb, "")) ∧
    (∀ (x : ℚ) (a b : String) (da db : ℚ),
      (a, da) ∈ [("milligram", (1e-6 : ℚ)), ("gram", 1e-3), ("kilogram", 1),
        ("ounce", 0.028349523125), ("pound", 0.45359237)] →
      (b, db) ∈ [("milligram", (1e-6 : ℚ)), ("gram", 1e-3), ("kilogram", 1),
        ("ounce", 0.028349523125), ("pound", 0.45359237)] →
      |x| ≤ 2 ^ 900 →
      ∃ w : ℚ, convertWeight (F64.fin x) a b = (F64.fin w, "") ∧
        |w - x * da / db| ≤ |x * da / db| / 2 ^ 49 + 1 / 2 ^ 1000) ∧
    convertLength 2.54 "centimeter" "inch" = (F64.fin (4503599627370497 / 2 ^ 52), "") ∧
    |(4503599627370497 / 2 ^ 52 : ℚ) - 1| ≤ 1 / 10 ^ 9 ∧
    convertLength 3 "yard" "foot" = (F64.fin (5066549580791807 / 2 ^ 49), "") ∧
    |(5066549580791807 / 2 ^ 49 : ℚ) - 9| ≤ 1 / 10 ^ 9 ∧
    convertWeight 16 "ounce" "pound" = (1, "") := by
  refine ⟨?_, ?_, ?_, ?_, centimeters_in_inch, ?_, three_yard_in_foot, ?_, ?_⟩
  · intro v a b fa fb ha hb
    exact convertLength_of_mem v a b fa fb ha hb
  · intro x a b da db ha hb hx
    obtain ⟨p, ea, hp1, hp2, hda, hpa⟩ := lengthToMeters_decimal a da ha
    obtain ⟨q, eb, hq1, -, hdb, hqb⟩ := lengthToMeters_decimal b db hb
    obtain ⟨w, hw, e⟩ := F64.scale_decimal x p q da db hp1 hp2 hq1 hda hdb hpa hqb hx
    refine ⟨w, ?_, e⟩
    rw [convertLength_eq, ea, eb]
    simp only [and_self, if_true, hw]
  · intro v a b fa fb ha hb
    exact convertWeight_of_mem v a b fa fb ha hb
  · intro x a b da db ha hb hx
    obtain ⟨p, ea, hp1, hp2, hda, hpa⟩ := weightToKg_decimal a da ha
    obtain ⟨q, eb, hq1, -, hdb, hqb⟩ := weightToKg_decimal b db hb
    obtain ⟨w, hw, e⟩ := F64.scale_decimal x p q da db hp1 hp2 hq1 hda hdb hpa hqb hx
    refine ⟨w, ?_, e⟩
    rw [convertWeight_eq, ea, eb]
    simp only [and_self, if_true, hw]
  · rw [abs_le]
    constructor <;> norm_num
  · rw [abs_le]
    constructor <;> norm_num
  · rw [sixteen_ounce_in_pound, F64.one_eq]

/-- C1, amended, at a concrete input: one mile in kilometers is within the stated error of
1.609344. -/
theorem convert_table_scaling_witness :
    ∃ w : ℚ, convertLength (F64.fin 1) "mile" "kilometer" = (F64.fin w, "") ∧
      |w - 1 * 1609.344 / 1000| ≤ |(1 : ℚ) * 1609.344 / 1000| / 2 ^ 49 + 1 / 2 ^ 1000 :=
  convert_table_scaling.2.1 1 "mile" "kilometer" 1609.344 1000 (by simp) (by simp)
    (by rw [abs_one]; exact one_le_pow₀ (by norm_num))

/-! ### C2 -/

/-- C2, as stated, fails on its last witness: in `float64` arithmetic 300 Kelvin in
Celsius is 26.850000000000023, which is neither 26.85 nor the `float64` nearest to
26.85. -/
theorem convertTemp_two_stage_not_exact :
    convertTemp 300 "Kelvin" "Celsius" = (F64.fin (236175097646285 / 2 ^ 43), "") ∧
    (236175097646285 / 2 ^ 43 : ℚ) ≠ 26.85 ∧
    convertTemp 300 "Kelvin" "Celsius" ≠ (26.85, "") := by
  refine ⟨kelvin_300_in_celsius, by norm_num, ?_⟩
  rw [kelvin_300_in_celsius, F64.literal_26_85]
  simp only [ne_eq, Prod.mk.injEq, F64.fin.injEq, and_true]
  norm_num

/-- C2, amended: for every value and every pair of units among Celsius, Fahrenheit and
Kelvin, `convertTemp` returns no error and the from-Celsius stage applied to the result of
the to-Celsius stage; to-Celsius is the value itself for Celsius, `(v - 32) * 5 / 9` for
Fahrenheit and `v - 273.15` for Kelvin, from-Celsius is `c`, `c * 9 / 5 + 32` and
`c + 273.15`, each operation being the `float64` one.  For a finite value of magnitude
at most `2 ^ 900` each stage is finite and within `(|v| + 300) * 2 ^ -49` of its exact
formula, and the whole conversion within `(|v| + 300) * 2 ^ -47` of the exact two-stage
formula.  0 Celsius is the `float64` 273.15 Kelvin, 100 Celsius is 212 Fahrenheit,
32 Fahrenheit is 0 Celsius, and 300 Kelvin is 26.850000000000023 Celsius, within
`10 ^ -6` of 26.85. -/
theorem convertTemp_two_stage :
    (∀ (v : F64) (a b : String),
      a ∈ ["Celsius", "Fahrenheit", "Kelvin"] → b ∈ ["Celsius", "Fahrenheit", "Kelvin"] →
      convertTemp v a b = ((fromCelsius (toCelsius v a).1 b).1, "")) ∧
    (∀ v : F64, toCelsius v "Celsius" = (v, "") ∧
      toCelsius v "Fahrenheit" = ((v - 32) * 5 / 9, "") ∧
      toCelsius v "Kelvin" = (v - 273.15, "")) ∧
    (∀ c : F64, fromCelsius c "Celsius" = (c, "") ∧
      fromCelsius c "Fahrenheit" = (c * 9 / 5 + 32, "") ∧
      fromCelsius c "Kelvin" = (c + 273.15, "")) ∧
    (∀ x : ℚ, |x| ≤ 2 ^ 900 →
      (∃ w : ℚ, toCelsius (F64.fin x) "Fahrenheit" = (F64.fin w, "") ∧
        |w - (x - 32) * 5 / 9| ≤ (|x| + 300) / 2 ^ 49) ∧
      (∃ w : ℚ, toCelsius (F64.fin x) "Kelvin" = (F64.fin w, "") ∧
        |w - (x - 273.15)| ≤ (|x| + 300) / 2 ^ 49) ∧
      (∃ w : ℚ, fromCelsius (F64.fin x) "Fahrenheit" = (F64.fin w, "") ∧
        |w - (x * 9 / 5 + 32)| ≤ (|x| + 300) / 2 ^ 49) ∧
      (∃ w : ℚ, fromCelsius (F64.fin x) "Kelvin" = (F64.fin w, "") ∧
        |w - (x + 273.15)| ≤ (|x| + 300) / 2 ^ 49)) ∧
    (∀ (x : ℚ) (a b : String),
      a ∈ ["Celsius", "Fahrenheit", "Kelvin"] → b ∈ ["Celsius", "Fahrenheit", "Kelvin"] →
      |x| ≤ 2 ^ 900 →
      ∃ w : ℚ, convertTemp (F64.fin x) a b = (F64.fin w, "") ∧
        |w - exactFromCelsius (exactToCelsius x a) b| ≤ (|x| + 300) / 2 ^ 47) ∧
    convertTemp 0 "Celsius" "Kelvin" = (273.15, "") ∧
    convertTemp 100 "Celsius" "Fahrenheit" = (212, "") ∧
    convertTemp 32 "Fahrenheit" "Celsius" = (0, "") ∧
    convertTemp 300 "Kelvin" "Celsius" = (F64.fin (236175097646285 / 2 ^ 43), "") ∧
    |(236175097646285 / 2 ^ 43 : ℚ) - 26.85| ≤ 1 / 10 ^ 6 := by
  have hr : ∀ x : ℚ, |x| ≤ 2 ^ 900 → |x| ≤ 2 ^ 980 := fun x hx =>
    le_trans hx (pow_le_pow_right₀ (by norm_num) (by norm_num))
  have hr2 : ∀ x : ℚ, |x| ≤ 2 ^ 900 → |x| ≤ 2 ^ 990 := fun x hx =>
    le_trans hx (pow_le_pow_right₀ (by norm_num) (by norm_num))
  refine ⟨fun v a b ha hb => convertTemp_of_mem v a b ha hb,
    fun v => ⟨toCelsius_celsius v, toCelsius_fahrenheit v, toCelsius_kelvin v⟩,
    fun c => ⟨fromCelsius_celsius c, fromCelsius_fahrenheit c, fromCelsius_kelvin c⟩,
    ?_, ?_, ?_, ?_, ?_, kelvin_300_in_celsius, ?_⟩
  · intro x hx
    have h0 : |x - x| ≤ 0 := by simp
    have hE : (0 : ℚ) ≤ |x| + 300 := add_nonneg (abs_nonneg x) (by norm_num)
    refine ⟨?_, ?_, ?_, ?_⟩
    · obtain ⟨w, hw, e⟩ := toCelsius_fahrenheit_approx x x 0 |x| h0 le_rfl hE (hr2 x hx)
      exact ⟨w, hw, by linarith⟩
    · obtain ⟨w, hw, e⟩ := toCelsius_kelvin_approx x x 0 |x| h0 le_rfl hE (hr2 x hx)
      exact ⟨w, hw, by linarith⟩
    · obtain ⟨w, hw, e⟩ := fromCelsius_fahrenheit_approx x x 0 |x| h0 le_rfl hE (hr2 x hx)
      exact ⟨w, hw, by linarith⟩
    · obtain ⟨w, hw, e⟩ := fromCelsius_kelvin_approx x x 0 |x| h0 le_rfl hE (hr2 x hx)
      exact ⟨w, hw, by linarith⟩
  · intro x a b ha hb hx
    obtain ⟨w, hw, e, -⟩ := convertTemp_approx a b ha hb x x 0 |x| (by simp) le_rfl
      (div_nonneg (add_nonneg (abs_nonneg x) (by norm_num)) (by norm_num)) (hr x hx)
    exact ⟨w, hw, by linarith⟩
  · rw [zero_celsius_in_kelvin, F64.kelvin_constant]
  · rw [hundred_celsius_in_fahrenheit, F64.ofNat_eq]
  · rw [freezing_fahrenheit_in_celsius, F64.zero_eq]
  · rw [abs_le]
    constructor <;> norm_num

/-- C2, amended, at a concrete input: 50 Fahrenheit in Kelvin is within the stated error of
the exact two-stage value. -/
theorem convertTemp_two_stage_witness :
    ∃ w : ℚ, convertTemp (F64.fin 50) "Fahrenheit" "Kelvin" = (F64.fin w, "") ∧
      |w - exactFromCelsius (exactToCelsius 50 "Fahrenheit") "Kelvin"| ≤
        (|(50 : ℚ)| + 300) / 2 ^ 47 :=
  convertTemp_two_stage.2.2.2.2.1 50 "Fahrenheit" "Kelvin" (by simp) (by simp)
    (le_trans (by rw [abs_of_pos] <;> norm_num) (pow_le_pow_right₀ (by norm_num : (1 : ℚ) ≤ 2)
      (by norm_num : 6 ≤ 900)))

/-! ### C3 -/

/-- C3: each converter fails (returns a non-empty message) exactly when the source or
the target name is not a unit of its category, names compared as they are written; a
failing converter returns the number 0 and its category's message, whichever of the two
names is the unknown one; and when the to-Celsius stage fails, `convertTemp` returns that
stage's error whatever the target name is. -/
theorem converters_fail_iff_unsupported :
    (∀ (v : F64) (a b : String),
      ((convertLength v a b).2 ≠ "" ↔
        ¬ (a ∈ ["millimeter", "centimeter", "meter", "kilometer", "inch", "foot", "yard",
              "mile"] ∧
           b ∈ ["millimeter", "centimeter", "meter", "kilometer", "inch", "foot", "yard",
              "mile"])) ∧
      ((convertLength v a b).2 ≠ "" →
        convertLength v a b = (F64.fin 0, "Unsupported length unit."))) ∧
    (∀ (v : F64) (a b : String),
      ((convertWeight v a b).2 ≠ "" ↔
        ¬ (a ∈ ["milligram", "gram", "kilogram", "ounce", "pound"] ∧
           b ∈ ["milligram", "gram", "kilogram", "ounce", "pound"])) ∧
      ((convertWeight v a b).2 ≠ "" →
        convertWeight v a b = (F64.fin 0, "Unsupported weight unit."))) ∧
    (∀ (v : F64) (a b : String),
      ((convertTemp v a b).2 ≠ "" ↔
        ¬ (a ∈ ["Celsius", "Fahrenheit", "Kelvin"] ∧
           b ∈ ["Celsius", "Fahrenheit", "Kelvin"])) ∧
      ((convertTemp v a b).2 ≠ "" →
        convertTemp v a b = (F64.fin 0, "Unsupported temperature unit.")) ∧
      ((toCelsius v a).2 ≠ "" → convertTemp v a b = (F64.fin 0, (toCelsius v a).2))) ∧
    (convertTemp 1 "celsius" "Kelvin").2 = "Unsupported temperature unit." ∧
    (convertLength 1 "Meter" "mile").2 = "Unsupported length unit." := by
  refine ⟨?_, ?_, ?_, ?_, ?_⟩
  · intro v a b
    rw [convertLength_eq, ← lengthToMeters_keys, ← mapIndex_ok_iff, ← mapIndex_ok_iff]
    split_ifs with h <;> simp [h]
  · intro v a b
    rw [convertWeight_eq, ← weightToKg_keys, ← mapIndex_ok_iff, ← mapIndex_ok_iff]
    split_ifs with h <;> simp [h]
  · intro v a b
    rw [convertTemp_eq]
    split_ifs with h1 h2
    · have h1' := (toCelsius_err_iff v a).mp h1
      refine ⟨?_, ?_, ?_⟩
      · simp only [ne_eq, h1, not_false_eq_true, true_iff]
        exact fun hh => h1' hh.1
      · intro _
        rw [toCelsius_of_err v a h1]
        simp
      · intro _
        simp
    · have h2' := (fromCelsius_err_iff _ b).mp h2
      refine ⟨?_, ?_, ?_⟩
      · simp only [ne_eq, h2, not_false_eq_true, true_iff]
        exact fun hh => h2' hh.2
      · intro _
        rw [fromCelsius_of_err _ b h2]
        simp
      · intro h
        exact absurd h h1
    · have h1' : a ∈ ["Celsius", "Fahrenheit", "Kelvin"] := by
        by_contra hc
        exact h1 ((toCelsius_err_iff v a).mpr hc)
      have h2' : b ∈ ["Celsius", "Fahrenheit", "Kelvin"] := by
        by_contra hc
        exact h2 ((fromCelsius_err_iff _ b).mpr hc)
      refine ⟨?_, ?_, ?_⟩
      · simp only [ne_eq, not_true_eq_false, false_iff, not_not]
        exact ⟨h1', h2'⟩
      · intro h
        simp at h
      · intro h
        exact absurd h h1
  · simp [convertTemp, toCelsius]
  · simp [convertLength, mapIndex, lengthToMeters, List.lookup]

/-- C3 at a concrete input: an unknown source unit fails although the target is valid. -/
theorem converters_fail_iff_unsupported_witness :
    convertLength 1 "furlong" "meter" = (F64.fin 0, "Unsupported length unit.") :=
  (converters_fail_iff_unsupported.1 1 "furlong" "meter").2
    (by simp [convertLength, mapIndex, lengthToMeters, List.lookup])

/-! ### C4 -/

/-- C4, as stated, fails.  In `float64` arithmetic 7 foot in mile, converted back to
foot, is 6.999999999999999 and not 7; and 1e305 kilometer in millimeter overflows to the
positive infinity, without an error, and converting that back to kilometer gives the
infinity again, which is no finite value at all. -/
theorem convertLength_round_trip_not_exact :
    (convertLength 7 "foot" "mile" = (F64.fin (764247209493175 / 2 ^ 59), "") ∧
      convertLength (F64.fin (764247209493175 / 2 ^ 59)) "mile" "foot" =
        (F64.fin (7881299347898367 / 2 ^ 50), "") ∧
      convertLength (F64.fin (764247209493175 / 2 ^ 59)) "mile" "foot" ≠ (7, "")) ∧
    (convertLength 1e305 "kilometer" "millimeter" = (F64.inf false, "") ∧
      convertLength (F64.inf false) "millimeter" "kilometer" = (F64.inf false, "") ∧
      (1e305 : F64) = F64.fin (2565335500811485 * 2 ^ 962)) := by
  refine ⟨⟨seven_foot_in_mile, seven_foot_in_mile_back, ?_⟩, huge_kilometer_in_millimeter,
    ?_, F64.literal_1e305⟩
  · rw [seven_foot_in_mile_back]
    simp only [F64.ofNat_eq, ne_eq, Prod.mk.injEq, F64.fin.injEq, and_true]
    norm_num
  · exact convertLength_nonfinite _ (fun x h => by cases h) _ _ (by simp) (by simp)

/-- C4, amended: for every pair of units of the length table and every finite value of
magnitude at most `2 ^ 900`, if `convertLength` from the first unit to the second returns
a number and no error, then `convertLength` of that number from the second unit to the
first returns no error and a finite number within the relative error `2 ^ -50` (plus
`2 ^ -1000`) of the original value; an infinite value and NaN are returned as they are. -/
theorem convertLength_round_trip (a b : String)
    (ha : a ∈ ["millimeter", "centimeter", "meter", "kilometer", "inch", "foot", "yard",
      "mile"])
    (hb : b ∈ ["millimeter", "centimeter", "meter", "kilometer", "inch", "foot", "yard",
      "mile"]) :
    (∀ (x : ℚ) (r : F64), |x| ≤ 2 ^ 900 → convertLength (F64.fin x) a b = (r, "") →
      ∃ w : ℚ, convertLength r b a = (F64.fin w, "") ∧
        |w - x| ≤ |x| / 2 ^ 50 + 1 / 2 ^ 1000) ∧
    (∀ v r : F64, (∀ x : ℚ, v ≠ F64.fin x) → convertLength v a b = (r, "") →
      convertLength r b a = (v, "")) := by
  constructor
  · intro x r hx h
    obtain ⟨p, q, ⟨hp1, hp2⟩, ⟨hq1, hq2⟩, ea, eb, e1⟩ := convertLength_of_index a b ha hb
    obtain ⟨q', p', -, -, eb', ea', e2⟩ := convertLength_of_index b a hb ha
    have hpp : p' = p := by
      rw [ea] at ea'
      simpa using ea'.symm
    have hqq : q' = q := by
      rw [eb] at eb'
      simpa using eb'.symm
    subst hpp hqq
    obtain ⟨r1, w, h1, h2, e⟩ := F64.scale_round_trip x p' q' hp1 hp2 hq1 hq2 hx
    rw [e1, h1] at h
    have hr : r = F64.fin r1 := (Prod.mk.inj h).1.symm
    refine ⟨w, ?_, e⟩
    rw [hr, e2, h2]
  · intro v r hv h
    rw [convertLength_nonfinite v hv a b ha hb] at h
    have hr : r = v := (Prod.mk.inj h).1.symm
    rw [hr]
    exact convertLength_nonfinite v hv b a hb ha

/-- C4, amended, at a concrete input: 7 foot in mile and back is within the stated error
of 7. -/
theorem convertLength_round_trip_witness :
    ∃ w : ℚ, convertLength (F64.fin (764247209493175 / 2 ^ 59)) "mile" "foot" = (F64.fin w, "") ∧
      |w - 7| ≤ |(7 : ℚ)| / 2 ^ 50 + 1 / 2 ^ 1000 :=
  (convertLength_round_trip "foot" "mile" (by simp) (by simp)).1 7
    (F64.fin (764247209493175 / 2 ^ 59))
    (le_trans (by rw [abs_of_pos] <;> norm_num) (pow_le_pow_right₀ (by norm_num : (1 : ℚ) ≤ 2)
      (by norm_num : 3 ≤ 900)))
    (by
      have h := seven_foot_in_mile
      rw [F64.ofNat_eq] at h
      exact h)

/-! ### C5 -/

/-- C5, as stated, fails in every category.  In `float64` arithmetic 7 foot in foot is
6.999999999999999, 31 milligram in milligram is 31.000000000000004, and 0.1 Kelvin in
Kelvin is 0.10000000000002274; and 1e308 mile in mile overflows to the positive
infinity. -/
theorem convert_same_unit_not_exact :
    (convertLength 7 "foot" "foot" = (F64.fin (7881299347898367 / 2 ^ 50), "") ∧
      convertLength 7 "foot" "foot" ≠ (7, "")) ∧
    (convertWeight 31 "milligram" "milligram" = (F64.fin (8725724278030337 / 2 ^ 48), "") ∧
      convertWeight 31 "milligram" "milligram" ≠ (31, "")) ∧
    (convertTemp 0.1 "Kelvin" "Kelvin" = (F64.fin (879609302221 / 2 ^ 43), "") ∧
      convertTemp 0.1 "Kelvin" "Kelvin" ≠ (0.1, "")) ∧
    (convertLength 1e308 "mile" "mile" = (F64.inf false, "") ∧
      (1e308 : F64) = F64.fin (156575653125701 * 2 ^ 976)) := by
  refine ⟨⟨seven_foot_in_foot, ?_⟩, ⟨milligram_31_in_milligram, ?_⟩,
    ⟨tenth_kelvin_in_kelvin, ?_⟩, huge_mile_in_mile, F64.literal_1e308⟩
  · rw [seven_foot_in_foot]
    simp only [F64.ofNat_eq, ne_eq, Prod.mk.injEq, F64.fin.injEq, and_true]
    norm_num
  · rw [milligram_31_in_milligram]
    simp only [F64.ofNat_eq, ne_eq, Prod.mk.injEq, F64.fin.injEq, and_true]
    norm_num
  · rw [tenth_kelvin_in_kelvin, F64.literal_0_1]
    simp only [ne_eq, Prod.mk.injEq, F64.fin.injEq, and_true]
    norm_num

/-- C5, amended: in every category, converting a finite value of magnitude at most
`2 ^ 900` from a unit of the category to that same unit returns no error and a finite
number close to the value: within the relative error `2 ^ -51` (plus `2 ^ -1000`) for
lengths and weights, within `(|v| + 300) * 2 ^ -47` for temperatures.  The value is
returned exactly as it is when it is an infinity or NaN, for Celsius, and, for a `float64`
value, for meter and kilogram (whose factor is 1). -/
theorem convert_same_unit (u : String) :
    (u ∈ ["millimeter", "centimeter", "meter", "kilometer", "inch", "foot", "yard", "mile"] →
      (∀ x : ℚ, |x| ≤ 2 ^ 900 →
        ∃ w : ℚ, convertLength (F64.fin x) u u = (F64.fin w, "") ∧
          |w - x| ≤ |x| / 2 ^ 51 + 1 / 2 ^ 1000) ∧
      (∀ v : F64, (∀ x : ℚ, v ≠ F64.fin x) → convertLength v u u = (v, ""))) ∧
    (u ∈ ["milligram", "gram", "kilogram", "ounce", "pound"] →
      (∀ x : ℚ, |x| ≤ 2 ^ 900 →
        ∃ w : ℚ, convertWeight (F64.fin x) u u = (F64.fin w, "") ∧
          |w - x| ≤ |x| / 2 ^ 51 + 1 / 2 ^ 1000) ∧
      (∀ v : F64, (∀ x : ℚ, v ≠ F64.fin x) → convertWeight v u u = (v, ""))) ∧
    (u ∈ ["Celsius", "Fahrenheit", "Kelvin"] →
      (∀ x : ℚ, |x| ≤ 2 ^ 900 →
        ∃ w : ℚ, convertTemp (F64.fin x) u u = (F64.fin w, "") ∧
          |w - x| ≤ (|x| + 300) / 2 ^ 47) ∧
      (∀ v : F64, (∀ x : ℚ, v ≠ F64.fin x) → convertTemp v u u = (v, ""))) ∧
    (∀ v : F64, convertTemp v "Celsius" "Celsius" = (v, "")) ∧
    (∀ x : ℚ, F64.ofRat x = F64.fin x →
      convertLength (F64.fin x) "meter" "meter" = (F64.fin x, "") ∧
      convertWeight (F64.fin x) "kilogram" "kilogram" = (F64.fin x, "")) := by
  refine ⟨?_, ?_, ?_, ?_, ?_⟩
  · intro hu
    refine ⟨fun x hx => ?_, fun v hv => convertLength_nonfinite v hv u u hu hu⟩
    obtain ⟨p, hp1, hp2, e⟩ := lengthToMeters_index_bounds u hu
    obtain ⟨w, hw, ew⟩ := F64.scale_same x p hp1 hp2 hx
    refine ⟨w, ?_, ew⟩
    rw [convertLength_eq, e]
    simp only [and_self, if_true, hw]
  · intro hu
    refine ⟨fun x hx => ?_, fun v hv => convertWeight_nonfinite v hv u u hu hu⟩
    obtain ⟨p, hp1, hp2, e⟩ := weightToKg_index_bounds u hu
    obtain ⟨w, hw, ew⟩ := F64.scale_same x p hp1 hp2 hx
    refine ⟨w, ?_, ew⟩
    rw [convertWeight_eq, e]
    simp only [and_self, if_true, hw]
  · intro hu
    refine ⟨fun x hx => ?_, fun v hv => convertTemp_nonfinite v hv u u hu hu⟩
    obtain ⟨w, hw, e, -⟩ := convertTemp_approx u u hu hu x x 0 |x| (by simp) le_rfl
      (div_nonneg (add_nonneg (abs_nonneg x) (by norm_num)) (by norm_num))
      (le_trans hx (pow_le_pow_right₀ (by norm_num) (by norm_num)))
    rw [exactFromCelsius_exactToCelsius _ u hu] at e
    exact ⟨w, hw, by linarith⟩
  · intro v
    rw [convertTemp_of_mem v _ _ (by simp) (by simp), toCelsius_celsius, fromCelsius_celsius]
  · intro x hx
    constructor
    · rw [convertLength_of_mem _ "meter" "meter" 1 1 (by simp [lengthToMeters])
        (by simp [lengthToMeters]), F64.one_eq, F64.scale_one x hx]
    · rw [convertWeight_of_mem _ "kilogram" "kilogram" 1 1 (by simp [weightToKg])
        (by simp [weightToKg]), F64.one_eq, F64.scale_one x hx]

/-- C5, amended, at concrete inputs: 7 foot in foot, 7 pound in pound and 7 Fahrenheit in
Fahrenheit are within the stated errors of 7. -/
theorem convert_same_unit_witness :
    (∃ w : ℚ, convertLength (F64.fin 7) "foot" "foot" = (F64.fin w, "") ∧
      |w - 7| ≤ |(7 : ℚ)| / 2 ^ 51 + 1 / 2 ^ 1000) ∧
    (∃ w : ℚ, convertWeight (F64.fin 7) "pound" "pound" = (F64.fin w, "") ∧
      |w - 7| ≤ |(7 : ℚ)| / 2 ^ 51 + 1 / 2 ^ 1000) ∧
    (∃ w : ℚ, convertTemp (F64.fin 7) "Fahrenheit" "Fahrenheit" = (F64.fin w, "") ∧
      |w - 7| ≤ (|(7 : ℚ)| + 300) / 2 ^ 47) :=
  have h7 : |(7 : ℚ)| ≤ 2 ^ 900 :=
    le_trans (by rw [abs_of_pos] <;> norm_num) (pow_le_pow_right₀ (by norm_num : (1 : ℚ) ≤ 2)
      (by norm_num : 3 ≤ 900))
  ⟨((convert_same_unit "foot").1 (by simp)).1 7 h7,
    ((convert_same_unit "pound").2.1 (by simp)).1 7 h7,
    ((convert_same_unit "Fahrenheit").2.2.1 (by simp)).1 7 h7⟩

/-! ### C6 -/

/-- C6: `parseValue` first strips the white space around the field's text (what it strips
is white space only, and what is left neither starts nor ends with white space); it
returns 0 and "Please enter a value." exactly when the stripped text is empty; otherwise
it deletes every comma of the stripped text and parses the rest as a floating-point
number, returning 0 and "Invalid number." exactly when that parse fails, and the parsed
number with no error otherwise.  A text made only of commas yields "Invalid number.". -/
theorem parseValue_outcomes (r : Request) (name raw : String)
    (hraw : raw = TrimSpace (r.FormValue name)) :
    (∃ pre post : List Char, (r.FormValue name).data = pre ++ raw.data ++ post ∧
      (∀ c ∈ pre, isSpace c = true) ∧ (∀ c ∈ post, isSpace c = true) ∧
      (∀ c, raw.data.head? = some c → isSpace c = false) ∧
      (∀ c, raw.data.getLast? = some c → isSpace c = false)) ∧
    (removeCommas raw).data = raw.data.filter (fun c => c ≠ ',') ∧
    (parseValue r name = (F64.fin 0, "Please enter a value.") ↔ raw = "") ∧
    ((parseValue r name).2 = "Please enter a value." ↔ raw = "") ∧
    (raw ≠ "" →
      ((parseValue r name = (F64.fin 0, "Invalid number.") ↔
          (ParseFloat (removeCommas raw)).2 ≠ none) ∧
       ((parseValue r name).2 = "Invalid number." ↔
          (ParseFloat (removeCommas raw)).2 ≠ none) ∧
       ((ParseFloat (removeCommas raw)).2 = none →
          parseValue r name = ((ParseFloat (removeCommas raw)).1, "")))) ∧
    (∀ n : Nat, 0 < n → r.FormValue name = ⟨List.replicate n ','⟩ →
      parseValue r name = (F64.fin 0, "Invalid number.")) := by
  subst hraw
  refine ⟨trimSpaceChars_spec (r.FormValue name).data, rfl, ?_, ?_, ?_, ?_⟩
  · rw [parseValue_eq]
    split_ifs with h1 h2 <;> simp [h1]
  · rw [parseValue_eq]
    split_ifs with h1 h2 <;> simp [h1]
  · intro hne
    rw [parseValue_eq, if_neg hne]
    refine ⟨?_, ?_, ?_⟩
    · split_ifs with h2
      · simp [h2]
      · have h2' : (ParseFloat (removeCommas (TrimSpace (r.FormValue name)))).2 = none := by
          simpa using h2
        simp [h2']
    · split_ifs with h2
      · simp [h2]
      · have h2' : (ParseFloat (removeCommas (TrimSpace (r.FormValue name)))).2 = none := by
          simpa using h2
        simp [h2']
    · intro h2
      simp [h2]
  · intro n hn hv
    have htrim : TrimSpace (r.FormValue name) = ⟨List.replicate n ','⟩ := by
      rw [hv]
      unfold TrimSpace
      congr 1
      apply trimSpaceChars_id
      · intro c hc
        have hmem : c ∈ List.replicate n ',' := List.mem_of_mem_head? hc
        rw [List.eq_of_mem_replicate hmem]
        decide
      · intro c hc
        have hmem : c ∈ List.replicate n ',' := List.mem_of_mem_getLast? hc
        rw [List.eq_of_mem_replicate hmem]
        decide
    have hne : TrimSpace (r.FormValue name) ≠ "" := by
      rw [htrim]
      intro hc
      have := congrArg String.length hc
      simp [String.length] at this
      omega
    have hrm : removeCommas (TrimSpace (r.FormValue name)) = "" := by
      rw [htrim]
      unfold removeCommas
      congr 1
      simp [List.filter_eq_nil_iff, List.mem_replicate]
    have hpf : ParseFloat "" = (0, some NumError.ErrSyntax) := rfl
    rw [parseValue_eq, if_neg hne, hrm, hpf]
    simp

/-- C6 at a concrete input: a field holding three commas. -/
theorem parseValue_outcomes_witness :
    parseValue ⟨"POST", [("value", ",,,")]⟩ "value" = (F64.fin 0, "Invalid number.") :=
  (parseValue_outcomes ⟨"POST", [("value", ",,,")]⟩ "value" ",,," (by decide)).2.2.2.2.2
    3 (by decide) (by decide)

/-! ### C7 -/

/-- C7, as stated, fails: the text "1e5" contains an embedded letter and `parseValue`
accepts it, returning 100000 and no error; and the decimal numeral made of a 1 followed
by 400 zeros is rejected with "Invalid number.", since it is out of the range of a
`float64`. -/
theorem parseValue_accepts_letter_rejects_long_numeral :
    ('e' ∈ "1e5".data ∧ Char.isAlpha 'e' = true ∧
      parseValue ⟨"POST", [("value", "1e5")]⟩ "value" = (F64.fin 100000, "")) ∧
    ((∀ c ∈ '1' :: List.replicate 400 '0', isDigit c = true) ∧
      parseValue ⟨"POST", [("value", ⟨'1' :: List.replicate 400 '0'⟩)]⟩ "value" =
        (F64.fin 0, "Invalid number.")) := by
  refine ⟨⟨by decide, by decide, ?_⟩, ?_, ?_⟩
  · have h1 : TrimSpace "1e5" = "1e5" := by decide
    have h2 : removeCommas "1e5" = "1e5" := by decide
    have h3 : readFloat "1e5".data = some ⟨1, 5, false, false, []⟩ := by decide
    have h4 : special "1e5".data = none := by decide
    have h5 : ¬ overflowThreshold ≤ 100000 := by
      intro hc
      have h6 : (10 : ℚ) ^ 300 < 100000 := lt_of_lt_of_le overflowThreshold_gt hc
      norm_num at h6
    have h7 : ParseFloat "1e5" = (F64.fin 100000, none) := by
      simp [ParseFloat, atof64, h3, h4, scale, h5]
    have hv : Request.FormValue ⟨"POST", [("value", "1e5")]⟩ "value" = "1e5" := by decide
    rw [parseValue_eq, hv, h1, h2, h7]
    simp
  · intro c hc
    rcases List.mem_cons.mp hc with rfl | hc
    · decide
    · rw [List.eq_of_mem_replicate hc]
      decide
  · exact parseValue_long_numeral 400 overflowThreshold_le

/-- C7, amended: `parseValue` accepts every decimal numeral (an optional minus sign,
digits, and possibly a dot with digits before or after it) whose value is below the
overflow threshold of a `float64`: it returns no error and a finite number that is the
value of the numeral up to the rounding of a `float64` (relative error at most `2 ^ -53`,
plus `2 ^ -1075`).  It rejects, with the number 0 and an error message, every text that
contains a character other than white space, the comma, the digits, the signs, the dot,
the underscore and the letters `a b c d e f i n p t x y` in either case (the letters of
exponents, hexadecimal floats, `inf`, `infinity` and `nan`), hence every text with any other
letter; every text with more than one dot; and every text that is empty after
stripping. -/
theorem parseValue_accepts_rejects (r : Request) (name : String) :
    (∀ (neg dot : Bool) (ip fp : List Char),
      (∀ c ∈ ip, isDigit c = true) → (∀ c ∈ fp, isDigit c = true) →
      (dot = false → fp = []) → ip ++ fp ≠ [] →
      (((ip ++ fp).foldl (fun n c => n * 10 + digitVal c) 0 : Nat) : ℚ) / 10 ^ fp.length
        < overflowThreshold →
      r.FormValue name =
        ⟨(if neg = true then ['-'] else []) ++ (ip ++ (if dot = true then '.' :: fp else []))⟩ →
      ∃ q : ℚ, parseValue r name = (F64.fin q, "") ∧
        |q - (if neg = true then
            -((((ip ++ fp).foldl (fun n c => n * 10 + digitVal c) 0 : Nat) : ℚ) / 10 ^ fp.length)
          else (((ip ++ fp).foldl (fun n c => n * 10 + digitVal c) 0 : Nat) : ℚ) / 10 ^ fp.length)|
          ≤ (((ip ++ fp).foldl (fun n c => n * 10 + digitVal c) 0 : Nat) : ℚ) / 10 ^ fp.length
              / 2 ^ 53 + 1 / 2 ^ 1075) ∧
    (∀ c ∈ (r.FormValue name).data, isSpace c = false → c ≠ ',' → floatChar c = false →
      (parseValue r name).1 = F64.fin 0 ∧ (parseValue r name).2 ≠ "") ∧
    (∀ c ∈ (r.FormValue name).data, c.isAlpha = true → c.toLower ∉ "abcdefinptxy".data →
      (parseValue r name).1 = F64.fin 0 ∧ (parseValue r name).2 ≠ "") ∧
    (2 ≤ (r.FormValue name).data.count '.' →
      (parseValue r name).1 = F64.fin 0 ∧ (parseValue r name).2 ≠ "") ∧
    (TrimSpace (r.FormValue name) = "" →
      (parseValue r name).1 = F64.fin 0 ∧ (parseValue r name).2 ≠ "") := by
  have hchar : ∀ c ∈ (r.FormValue name).data, isSpace c = false → c ≠ ',' →
      floatChar c = false → (parseValue r name).1 = F64.fin 0 ∧ (parseValue r name).2 ≠ "" := by
    intro c hc hs hcomma hfc
    have hrej : (parseValue r name).2 ≠ "" := by
      intro hok
      obtain ⟨-, hpf⟩ := parseValue_ok_imp r name hok
      have hmem := mem_cleaned (r.FormValue name) c hc hs hcomma
      rw [(ParseFloat_ok_spec _ hpf).1 c hmem] at hfc
      exact absurd hfc (by decide)
    exact ⟨parseValue_err_zero r name hrej, hrej⟩
  refine ⟨?_, hchar, ?_, ?_, ?_⟩
  · intro neg dot ip fp hip hfp hdot hne hlt hv
    have hs1 : ip ++ (if dot = true then '.' :: fp else []) ≠ [] := by
      intro hc
      rw [List.append_eq_nil] at hc
      cases dot with
      | false => exact hne (by rw [hc.1, hdot rfl]; rfl)
      | true => simp at hc
    have hval : parseValue r name =
        (F64.fin (if neg = true then
            -((((ip ++ fp).foldl (fun n c => n * 10 + digitVal c) 0 : Nat) : ℚ) / 10 ^ fp.length)
          else (((ip ++ fp).foldl (fun n c => n * 10 + digitVal c) 0 : Nat) : ℚ) / 10 ^ fp.length),
          "") := by
      rw [parseValue_of_clean r name _ hv, ParseFloat_numeral neg dot ip fp hip hfp hdot hne,
        if_neg (not_le.mpr hlt)]
      · simp
      · intro hc
        rw [List.append_eq_nil] at hc
        exact hs1 hc.2
      · intro c hc
        simp only [List.mem_append] at hc
        rcases hc with hc | hc | hc
        · split_ifs at hc
          · rw [List.mem_singleton] at hc
            subst hc
            decide
          · simp at hc
        · have := isDigit_facts c (hip c hc)
          exact ⟨this.2.2.2.2.1, this.2.2.1⟩
        · split_ifs at hc
          · rcases List.mem_cons.mp hc with rfl | hc
            · exact ⟨dot_facts.2.2.2.2.2.2.2.2.1, dot_facts.2.2.2.2.2.2.2.2.2⟩
            · have := isDigit_facts c (hfp c hc)
              exact ⟨this.2.2.2.2.1, this.2.2.1⟩
          · simp at hc
    refine ⟨_, hval, ?_⟩
    clear hlt hval
    rw [sub_self, abs_zero]
    exact add_nonneg (div_nonneg (div_nonneg (Nat.cast_nonneg _) (by positivity)) (by norm_num))
      (by norm_num)
  · intro c hc halpha hletter
    have hfacts := isAlpha_facts c halpha
    refine hchar c hc hfacts.1 hfacts.2.1 ?_
    by_contra hfc
    exact hletter (hfacts.2.2 (by simpa using hfc))
  · intro hdots
    have hrej : (parseValue r name).2 ≠ "" := by
      intro hok
      obtain ⟨-, hpf⟩ := parseValue_ok_imp r name hok
      have := (ParseFloat_ok_spec _ hpf).2
      rw [count_dot_cleaned] at this
      omega
    exact ⟨parseValue_err_zero r name hrej, hrej⟩
  · intro hempty
    rw [parseValue_eq, if_pos hempty]
    exact ⟨by simp, by decide⟩

/-- C7, amended, at a concrete input: the negative decimal "-12.5" is accepted, with a
finite number within the rounding of a `float64` of -12.5. -/
theorem parseValue_accepts_rejects_witness :
    ∃ q : ℚ, parseValue ⟨"POST", [("value", "-12.5")]⟩ "value" = (F64.fin q, "") ∧
      |q - (-12.5)| ≤ 12.5 / 2 ^ 53 + 1 / 2 ^ 1075 := by
  have d1 : digitVal '1' = 1 := by decide
  have d2 : digitVal '2' = 2 := by decide
  have d5 : digitVal '5' = 5 := by decide
  obtain ⟨q, h1, h2⟩ := (parseValue_accepts_rejects ⟨"POST", [("value", "-12.5")]⟩ "value").1
    true true ['1', '2'] ['5'] (by decide) (by decide) (by simp) (by simp)
    (lt_trans (by norm_num [d1, d2, d5]) overflowThreshold_gt) (by decide)
  refine ⟨q, h1, ?_⟩
  norm_num [d1, d2, d5] at h2 ⊢
  exact h2

/-! ### C8 -/

/-- C8: for each of the three handlers and every POST request: when `parseValue` fails on
the value field, the view's Error is the parser's message and there is no result, whatever
the units are; when parsing succeeds and the category's converter fails on the resolved
units, Error is the converter's message and there is no result; otherwise Error is empty,
HasResult is true and Result is `round` of the converted value.  A value field "abc"
gives "Invalid number." and no result in all three categories. -/
theorem handlers_post_outcome (r : Request) (hpost : r.Method = "POST")
    (handler : Request → viewData) (convert : F64 → String → String → F64 × String)
    (defFrom defTo : String)
    (hcat : (handler, convert, defFrom, defTo) ∈
      [(lengthHandler, convertLength, "meter", "kilometer"),
       (weightHandler, convertWeight, "gram", "kilogram"),
       (tempHandler, convertTemp, "Celsius", "Fahrenheit")]) :
    ((parseValue r "value").2 ≠ "" →
      (handler r).Error = (parseValue r "value").2 ∧ (handler r).HasResult = false ∧
        (handler r).Result = F64.fin 0) ∧
    ((parseValue r "value").2 = "" →
      (convert (parseValue r "value").1 (selectedOrDefault r "from" defFrom)
        (selectedOrDefault r "to" defTo)).2 ≠ "" →
      (handler r).Error = (convert (parseValue r "value").1
        (selectedOrDefault r "from" defFrom) (selectedOrDefault r "to" defTo)).2 ∧
      (handler r).HasResult = false ∧ (handler r).Result = F64.fin 0) ∧
    ((parseValue r "value").2 = "" →
      (convert (parseValue r "value").1 (selectedOrDefault r "from" defFrom)
        (selectedOrDefault r "to" defTo)).2 = "" →
      (handler r).Error = "" ∧ (handler r).HasResult = true ∧
      (handler r).Result = round (convert (parseValue r "value").1
        (selectedOrDefault r "from" defFrom) (selectedOrDefault r "to" defTo)).1) ∧
    (r.FormValue "value" = "abc" →
      (handler r).Error = "Invalid number." ∧ (handler r).HasResult = false) := by
  have habc : r.FormValue "value" = "abc" → parseValue r "value" = (0, "Invalid number.") := by
    intro hv
    have h1 : TrimSpace "abc" = "abc" := by decide
    have h2 : removeCommas "abc" = "abc" := by decide
    have h3 : ParseFloat "abc" = (0, some NumError.ErrSyntax) := rfl
    rw [parseValue_eq, hv, h1, h2, h3]
    simp
  simp only [List.mem_cons, List.mem_singleton, List.not_mem_nil, or_false, Prod.mk.injEq] at hcat
  rcases hcat with ⟨rfl, rfl, rfl, rfl⟩ | ⟨rfl, rfl, rfl, rfl⟩ | ⟨rfl, rfl, rfl, rfl⟩
  · rw [lengthHandler_eq, if_pos hpost]
    refine ⟨?_, ?_, ?_, ?_⟩
    · intro h1
      simp [h1]
    · intro h1 h2
      simp [h1, h2]
    · intro h1 h2
      simp [h1, h2]
    · intro hv
      simp [habc hv]
  · rw [weightHandler_eq, if_pos hpost]
    refine ⟨?_, ?_, ?_, ?_⟩
    · intro h1
      simp [h1]
    · intro h1 h2
      simp [h1, h2]
    · intro h1 h2
      simp [h1, h2]
    · intro hv
      simp [habc hv]
  · rw [tempHandler_eq, if_pos hpost]
    refine ⟨?_, ?_, ?_, ?_⟩
    · intro h1
      simp [h1]
    · intro h1 h2
      simp [h1, h2]
    · intro h1 h2
      simp [h1, h2]
    · intro hv
      simp [habc hv]

/-- C8 at a concrete input: an unparsable value together with an unsupported target unit
reports the parser's message. -/
theorem handlers_post_outcome_witness :
    (weightHandler ⟨"POST", [("value", "abc"), ("to", "stone")]⟩).Error = "Invalid number." ∧
      (weightHandler ⟨"POST", [("value", "abc"), ("to", "stone")]⟩).HasResult = false :=
  (handlers_post_outcome ⟨"POST", [("value", "abc"), ("to", "stone")]⟩ rfl weightHandler
    convertWeight "gram" "kilogram" (by simp)).2.2.2 (by decide)

/-! ### C9 -/

/-- C9: for each of the three handlers and every request whose method is not POST,
whatever its fields carry, the view has no result and no error: HasResult is false, Result
is 0 and Error is empty. -/
theorem handlers_non_post (r : Request) (hget : r.Method ≠ "POST")
    (handler : Request → viewData)
    (hcat : handler ∈ [lengthHandler, weightHandler, tempHandler]) :
    (handler r).HasResult = false ∧ (handler r).Result = F64.fin 0 ∧ (handler r).Error = "" := by
  simp only [List.mem_cons, List.mem_singleton, List.not_mem_nil, or_false] at hcat
  rcases hcat with rfl | rfl | rfl
  · rw [lengthHandler_eq, if_neg hget]
    simp
  · rw [weightHandler_eq, if_neg hget]
    simp
  · rw [tempHandler_eq, if_neg hget]
    simp

/-- C9 at a concrete input: a GET request with a well-formed value in its query. -/
theorem handlers_non_post_witness :
    (lengthHandler ⟨"GET", [("value", "100"), ("from", "meter"), ("to", "mile")]⟩).HasResult
        = false ∧
      (lengthHandler ⟨"GET", [("value", "100"), ("from", "meter"), ("to", "mile")]⟩).Result
        = F64.fin 0 ∧
      (lengthHandler ⟨"GET", [("value", "100"), ("from", "meter"), ("to", "mile")]⟩).Error
        = "" :=
  handlers_non_post ⟨"GET", [("value", "100"), ("from", "meter"), ("to", "mile")]⟩
    (by decide) lengthHandler (by simp)

/-! ### C10 -/

/-- C10: for every request to any of the three handlers the view never carries both a
result and an error (HasResult true together with a non-empty Error), and for every POST
request it carries one of the two, hence exactly one. -/
theorem handlers_result_xor_error (r : Request) (handler : Request → viewData)
    (hcat : handler ∈ [lengthHandler, weightHandler, tempHandler]) :
    ¬ ((handler r).HasResult = true ∧ (handler r).Error ≠ "") ∧
    (r.Method = "POST" → ((handler r).HasResult = true ∨ (handler r).Error ≠ "")) := by
  simp only [List.mem_cons, List.mem_singleton, List.not_mem_nil, or_false] at hcat
  rcases hcat with rfl | rfl | rfl
  · rw [lengthHandler_eq]
    split_ifs with h1 h2 h3 <;> simp_all
  · rw [weightHandler_eq]
    split_ifs with h1 h2 h3 <;> simp_all
  · rw [tempHandler_eq]
    split_ifs with h1 h2 h3 <;> simp_all

/-- C10 at a concrete input: a POST with an empty value carries an error and no result. -/
theorem handlers_result_xor_error_witness :
    ¬ ((tempHandler ⟨"POST", [("value", "")]⟩).HasResult = true ∧
        (tempHandler ⟨"POST", [("value", "")]⟩).Error ≠ "") ∧
      ((tempHandler ⟨"POST", [("value", "")]⟩).HasResult = true ∨
        (tempHandler ⟨"POST", [("value", "")]⟩).Error ≠ "") :=
  ⟨(handlers_result_xor_error ⟨"POST", [("value", "")]⟩ tempHandler (by simp)).1,
    (handlers_result_xor_error ⟨"POST", [("value", "")]⟩ tempHandler (by simp)).2 rfl⟩

/-! ## Further facts about the converters and the handlers -/

/-- The fields every handler copies from the request, whatever the method. -/
theorem lengthHandler_echo (r : Request) :
    (lengthHandler r).Units = lengthUnits ∧ (lengthHandler r).Value = r.FormValue "value" ∧
      (lengthHandler r).From = selectedOrDefault r "from" "meter" ∧
      (lengthHandler r).To = selectedOrDefault r "to" "kilometer" ∧
      (lengthHandler r).Active = "length" := by
  rw [lengthHandler_eq]
  split_ifs <;> simp

/-- The fields every handler copies from the request, whatever the method. -/
theorem weightHandler_echo (r : Request) :
    (weightHandler r).Units = weightUnits ∧ (weightHandler r).Value = r.FormValue "value" ∧
      (weightHandler r).From = selectedOrDefault r "from" "gram" ∧
      (weightHandler r).To = selectedOrDefault r "to" "kilogram" ∧
      (weightHandler r).Active = "weight" := by
  rw [weightHandler_eq]
  split_ifs <;> simp

/-- The fields every handler copies from the request, whatever the method. -/
theorem tempHandler_echo (r : Request) :
    (tempHandler r).Units = tempUnits ∧ (tempHandler r).Value = r.FormValue "value" ∧
      (tempHandler r).From = selectedOrDefault r "from" "Celsius" ∧
      (tempHandler r).To = selectedOrDefault r "to" "Fahrenheit" ∧
      (tempHandler r).Active = "temperature" := by
  rw [tempHandler_eq]
  split_ifs <;> simp

/-- The selection is the submitted field when it is present and not empty. -/
theorem selectedOrDefault_of_some (r : Request) (name d v : String)
    (h : r.Form.lookup name = some v) (hv : v ≠ "") : selectedOrDefault r name d = v := by
  simp [selectedOrDefault, Request.FormValue, h, hv]

/-- The selection is the default when the field is absent or empty. -/
theorem selectedOrDefault_of_none (r : Request) (name d : String)
    (h : r.Form.lookup name = none ∨ r.Form.lookup name = some "") :
    selectedOrDefault r name d = d := by
  rcases h with h | h <;> simp [selectedOrDefault, Request.FormValue, h]

/-- The default pair of each category converts without error. -/
theorem convert_default_ok (v : F64) :
    (convertLength v "meter" "kilometer").2 = "" ∧ (convertWeight v "gram" "kilogram").2 = "" ∧
      (convertTemp v "Celsius" "Fahrenheit").2 = "" := by
  refine ⟨?_, ?_, ?_⟩
  · obtain ⟨p, q, -, -, -, -, e⟩ := convertLength_of_units v "meter" "kilometer" (by simp) (by simp)
    rw [e]
  · obtain ⟨p, q, -, -, -, -, e⟩ := convertWeight_of_units v "gram" "kilogram" (by simp) (by simp)
    rw [e]
  · rw [convertTemp_of_mem v _ _ (by simp) (by simp)]

/-! ## Printing a number and reading it back -/

/-- The character of a digit below ten is a decimal digit with that value. -/
theorem digitChar_facts (d : Nat) (h : d < 10) :
    isDigit (Nat.digitChar d) = true ∧ digitVal (Nat.digitChar d) = d := by
  interval_cases d <;> decide

/-- Reading a run of digits continues the number read so far. -/
theorem foldl_digits_shift (ds : List Char) (a : Nat) :
    ds.foldl (fun n c => n * 10 + digitVal c) a =
      a * 10 ^ ds.length + ds.foldl (fun n c => n * 10 + digitVal c) 0 := by
  induction ds generalizing a with
  | nil => simp
  | cons c ds ih =>
    rw [List.foldl_cons, ih, List.foldl_cons, ih (0 * 10 + digitVal c), List.length_cons,
      Nat.pow_succ]
    ring

/-- What `Nat.toDigitsCore` puts in front of the digits it was given: decimal digits that
read back as the number, as many as the size of the number allows. -/
theorem toDigitsCore_spec (fuel n : Nat) (ds : List Char) (hf : n < fuel) :
    ∃ pre : List Char, Nat.toDigitsCore 10 fuel n ds = pre ++ ds ∧ pre ≠ [] ∧
      (∀ c ∈ pre, isDigit c = true) ∧
      pre.foldl (fun m c => m * 10 + digitVal c) 0 = n ∧
      ∀ k, 0 < k → n < 10 ^ k → pre.length ≤ k := by
  induction fuel generalizing n ds with
  | zero => omega
  | succ fuel ih =>
    have hd := digitChar_facts (n % 10) (Nat.mod_lt _ (by decide))
    rw [Nat.toDigitsCore]
    by_cases h0 : n / 10 = 0
    · simp only [h0, if_true]
      have hn : n % 10 = n := Nat.mod_eq_of_lt (by omega)
      refine ⟨[Nat.digitChar (n % 10)], rfl, by simp, ?_, ?_, ?_⟩
      · intro c hc
        rw [List.mem_singleton] at hc
        rw [hc]
        exact hd.1
      · rw [List.foldl_cons, List.foldl_nil, hd.2]
        omega
      · intro k hk _
        simpa using hk
    · simp only [h0, if_false]
      obtain ⟨pre, e, -, hdig, hval, hlen⟩ :=
        ih (n / 10) (Nat.digitChar (n % 10) :: ds) (by omega)
      refine ⟨pre ++ [Nat.digitChar (n % 10)], by rw [e]; simp, by simp, ?_, ?_, ?_⟩
      · intro c hc
        rcases List.mem_append.mp hc with hc | hc
        · exact hdig c hc
        · rw [List.mem_singleton] at hc
          rw [hc]
          exact hd.1
      · rw [List.foldl_append, hval]
        simp only [List.foldl_cons, List.foldl_nil, hd.2]
        omega
      · intro k hk hn
        have hk2 : 2 ≤ k := by
          by_contra hc
          have hk1 : k = 1 := by omega
          subst hk1
          simp at hn
          omega
        have : n / 10 < 10 ^ (k - 1) := by
          rw [Nat.div_lt_iff_lt_mul (by decide)]
          have : 10 ^ k = 10 ^ (k - 1) * 10 := by
            rw [← Nat.pow_succ]
            congr 1
            omega
          omega
        have := hlen (k - 1) (by omega) this
        rw [List.length_append, List.length_singleton]
        omega

/-- The decimal digits of a number: not empty, decimal digits, and they read back as the
number. -/
theorem toDigits_spec (n : Nat) :
    Nat.toDigits 10 n ≠ [] ∧ (∀ c ∈ Nat.toDigits 10 n, isDigit c = true) ∧
      (Nat.toDigits 10 n).foldl (fun m c => m * 10 + digitVal c) 0 = n ∧
      ∀ k, 0 < k → n < 10 ^ k → (Nat.toDigits 10 n).length ≤ k := by
  obtain ⟨pre, e, hne, hdig, hval, hlen⟩ := toDigitsCore_spec (n + 1) n [] (by omega)
  rw [List.append_nil] at e
  unfold Nat.toDigits
  rw [e]
  exact ⟨hne, hdig, hval, hlen⟩

/-- The padded digits of a number below `10 ^ width`: exactly `width` decimal digits that
read back as the number. -/
theorem padDigits_spec (width n : Nat) (hw : 0 < width) (hn : n < 10 ^ width) :
    (padDigits width n).length = width ∧ (∀ c ∈ padDigits width n, isDigit c = true) ∧
      (padDigits width n).foldl (fun m c => m * 10 + digitVal c) 0 = n := by
  obtain ⟨-, hdig, hval, hlen⟩ := toDigits_spec n
  have hl := hlen width hw hn
  unfold padDigits
  refine ⟨?_, ?_, ?_⟩
  · simp only [List.length_append, List.length_replicate]
    omega
  · intro c hc
    rcases List.mem_append.mp hc with hc | hc
    · rw [List.eq_of_mem_replicate hc]
      decide
    · exact hdig c hc
  · simp only [List.foldl_append]
    rw [foldl_zeros, Nat.zero_mul, hval]

/-- The text `FormatFloat` writes for a finite number with six decimals: a minus sign
for a negative number, the digits of the integer part, a dot and six digits. -/
theorem FormatFloat_fin (q : ℚ) :
    FormatFloat (F64.fin q) 6 =
      ⟨(if decide (q < 0) = true then ['-'] else []) ++
        (Nat.toDigits 10 (roundHalfEven (|q| * 10 ^ 6) / 10 ^ 6) ++
          (if true = true then
            '.' :: padDigits 6 (roundHalfEven (|q| * 10 ^ 6) % 10 ^ 6) else []))⟩ := by
  unfold FormatFloat
  by_cases h : q < 0 <;> simp [h, List.append_assoc]

/-- The digits that `FormatFloat` writes read back as the rounded number. -/
theorem format_digits_value (n : Nat) :
    (Nat.toDigits 10 (n / 10 ^ 6) ++ padDigits 6 (n % 10 ^ 6)).foldl
      (fun m c => m * 10 + digitVal c) 0 = n := by
  obtain ⟨-, -, hv1, -⟩ := toDigits_spec (n / 10 ^ 6)
  obtain ⟨hl, -, hv2⟩ := padDigits_spec 6 (n % 10 ^ 6) (by decide) (Nat.mod_lt _ (by decide))
  rw [List.foldl_append, hv1, foldl_digits_shift, hl, hv2]
  exact Nat.div_add_mod' n (10 ^ 6)

/-- What `ParseFloat` reads from the text `FormatFloat` wrote for a finite number. -/
theorem ParseFloat_FormatFloat (q : ℚ) :
    ParseFloat (FormatFloat (F64.fin q) 6) =
      if overflowThreshold ≤ ((roundHalfEven (|q| * 10 ^ 6) : Nat) : ℚ) / 10 ^ 6 then
        (F64.inf (decide (q < 0)), some NumError.ErrRange)
      else
        (F64.fin (if q < 0 then -(((roundHalfEven (|q| * 10 ^ 6) : Nat) : ℚ) / 10 ^ 6)
          else ((roundHalfEven (|q| * 10 ^ 6) : Nat) : ℚ) / 10 ^ 6), none) := by
  obtain ⟨hne, hd1, -, -⟩ := toDigits_spec (roundHalfEven (|q| * 10 ^ 6) / 10 ^ 6)
  obtain ⟨hl, hd2, -⟩ := padDigits_spec 6 (roundHalfEven (|q| * 10 ^ 6) % 10 ^ 6) (by decide)
    (Nat.mod_lt _ (by decide))
  rw [FormatFloat_fin, ParseFloat_numeral (decide (q < 0)) true _ _ hd1 hd2 (by simp)
    (fun hc => hne (List.append_eq_nil.mp hc).1), format_digits_value, hl]
  simp only [decide_eq_true_eq]

/-- The rounding function on a finite number: the number of millionths nearest to it,
or an infinity when that is out of the range of a `float64`. -/
theorem round_fin (q : ℚ) :
    round (F64.fin q) =
      if overflowThreshold ≤ ((roundHalfEven (|q| * 10 ^ 6) : Nat) : ℚ) / 10 ^ 6 then
        F64.inf (decide (q < 0))
      else
        F64.fin (if q < 0 then -(((roundHalfEven (|q| * 10 ^ 6) : Nat) : ℚ) / 10 ^ 6)
          else ((roundHalfEven (|q| * 10 ^ 6) : Nat) : ℚ) / 10 ^ 6) := by
  unfold round
  rw [ParseFloat_FormatFloat]
  split_ifs <;> rfl

set_option exponentiation.threshold 2048 in
/-- The largest `float64` lies below the overflow threshold. -/
theorem MaxFloat64_lt : MaxFloat64 < overflowThreshold := by
  unfold MaxFloat64 overflowThreshold
  norm_num

set_option exponentiation.threshold 2048 in
/-- The largest `float64` lies above `10 ^ 300`. -/
theorem MaxFloat64_gt : (10 : ℚ) ^ 300 < MaxFloat64 := by
  unfold MaxFloat64
  norm_num

set_option exponentiation.threshold 2048 in
/-- A number in the range of a `float64` does not overflow when it is rounded to
millionths. -/
theorem round_in_range (q : ℚ) (hq : |q| ≤ MaxFloat64) :
    ¬ overflowThreshold ≤ ((roundHalfEven (|q| * 10 ^ 6) : Nat) : ℚ) / 10 ^ 6 := by
  have hle : roundHalfEven (|q| * 10 ^ 6) ≤ (2 ^ 1024 - 2 ^ 971) * 10 ^ 6 := by
    apply roundHalfEven_le _ (by positivity)
    have : |q| * 10 ^ 6 ≤ MaxFloat64 * 10 ^ 6 := by
      apply mul_le_mul_of_nonneg_right hq (by positivity)
    refine le_trans this (le_of_eq ?_)
    unfold MaxFloat64
    norm_num
  have hle' : ((roundHalfEven (|q| * 10 ^ 6) : Nat) : ℚ) ≤ MaxFloat64 * 10 ^ 6 := by
    have : ((roundHalfEven (|q| * 10 ^ 6) : Nat) : ℚ) ≤
        (((2 ^ 1024 - 2 ^ 971) * 10 ^ 6 : Nat) : ℚ) := by exact_mod_cast hle
    refine le_trans this (le_of_eq ?_)
    unfold MaxFloat64
    norm_num
  intro hc
  have h1 : ((roundHalfEven (|q| * 10 ^ 6) : Nat) : ℚ) / 10 ^ 6 ≤ MaxFloat64 := by
    rw [div_le_iff₀ (by positivity)]
    exact hle'
  exact absurd (lt_of_le_of_lt (le_trans hc h1) MaxFloat64_lt) (lt_irrefl _)

/-- The rounding function leaves the infinities and NaN as they are. -/
theorem round_special :
    round F64.nan = F64.nan ∧ round (F64.inf false) = F64.inf false ∧
      round (F64.inf true) = F64.inf true := by
  refine ⟨?_, ?_, ?_⟩ <;> rfl

/-- The rounding function on a finite number in the range of a `float64`. -/
theorem round_fin_in_range (q : ℚ) (hq : |q| ≤ MaxFloat64) :
    round (F64.fin q) =
      F64.fin (if q < 0 then -(((roundHalfEven (|q| * 10 ^ 6) : Nat) : ℚ) / 10 ^ 6)
        else ((roundHalfEven (|q| * 10 ^ 6) : Nat) : ℚ) / 10 ^ 6) := by
  rw [round_fin, if_neg (round_in_range q hq)]

set_option maxRecDepth 100000 in
/-- The HTML escaper leaves decimal digits, the dot and the minus sign as they are. -/
theorem ascii_plain : ∀ c ∈ (List.range 128).map Char.ofNat,
    (isDigit c = true ∨ c = '.' ∨ c = '-') → htmlReplacement c = [c] := by
  decide

/-- The HTML escaper leaves a text of digits, dots and minus signs as it is. -/
theorem htmlEscaper_plain (cs : List Char) (h : ∀ c ∈ cs, isDigit c = true ∨ c = '.' ∨ c = '-') :
    htmlEscaper ⟨cs⟩ = ⟨cs⟩ := by
  unfold htmlEscaper
  congr 1
  show (cs.map htmlReplacement).flatten = cs
  induction cs with
  | nil => rfl
  | cons c cs ih =>
    have hc := h c (List.mem_cons_self _ _)
    have hlt : c.toNat < 128 := by
      rcases hc with hc | rfl | rfl
      · exact isDigit_lt c hc
      · decide
      · decide
    rw [List.map_cons, List.flatten_cons, ascii_plain c (ascii_mem c hlt) hc,
      ih (fun x hx => h x (List.mem_cons_of_mem _ hx))]
    rfl

/-- The text for a finite number, as it appears on the page: an optional minus sign,
at least one digit, a dot and exactly six digits. -/
theorem FormatFloat_shape (q : ℚ) :
    ∃ (neg : Bool) (ip fp : List Char), ip ≠ [] ∧ (∀ c ∈ ip, isDigit c = true) ∧
      (∀ c ∈ fp, isDigit c = true) ∧ fp.length = 6 ∧
      FormatFloat (F64.fin q) 6 = ⟨(if neg = true then ['-'] else []) ++ ip ++ '.' :: fp⟩ ∧
      htmlEscaper (FormatFloat (F64.fin q) 6) =
        ⟨(if neg = true then ['-'] else []) ++ ip ++ '.' :: fp⟩ := by
  obtain ⟨hne, hd1, -, -⟩ := toDigits_spec (roundHalfEven (|q| * 10 ^ 6) / 10 ^ 6)
  obtain ⟨hl, hd2, -⟩ := padDigits_spec 6 (roundHalfEven (|q| * 10 ^ 6) % 10 ^ 6) (by decide)
    (Nat.mod_lt _ (by decide))
  have hfmt : FormatFloat (F64.fin q) 6 =
      ⟨(if decide (q < 0) = true then ['-'] else []) ++
        Nat.toDigits 10 (roundHalfEven (|q| * 10 ^ 6) / 10 ^ 6) ++
          '.' :: padDigits 6 (roundHalfEven (|q| * 10 ^ 6) % 10 ^ 6)⟩ := by
    rw [FormatFloat_fin]
    simp only [if_true, List.append_assoc]
  refine ⟨decide (q < 0), _, _, hne, hd1, hd2, hl, hfmt, ?_⟩
  rw [hfmt]
  apply htmlEscaper_plain
  intro c hc
  simp only [List.mem_append, List.mem_cons] at hc
  rcases hc with (hc | hc) | rfl | hc
  · split_ifs at hc
    · rw [List.mem_singleton] at hc
      exact Or.inr (Or.inr hc)
    · simp at hc
  · exact Or.inl (hd1 c hc)
  · exact Or.inr (Or.inl rfl)
  · exact Or.inl (hd2 c hc)

/-- The text for a non-negative number that is a whole count of millionths. -/
theorem FormatFloat_millionths (q : ℚ) (n : Nat) (hq : 0 ≤ q) (h : q * 10 ^ 6 = n) :
    FormatFloat (F64.fin q) 6 =
      ⟨Nat.toDigits 10 (n / 10 ^ 6) ++ '.' :: padDigits 6 (n % 10 ^ 6)⟩ := by
  rw [FormatFloat_fin, abs_of_nonneg hq, h, roundHalfEven_natCast]
  simp [not_lt.mpr hq]

/-- Rounding leaves a non-negative whole count of millionths in range as it is. -/
theorem round_millionths (q : ℚ) (n : Nat) (hq : 0 ≤ q) (h : q * 10 ^ 6 = n)
    (hr : q ≤ MaxFloat64) : round (F64.fin q) = F64.fin q := by
  have hqn : (n : ℚ) / 10 ^ 6 = q := by
    clear hr
    rw [← h]
    field_simp
  rw [round_fin_in_range q (by rw [abs_of_nonneg hq]; exact hr), abs_of_nonneg hq, h,
    roundHalfEven_natCast, if_neg (not_lt.mpr hq), hqn]

/-- Rounding a non-negative number in range that lies within half a millionth of a whole
count of millionths gives that count of millionths. -/
theorem round_near (q : ℚ) (n : Nat) (hq : 0 ≤ q) (h1 : (n : ℚ) - 1 / 2 < q * 10 ^ 6)
    (h2 : q * 10 ^ 6 < n + 1 / 2) (hr : q ≤ MaxFloat64) :
    round (F64.fin q) = F64.fin (n / 10 ^ 6) := by
  have hn : roundHalfEven (q * 10 ^ 6) = n := by
    clear hr
    exact F64.roundHalfEven_eq _ n (by positivity) h1 h2
  rw [round_fin_in_range q (by rw [abs_of_nonneg hq]; exact hr), abs_of_nonneg hq, hn,
    if_neg (not_lt.mpr hq)]

/-- What `parseValue` returns on a field that holds a run of digits. -/
theorem parseValue_digits (r : Request) (name : String) (ip : List Char)
    (hv : r.FormValue name = ⟨ip⟩) (hip : ∀ c ∈ ip, isDigit c = true) (hne : ip ≠ [])
    (hlt : ((ip.foldl (fun n c => n * 10 + digitVal c) 0 : Nat) : ℚ) < overflowThreshold) :
    parseValue r name = (F64.fin ((ip.foldl (fun n c => n * 10 + digitVal c) 0 : Nat) : ℚ), "") := by
  have hpf := ParseFloat_numeral false false ip [] hip (by simp) (fun _ => rfl)
    (by simpa using hne)
  simp only [Bool.false_eq_true, if_false, List.nil_append, List.append_nil, List.length_nil,
    pow_zero, div_one] at hpf
  rw [if_neg (not_le.mpr hlt)] at hpf
  rw [parseValue_of_clean r name ip hv hne, hpf]
  · simp
  · intro c hc
    have := isDigit_facts c (hip c hc)
    exact ⟨this.2.2.2.2.1, this.2.2.1⟩

/-- A small number is in the range of a `float64`. -/
theorem small_in_range (q : ℚ) (h : q < 10 ^ 300) : q < overflowThreshold ∧ q ≤ MaxFloat64 :=
  ⟨lt_trans h overflowThreshold_gt, le_of_lt (lt_trans h MaxFloat64_gt)⟩

/-- The view of a successful length conversion. -/
theorem lengthHandler_success (r : Request) (hpost : r.Method = "POST") (x : F64) (src dst : String)
    (out : F64) (hval : parseValue r "value" = (x, ""))
    (hsrc : selectedOrDefault r "from" "meter" = src)
    (hdst : selectedOrDefault r "to" "kilometer" = dst)
    (hconv : convertLength x src dst = (out, "")) :
    lengthHandler r = ⟨lengthUnits, r.FormValue "value", src, dst, round out, true, "",
      "length"⟩ := by
  rw [lengthHandler_eq, if_pos hpost, hval, hsrc, hdst, hconv]
  simp

/-- The view of a successful weight conversion. -/
theorem weightHandler_success (r : Request) (hpost : r.Method = "POST") (x : F64) (src dst : String)
    (out : F64) (hval : parseValue r "value" = (x, ""))
    (hsrc : selectedOrDefault r "from" "gram" = src)
    (hdst : selectedOrDefault r "to" "kilogram" = dst)
    (hconv : convertWeight x src dst = (out, "")) :
    weightHandler r = ⟨weightUnits, r.FormValue "value", src, dst, round out, true, "",
      "weight"⟩ := by
  rw [weightHandler_eq, if_pos hpost, hval, hsrc, hdst, hconv]
  simp

/-- The view of a successful temperature conversion. -/
theorem tempHandler_success (r : Request) (hpost : r.Method = "POST") (x : F64) (src dst : String)
    (out : F64) (hval : parseValue r "value" = (x, ""))
    (hsrc : selectedOrDefault r "from" "Celsius" = src)
    (hdst : selectedOrDefault r "to" "Fahrenheit" = dst)
    (hconv : convertTemp x src dst = (out, "")) :
    tempHandler r = ⟨tempUnits, r.FormValue "value", src, dst, round out, true, "",
      "temperature"⟩ := by
  rw [tempHandler_eq, if_pos hpost, hval, hsrc, hdst, hconv]
  simp

/-- The first end-to-end example, 100 meter in kilometer: the value parses, the units
are supported, the conversion gives the `float64` nearest to 0.1, and the view carries
that number rounded to six decimals, 0.1. -/
theorem length_example_view :
    parseValue ⟨"POST", [("value", "100"), ("from", "meter"), ("to", "kilometer")]⟩ "value" =
        (F64.fin 100, "") ∧
      convertLength (F64.fin 100) "meter" "kilometer" =
        (F64.fin (3602879701896397 / 2 ^ 55), "") ∧
      lengthHandler ⟨"POST", [("value", "100"), ("from", "meter"), ("to", "kilometer")]⟩ =
        ⟨lengthUnits, "100", "meter", "kilometer", F64.fin (1 / 10), true, "", "length"⟩ := by
  have hval : parseValue ⟨"POST", [("value", "100"), ("from", "meter"), ("to", "kilometer")]⟩
      "value" = (F64.fin 100, "") := by
    have hd : ['1', '0', '0'].foldl (fun n c => n * 10 + digitVal c) 0 = 100 := by decide
    have h := parseValue_digits ⟨"POST", [("value", "100"), ("from", "meter"),
      ("to", "kilometer")]⟩ "value" ['1', '0', '0'] (by decide) (by decide) (by simp)
      (small_in_range _ (by rw [hd]; norm_num)).1
    rw [hd] at h
    simpa using h
  have hround : round (F64.fin (3602879701896397 / 2 ^ 55)) = F64.fin (1 / 10) := by
    rw [round_near (3602879701896397 / 2 ^ 55) 100000 (by norm_num) (by norm_num) (by norm_num)
      (small_in_range _ (by norm_num)).2]
    norm_num
  refine ⟨hval, hundred_meter_in_kilometer, ?_⟩
  rw [lengthHandler_success _ rfl (F64.fin 100) "meter" "kilometer"
    (F64.fin (3602879701896397 / 2 ^ 55)) hval (by decide) (by decide)
    hundred_meter_in_kilometer, hround]
  rfl

/-- The page of the first end-to-end example: 100 meter in kilometer. -/
theorem result_length_example :
    resultHTML (lengthHandler
        ⟨"POST", [("value", "100"), ("from", "meter"), ("to", "kilometer")]⟩) =
      "\n        <div class=\"result\"><strong>Result:</strong> 0.100000</div>\n      " := by
  rw [length_example_view.2.2]
  unfold resultHTML
  rw [if_pos rfl, FormatFloat_millionths (1 / 10) 100000 (by norm_num) (by norm_num)]
  decide

/-- The page of the second end-to-end example: 2500 gram in kilogram. -/
theorem result_weight_example :
    resultHTML (weightHandler
        ⟨"POST", [("value", "2500"), ("from", "gram"), ("to", "kilogram")]⟩) =
      "\n        <div class=\"result\"><strong>Result:</strong> 2.500000</div>\n      " := by
  have hval : parseValue ⟨"POST", [("value", "2500"), ("from", "gram"), ("to", "kilogram")]⟩
      "value" = (F64.fin 2500, "") := by
    have hd : ['2', '5', '0', '0'].foldl (fun n c => n * 10 + digitVal c) 0 = 2500 := by decide
    have h := parseValue_digits ⟨"POST", [("value", "2500"), ("from", "gram"),
      ("to", "kilogram")]⟩ "value" ['2', '5', '0', '0'] (by decide) (by decide) (by simp)
      (small_in_range _ (by rw [hd]; norm_num)).1
    rw [hd] at h
    simpa using h
  have hconv : convertWeight (F64.fin 2500) "gram" "kilogram" = (F64.fin (5 / 2), "") :=
    gram_2500_in_kilogram
  have hround : round (F64.fin (5 / 2)) = F64.fin (5 / 2) :=
    round_millionths (5 / 2) 2500000 (by norm_num) (by norm_num)
      (small_in_range _ (by norm_num)).2
  rw [weightHandler_success _ rfl (F64.fin 2500) "gram" "kilogram" (F64.fin (5 / 2)) hval
    (by decide) (by decide) hconv, hround]
  unfold resultHTML
  rw [if_pos rfl, FormatFloat_millionths (5 / 2) 2500000 (by norm_num) (by norm_num)]
  decide

/-- The page of the third end-to-end example: 37 Celsius in Fahrenheit. -/
theorem result_temp_example :
    resultHTML (tempHandler
        ⟨"POST", [("value", "37"), ("from", "Celsius"), ("to", "Fahrenheit")]⟩) =
      "\n        <div class=\"result\"><strong>Result:</strong> 98.600000</div>\n      " := by
  have hval : parseValue ⟨"POST", [("value", "37"), ("from", "Celsius"), ("to", "Fahrenheit")]⟩
      "value" = (F64.fin 37, "") := by
    have hd : ['3', '7'].foldl (fun n c => n * 10 + digitVal c) 0 = 37 := by decide
    have h := parseValue_digits ⟨"POST", [("value", "37"), ("from", "Celsius"),
      ("to", "Fahrenheit")]⟩ "value" ['3', '7'] (by decide) (by decide) (by simp)
      (small_in_range _ (by rw [hd]; norm_num)).1
    rw [hd] at h
    simpa using h
  have hround : round (F64.fin (3469179087958835 / 2 ^ 45)) = F64.fin (493 / 5) := by
    rw [round_near (3469179087958835 / 2 ^ 45) 98600000 (by norm_num) (by norm_num)
      (by norm_num) (small_in_range _ (by norm_num)).2]
    norm_num
  rw [tempHandler_success _ rfl (F64.fin 37) "Celsius" "Fahrenheit"
    (F64.fin (3469179087958835 / 2 ^ 45)) hval (by decide) (by decide)
    celsius_37_in_fahrenheit, hround]
  unfold resultHTML
  rw [if_pos rfl, FormatFloat_millionths (493 / 5) 98600000 (by norm_num) (by norm_num)]
  decide

/-- The page for the value "NaN", which `strconv.ParseFloat` accepts. -/
theorem result_nan_example :
    (parseValue ⟨"POST", [("value", "NaN")]⟩ "value").2 = "" ∧
      (convertLength (parseValue ⟨"POST", [("value", "NaN")]⟩ "value").1
        (selectedOrDefault ⟨"POST", [("value", "NaN")]⟩ "from" "meter")
        (selectedOrDefault ⟨"POST", [("value", "NaN")]⟩ "to" "kilometer")).2 = "" ∧
      resultHTML (lengthHandler ⟨"POST", [("value", "NaN")]⟩) =
        "\n        <div class=\"result\"><strong>Result:</strong> NaN</div>\n      " := by
  have hval : parseValue ⟨"POST", [("value", "NaN")]⟩ "value" = (F64.nan, "") := by
    have h1 : Request.FormValue ⟨"POST", [("value", "NaN")]⟩ "value" = "NaN" := by decide
    have h2 : TrimSpace "NaN" = "NaN" := by decide
    have h3 : removeCommas "NaN" = "NaN" := by decide
    have h4 : ParseFloat "NaN" = (F64.nan, none) := rfl
    rw [parseValue_eq, h1, h2, h3, h4]
    simp
  have hsrc : selectedOrDefault ⟨"POST", [("value", "NaN")]⟩ "from" "meter" = "meter" := by
    decide
  have hdst : selectedOrDefault ⟨"POST", [("value", "NaN")]⟩ "to" "kilometer" = "kilometer" := by
    decide
  have hconv : convertLength F64.nan "meter" "kilometer" = (F64.nan, "") := by
    simp [convertLength, mapIndex, lengthToMeters, List.lookup, F64.mul, F64.div]
  refine ⟨by rw [hval], by rw [hval, hsrc, hdst, hconv], ?_⟩
  rw [lengthHandler_success _ rfl F64.nan "meter" "kilometer" F64.nan hval hsrc hdst hconv,
    round_special.1]
  decide

/-- What the result block shows, by the kind of the result. -/
theorem resultHTML_spec (data : viewData) (h : data.HasResult = true) :
    resultHTML data =
      "\n        <div class=\"result\"><strong>Result:</strong> " ++
        htmlEscaper (FormatFloat data.Result 6) ++ "</div>\n      " ∧
    (∀ d : ℚ, data.Result = F64.fin d →
      ∃ (neg : Bool) (ip fp : List Char), ip ≠ [] ∧ (∀ c ∈ ip, isDigit c = true) ∧
        (∀ c ∈ fp, isDigit c = true) ∧ fp.length = 6 ∧
        htmlEscaper (FormatFloat data.Result 6) =
          ⟨(if neg = true then ['-'] else []) ++ ip ++ '.' :: fp⟩) ∧
    (data.Result = F64.nan → htmlEscaper (FormatFloat data.Result 6) = "NaN") ∧
    (data.Result = F64.inf false → htmlEscaper (FormatFloat data.Result 6) = "&#43;Inf") ∧
    (data.Result = F64.inf true → htmlEscaper (FormatFloat data.Result 6) = "-Inf") := by
  refine ⟨?_, ?_, ?_, ?_, ?_⟩
  · unfold resultHTML
    rw [if_pos h]
  · intro d hd
    rw [hd]
    obtain ⟨neg, ip, fp, h1, h2, h3, h4, -, h6⟩ := FormatFloat_shape d
    exact ⟨neg, ip, fp, h1, h2, h3, h4, h6⟩
  · intro hd
    rw [hd]
    decide
  · intro hd
    rw [hd]
    decide
  · intro hd
    rw [hd]
    decide

/-! ### C11 -/

/-- C11: for each handler and every request, the resolved From unit is the submitted
`from` field when that field is present and not empty, and the category's default
otherwise, and likewise To with the `to` field; the defaults are meter and kilometer for
length, gram and kilogram for weight, Celsius and Fahrenheit for temperature.  A POST that
carries no `from` and no `to` field and whose value parses is converted with the default
pair and succeeds. -/
theorem handlers_resolve_units (r : Request) (handler : Request → viewData)
    (convert : F64 → String → String → F64 × String) (defFrom defTo : String)
    (hcat : (handler, convert, defFrom, defTo) ∈
      [(lengthHandler, convertLength, "meter", "kilometer"),
       (weightHandler, convertWeight, "gram", "kilogram"),
       (tempHandler, convertTemp, "Celsius", "Fahrenheit")]) :
    (∀ v, r.Form.lookup "from" = some v → v ≠ "" → (handler r).From = v) ∧
    (r.Form.lookup "from" = none ∨ r.Form.lookup "from" = some "" →
      (handler r).From = defFrom) ∧
    (∀ v, r.Form.lookup "to" = some v → v ≠ "" → (handler r).To = v) ∧
    (r.Form.lookup "to" = none ∨ r.Form.lookup "to" = some "" → (handler r).To = defTo) ∧
    (r.Method = "POST" → r.Form.lookup "from" = none → r.Form.lookup "to" = none →
      (parseValue r "value").2 = "" →
      (convert (parseValue r "value").1 defFrom defTo).2 = "" ∧
      (handler r).From = defFrom ∧ (handler r).To = defTo ∧
      (handler r).Error = "" ∧ (handler r).HasResult = true ∧
      (handler r).Result = round (convert (parseValue r "value").1 defFrom defTo).1) := by
  have hsel : (handler r).From = selectedOrDefault r "from" defFrom ∧
      (handler r).To = selectedOrDefault r "to" defTo := by
    simp only [List.mem_cons, List.mem_singleton, List.not_mem_nil, or_false,
      Prod.mk.injEq] at hcat
    rcases hcat with ⟨rfl, rfl, rfl, rfl⟩ | ⟨rfl, rfl, rfl, rfl⟩ | ⟨rfl, rfl, rfl, rfl⟩
    · exact ⟨(lengthHandler_echo r).2.2.1, (lengthHandler_echo r).2.2.2.1⟩
    · exact ⟨(weightHandler_echo r).2.2.1, (weightHandler_echo r).2.2.2.1⟩
    · exact ⟨(tempHandler_echo r).2.2.1, (tempHandler_echo r).2.2.2.1⟩
  refine ⟨?_, ?_, ?_, ?_, ?_⟩
  · intro v h hv
    rw [hsel.1, selectedOrDefault_of_some r _ _ v h hv]
  · intro h
    rw [hsel.1, selectedOrDefault_of_none r _ _ h]
  · intro v h hv
    rw [hsel.2, selectedOrDefault_of_some r _ _ v h hv]
  · intro h
    rw [hsel.2, selectedOrDefault_of_none r _ _ h]
  · intro hpost hfrom hto hval
    have e1 := selectedOrDefault_of_none r "from" defFrom (Or.inl hfrom)
    have e2 := selectedOrDefault_of_none r "to" defTo (Or.inl hto)
    have hok := convert_default_ok (parseValue r "value").1
    simp only [List.mem_cons, List.mem_singleton, List.not_mem_nil, or_false,
      Prod.mk.injEq] at hcat
    rcases hcat with ⟨rfl, rfl, rfl, rfl⟩ | ⟨rfl, rfl, rfl, rfl⟩ | ⟨rfl, rfl, rfl, rfl⟩
    · rw [lengthHandler_eq, if_pos hpost, e1, e2]
      simp [hval, hok.1]
    · rw [weightHandler_eq, if_pos hpost, e1, e2]
      simp [hval, hok.2.1]
    · rw [tempHandler_eq, if_pos hpost, e1, e2]
      simp [hval, hok.2.2]

/-- C11 at a concrete input: a request that submits only a target unit keeps the default
source unit. -/
theorem handlers_resolve_units_witness :
    (weightHandler ⟨"GET", [("to", "pound")]⟩).From = "gram" ∧
      (weightHandler ⟨"GET", [("to", "pound")]⟩).To = "pound" :=
  ⟨(handlers_resolve_units ⟨"GET", [("to", "pound")]⟩ weightHandler convertWeight "gram"
      "kilogram" (by simp)).2.1 (Or.inl (by decide)),
    (handlers_resolve_units ⟨"GET", [("to", "pound")]⟩ weightHandler convertWeight "gram"
      "kilogram" (by simp)).2.2.1 "pound" (by decide) (by decide)⟩

/-! ### C12 -/

/-- C12: a name is in `lengthUnits` exactly when it is a key of `lengthToMeters`, a name
is in `weightUnits` exactly when it is a key of `weightToKg`, and every factor of both
tables is a positive number; hence for a source and a target taken from the category's
unit list the converter reports no error and the factor it divides by is positive, and
`convertTemp` reports no error on units of `tempUnits`. -/
theorem unit_lists_match_tables :
    (∀ a : String, a ∈ lengthUnits ↔ (mapIndex lengthToMeters a).2 = true) ∧
    (∀ a : String, a ∈ weightUnits ↔ (mapIndex weightToKg a).2 = true) ∧
    (∀ p ∈ lengthToMeters, ∃ q : ℚ, 0 < q ∧ p.2 = F64.fin q) ∧
    (∀ p ∈ weightToKg, ∃ q : ℚ, 0 < q ∧ p.2 = F64.fin q) ∧
    (∀ (v : F64) (a b : String), a ∈ lengthUnits → b ∈ lengthUnits →
      (convertLength v a b).2 = "" ∧
        ∃ q : ℚ, 0 < q ∧ (mapIndex lengthToMeters b).1 = F64.fin q) ∧
    (∀ (v : F64) (a b : String), a ∈ weightUnits → b ∈ weightUnits →
      (convertWeight v a b).2 = "" ∧
        ∃ q : ℚ, 0 < q ∧ (mapIndex weightToKg b).1 = F64.fin q) ∧
    (∀ (v : F64) (a b : String), a ∈ tempUnits → b ∈ tempUnits →
      (convertTemp v a b).2 = "") := by
  refine ⟨?_, ?_, lengthToMeters_pos, weightToKg_pos, ?_, ?_, ?_⟩
  · intro a
    rw [mapIndex_ok_iff, lengthToMeters_keys]
    rfl
  · intro a
    rw [mapIndex_ok_iff, weightToKg_keys]
    rfl
  · intro v a b ha hb
    obtain ⟨p, q, -, hq, -, eb, e⟩ := convertLength_of_units v a b ha hb
    rw [e, eb]
    exact ⟨rfl, q, hq, rfl⟩
  · intro v a b ha hb
    obtain ⟨p, q, -, hq, -, eb, e⟩ := convertWeight_of_units v a b ha hb
    rw [e, eb]
    exact ⟨rfl, q, hq, rfl⟩
  · intro v a b ha hb
    rw [convertTemp_of_mem v a b ha hb]

/-- C12 at a concrete input: yard to mile does not fail and divides by a positive
factor. -/
theorem unit_lists_match_tables_witness :
    (convertLength 3 "yard" "mile").2 = "" ∧
      ∃ q : ℚ, 0 < q ∧ (mapIndex lengthToMeters "mile").1 = F64.fin q :=
  unit_lists_match_tables.2.2.2.2.1 3 "yard" "mile" (by decide) (by decide)

/-! ### C13 -/

set_option maxRecDepth 100000 in
/-- C14, as stated, fails.  The value "NaN" parses and the default units are supported,
yet the result block of the page is `<strong>Result:</strong> NaN`, without a decimal
point or a digit; and for 100 meter in kilometer the block is
`<strong>Result:</strong> 0.100000`, so that the text "Result: " with a space after the
colon does not occur in it. -/
theorem result_page_not_as_stated :
    ((parseValue ⟨"POST", [("value", "NaN")]⟩ "value").2 = "" ∧
      (convertLength (parseValue ⟨"POST", [("value", "NaN")]⟩ "value").1
        (selectedOrDefault ⟨"POST", [("value", "NaN")]⟩ "from" "meter")
        (selectedOrDefault ⟨"POST", [("value", "NaN")]⟩ "to" "kilometer")).2 = "" ∧
      resultHTML (lengthHandler ⟨"POST", [("value", "NaN")]⟩) =
        "\n        <div class=\"result\"><strong>Result:</strong> NaN</div>\n      " ∧
      '.' ∉ (resultHTML (lengthHandler ⟨"POST", [("value", "NaN")]⟩)).data) ∧
    (resultHTML (lengthHandler
        ⟨"POST", [("value", "100"), ("from", "meter"), ("to", "kilometer")]⟩) =
        "\n        <div class=\"result\"><strong>Result:</strong> 0.100000</div>\n      " ∧
      ¬ ("Result: ".data <:+: (resultHTML (lengthHandler
        ⟨"POST", [("value", "100"), ("from", "meter"), ("to", "kilometer")]⟩)).data)) := by
  refine ⟨⟨result_nan_example.1, result_nan_example.2.1, result_nan_example.2.2, ?_⟩,
    result_length_example, ?_⟩
  · rw [result_nan_example.2.2]
    decide
  · rw [result_length_example]
    decide

/-- C14, amended: for each handler and every POST request whose value parses and whose
resolved units are supported, the view has a result and the page contains the block
`<div class="result"><strong>Result:</strong> ` followed by the HTML-escaped text of the
result formatted with six fractional digits and by `</div>`.  When the converted value is
a finite number in the range of a `float64` the result is finite, and for a finite result
that text is an optional minus sign, at least one digit, a dot and exactly six digits;
for NaN it is `NaN`, for the infinities `&#43;Inf` and `-Inf`.  The three end-to-end
examples give `<strong>Result:</strong> 0.100000`, `2.500000` and `98.600000`. -/
theorem result_page :
    (∀ (r : Request) (handler : Request → viewData)
      (convert : F64 → String → String → F64 × String) (defFrom defTo : String),
      (handler, convert, defFrom, defTo) ∈
        [(lengthHandler, convertLength, "meter", "kilometer"),
         (weightHandler, convertWeight, "gram", "kilogram"),
         (tempHandler, convertTemp, "Celsius", "Fahrenheit")] →
      r.Method = "POST" → (parseValue r "value").2 = "" →
      (convert (parseValue r "value").1 (selectedOrDefault r "from" defFrom)
        (selectedOrDefault r "to" defTo)).2 = "" →
      (handler r).HasResult = true ∧
      resultHTML (handler r) =
        "\n        <div class=\"result\"><strong>Result:</strong> " ++
          htmlEscaper (FormatFloat (handler r).Result 6) ++ "</div>\n      " ∧
      (∀ x : ℚ, (convert (parseValue r "value").1 (selectedOrDefault r "from" defFrom)
          (selectedOrDefault r "to" defTo)).1 = F64.fin x → |x| ≤ MaxFloat64 →
        ∃ d : ℚ, (handler r).Result = F64.fin d) ∧
      (∀ d : ℚ, (handler r).Result = F64.fin d →
        ∃ (neg : Bool) (ip fp : List Char), ip ≠ [] ∧ (∀ c ∈ ip, isDigit c = true) ∧
          (∀ c ∈ fp, isDigit c = true) ∧ fp.length = 6 ∧
          htmlEscaper (FormatFloat (handler r).Result 6) =
            ⟨(if neg = true then ['-'] else []) ++ ip ++ '.' :: fp⟩) ∧
      ((handler r).Result = F64.nan →
        htmlEscaper (FormatFloat (handler r).Result 6) = "NaN") ∧
      ((handler r).Result = F64.inf false →
        htmlEscaper (FormatFloat (handler r).Result 6) = "&#43;Inf") ∧
      ((handler r).Result = F64.inf true →
        htmlEscaper (FormatFloat (handler r).Result 6) = "-Inf")) ∧
    resultHTML (lengthHandler
        ⟨"POST", [("value", "100"), ("from", "meter"), ("to", "kilometer")]⟩) =
      "\n        <div class=\"result\"><strong>Result:</strong> 0.100000</div>\n      " ∧
    resultHTML (weightHandler
        ⟨"POST", [("value", "2500"), ("from", "gram"), ("to", "kilogram")]⟩) =
      "\n        <div class=\"result\"><strong>Result:</strong> 2.500000</div>\n      " ∧
    resultHTML (tempHandler
        ⟨"POST", [("value", "37"), ("from", "Celsius"), ("to", "Fahrenheit")]⟩) =
      "\n        <div class=\"result\"><strong>Result:</strong> 98.600000</div>\n      " := by
  refine ⟨?_, result_length_example, result_weight_example, result_temp_example⟩
  intro r handler convert defFrom defTo hcat hpost hparse hconv
  have hres : (handler r).HasResult = true ∧
      (handler r).Result = round (convert (parseValue r "value").1
        (selectedOrDefault r "from" defFrom) (selectedOrDefault r "to" defTo)).1 := by
    simp only [List.mem_cons, List.mem_singleton, List.not_mem_nil, or_false,
      Prod.mk.injEq] at hcat
    rcases hcat with ⟨rfl, rfl, rfl, rfl⟩ | ⟨rfl, rfl, rfl, rfl⟩ | ⟨rfl, rfl, rfl, rfl⟩
    · rw [lengthHandler_eq, if_pos hpost]
      simp [hparse, hconv]
    · rw [weightHandler_eq, if_pos hpost]
      simp [hparse, hconv]
    · rw [tempHandler_eq, if_pos hpost]
      simp [hparse, hconv]
  obtain ⟨h1, h2, h3, h4, h5⟩ := resultHTML_spec (handler r) hres.1
  refine ⟨hres.1, h1, ?_, h2, h3, h4, h5⟩
  intro x hx hrange
  rw [hres.2, hx, round_fin_in_range x hrange]
  exact ⟨_, rfl⟩

/-- C14, amended, at a concrete input: for 100 meter in kilometer the result is finite
and is written with six digits after the dot. -/
theorem result_page_witness :
    ∃ (neg : Bool) (ip fp : List Char), ip ≠ [] ∧ (∀ c ∈ ip, isDigit c = true) ∧
      (∀ c ∈ fp, isDigit c = true) ∧ fp.length = 6 ∧
      htmlEscaper (FormatFloat (lengthHandler
        ⟨"POST", [("value", "100"), ("from", "meter"), ("to", "kilometer")]⟩).Result 6) =
        ⟨(if neg = true then ['-'] else []) ++ ip ++ '.' :: fp⟩ :=
  (result_page.1 ⟨"POST", [("value", "100"), ("from", "meter"), ("to", "kilometer")]⟩
    lengthHandler convertLength "meter" "kilometer" (by simp) rfl
    (by rw [length_example_view.1])
    (by
      rw [length_example_view.1]
      have h1 : selectedOrDefault
          ⟨"POST", [("value", "100"), ("from", "meter"), ("to", "kilometer")]⟩ "from" "meter" =
          "meter" := by decide
      have h2 : selectedOrDefault
          ⟨"POST", [("value", "100"), ("from", "meter"), ("to", "kilometer")]⟩ "to"
          "kilometer" = "kilometer" := by decide
      rw [h1, h2, length_example_view.2.1])).2.2.2.1 (1 / 10)
    (by rw [length_example_view.2.2])

/-! ### C15 -/

/-- C15: for each handler and every request, whatever its method and whether or not its
input is valid, the view echoes the request: Value is the submitted `value` text as it
was sent, Active is the handler's category name, and Units is the category's unit
list. -/
theorem handlers_echo_request (r : Request) (handler : Request → viewData)
    (active : String) (units : List String)
    (hcat : (handler, active, units) ∈
      [(lengthHandler, "length",
         ["millimeter", "centimeter", "meter", "kilometer", "inch", "foot", "yard", "mile"]),
       (weightHandler, "weight", ["milligram", "gram", "kilogram", "ounce", "pound"]),
       (tempHandler, "temperature", ["Celsius", "Fahrenheit", "Kelvin"])]) :
    (handler r).Value = r.FormValue "value" ∧
    (∀ v, r.Form.lookup "value" = some v → (handler r).Value = v) ∧
    (handler r).Active = active ∧ (handler r).Units = units := by
  have hval : ∀ v, r.Form.lookup "value" = some v → r.FormValue "value" = v := by
    intro v hv
    simp [Request.FormValue, hv]
  simp only [List.mem_cons, List.mem_singleton, List.not_mem_nil, or_false,
    Prod.mk.injEq] at hcat
  rcases hcat with ⟨rfl, rfl, rfl⟩ | ⟨rfl, rfl, rfl⟩ | ⟨rfl, rfl, rfl⟩
  · obtain ⟨h1, h2, -, -, h5⟩ := lengthHandler_echo r
    exact ⟨h2, fun v hv => by rw [h2, hval v hv], h5, h1⟩
  · obtain ⟨h1, h2, -, -, h5⟩ := weightHandler_echo r
    exact ⟨h2, fun v hv => by rw [h2, hval v hv], h5, h1⟩
  · obtain ⟨h1, h2, -, -, h5⟩ := tempHandler_echo r
    exact ⟨h2, fun v hv => by rw [h2, hval v hv], h5, h1⟩

/-- C15 at a concrete input: an invalid value with spaces and commas is echoed as it was
sent. -/
theorem handlers_echo_request_witness :
    (lengthHandler ⟨"POST", [("value", " 1,0x,0 ")]⟩).Value = " 1,0x,0 " ∧
      (lengthHandler ⟨"POST", [("value", " 1,0x,0 ")]⟩).Active = "length" :=
  ⟨(handlers_echo_request ⟨"POST", [("value", " 1,0x,0 ")]⟩ lengthHandler "length"
      lengthUnits (by simp [lengthUnits])).2.1 " 1,0x,0 " (by decide),
    (handlers_echo_request ⟨"POST", [("value", " 1,0x,0 ")]⟩ lengthHandler "length"
      lengthUnits (by simp [lengthUnits])).2.2.1⟩

/-! ### C16 -/

/-- C16, as stated, fails in every category.  In `float64` arithmetic 3 centimeter in
inch and on to millimeter is 29.999999999999996 while 3 centimeter in millimeter is 30;
17 milligram in gram and on to kilogram is 1.7000000000000003e-05 while 17 milligram in
kilogram is 1.7e-05; 1 Celsius in Fahrenheit and on to Celsius is 0.9999999999999984 while
1 Celsius in Celsius is 1; and 1e305 kilometer in millimeter is the positive infinity, and
so is its conversion on to kilometer, while 1e305 kilometer in kilometer is finite. -/
theorem convert_compose_not_exact :
    (convertLength 3 "centimeter" "inch" = (F64.fin (5319212158311609 / 2 ^ 52), "") ∧
      convertLength (F64.fin (5319212158311609 / 2 ^ 52)) "inch" "millimeter" =
        (F64.fin (8444249301319679 / 2 ^ 48), "") ∧
      convertLength 3 "centimeter" "millimeter" = (F64.fin 30, "") ∧
      (8444249301319679 / 2 ^ 48 : ℚ) ≠ 30) ∧
    (convertWeight 17 "milligram" "gram" = (F64.fin (1224979098644775 / 2 ^ 56), "") ∧
      convertWeight (F64.fin (1224979098644775 / 2 ^ 56)) "gram" "kilogram" =
        (F64.fin (5017514388048999 / 2 ^ 68), "") ∧
      convertWeight 17 "milligram" "kilogram" = (F64.fin (2508757194024499 / 2 ^ 67), "") ∧
      (5017514388048999 / 2 ^ 68 : ℚ) ≠ 2508757194024499 / 2 ^ 67) ∧
    (convertTemp 1 "Celsius" "Fahrenheit" = (F64.fin (2378463553205043 / 2 ^ 46), "") ∧
      convertTemp (F64.fin (2378463553205043 / 2 ^ 46)) "Fahrenheit" "Celsius" =
        (F64.fin (4503599627370489 / 2 ^ 52), "") ∧
      convertTemp 1 "Celsius" "Celsius" = (F64.fin 1, "") ∧
      (4503599627370489 / 2 ^ 52 : ℚ) ≠ 1) ∧
    (convertLength 1e305 "kilometer" "millimeter" = (F64.inf false, "") ∧
      convertLength (F64.inf false) "millimeter" "kilometer" = (F64.inf false, "") ∧
      convertLength 1e305 "kilometer" "kilometer" =
        (F64.fin (2565335500811485 * 2 ^ 962), "")) := by
  refine ⟨⟨three_centimeter_in_inch, three_centimeter_in_inch_in_millimeter,
      three_centimeter_in_millimeter, by norm_num⟩,
    ⟨milligram_17_in_gram, milligram_17_in_gram_in_kilogram, milligram_17_in_kilogram,
      by norm_num⟩,
    ⟨one_celsius_in_fahrenheit, one_celsius_in_fahrenheit_back, ?_, by norm_num⟩,
    huge_kilometer_in_millimeter, ?_, huge_kilometer_in_kilometer⟩
  · rw [convertTemp_of_mem _ _ _ (by simp) (by simp), toCelsius_celsius, fromCelsius_celsius,
      F64.one_eq]
  · exact convertLength_nonfinite _ (fun x h => by cases h) _ _ (by simp) (by simp)

/-- C16, amended: for each of the three converters, every value and all units a, b, c of
the category, converting from a to b, converting the result from b to c, and converting
from a to c directly all report no error.  For a finite value of magnitude at most
`2 ^ 900` the two results are finite and close to each other: within the relative error
`2 ^ -49` (plus `2 ^ -1000`) for lengths and weights, within `(|v| + 300) * 2 ^ -43` for
temperatures.  For an infinite value and for NaN the two results are the same. -/
theorem convert_compose (v : F64) (a b c : String) :
    (a ∈ ["millimeter", "centimeter", "meter", "kilometer", "inch", "foot", "yard", "mile"] →
      b ∈ ["millimeter", "centimeter", "meter", "kilometer", "inch", "foot", "yard", "mile"] →
      c ∈ ["millimeter", "centimeter", "meter", "kilometer", "inch", "foot", "yard", "mile"] →
      ((convertLength v a b).2 = "" ∧ (convertLength (convertLength v a b).1 b c).2 = "" ∧
        (convertLength v a c).2 = "") ∧
      (∀ x : ℚ, v = F64.fin x → |x| ≤ 2 ^ 900 →
        ∃ w1 w2 : ℚ, convertLength (convertLength v a b).1 b c = (F64.fin w1, "") ∧
          convertLength v a c = (F64.fin w2, "") ∧
          |w1 - w2| ≤ |w2| / 2 ^ 49 + 1 / 2 ^ 1000) ∧
      ((∀ x : ℚ, v ≠ F64.fin x) →
        convertLength (convertLength v a b).1 b c = convertLength v a c)) ∧
    (a ∈ ["milligram", "gram", "kilogram", "ounce", "pound"] →
      b ∈ ["milligram", "gram", "kilogram", "ounce", "pound"] →
      c ∈ ["milligram", "gram", "kilogram", "ounce", "pound"] →
      ((convertWeight v a b).2 = "" ∧ (convertWeight (convertWeight v a b).1 b c).2 = "" ∧
        (convertWeight v a c).2 = "") ∧
      (∀ x : ℚ, v = F64.fin x → |x| ≤ 2 ^ 900 →
        ∃ w1 w2 : ℚ, convertWeight (convertWeight v a b).1 b c = (F64.fin w1, "") ∧
          convertWeight v a c = (F64.fin w2, "") ∧
          |w1 - w2| ≤ |w2| / 2 ^ 49 + 1 / 2 ^ 1000) ∧
      ((∀ x : ℚ, v ≠ F64.fin x) →
        convertWeight (convertWeight v a b).1 b c = convertWeight v a c)) ∧
    (a ∈ ["Celsius", "Fahrenheit", "Kelvin"] → b ∈ ["Celsius", "Fahrenheit", "Kelvin"] →
      c ∈ ["Celsius", "Fahrenheit", "Kelvin"] →
      ((convertTemp v a b).2 = "" ∧ (convertTemp (convertTemp v a b).1 b c).2 = "" ∧
        (convertTemp v a c).2 = "") ∧
      (∀ x : ℚ, v = F64.fin x → |x| ≤ 2 ^ 900 →
        ∃ w1 w2 : ℚ, convertTemp (convertTemp v a b).1 b c = (F64.fin w1, "") ∧
          convertTemp v a c = (F64.fin w2, "") ∧
          |w1 - w2| ≤ (|x| + 300) / 2 ^ 43) ∧
      ((∀ x : ℚ, v ≠ F64.fin x) →
        convertTemp (convertTemp v a b).1 b c = convertTemp v a c)) := by
  refine ⟨?_, ?_, ?_⟩
  · intro ha hb hc
    obtain ⟨p, q, ⟨hp1, hp2⟩, ⟨hq1, hq2⟩, ea, eb, e1⟩ := convertLength_of_index a b ha hb
    obtain ⟨p', r, -, ⟨hr1, -⟩, ea', ec, e2⟩ := convertLength_of_index a c ha hc
    obtain ⟨q', r', -, -, eb', ec', e3⟩ := convertLength_of_index b c hb hc
    have hpp : p' = p := by
      rw [ea] at ea'
      simpa using ea'.symm
    have hqq : q' = q := by
      rw [eb] at eb'
      simpa using eb'.symm
    have hrr : r' = r := by
      rw [ec] at ec'
      simpa using ec'.symm
    subst hpp hqq hrr
    refine ⟨⟨by rw [e1], by rw [e3], by rw [e2]⟩, ?_, ?_⟩
    · intro x hv hx
      subst hv
      obtain ⟨w1, w2, w3, h1, h2, h3, e⟩ :=
        F64.scale_compose x p' q' r' hp1 hp2 hq1 hq2 hr1 hx
      refine ⟨w2, w3, ?_, ?_, e⟩
      · rw [e1, h1, e3, h2]
      · rw [e2, h3]
    · intro hv
      rw [convertLength_nonfinite v hv a b ha hb, convertLength_nonfinite v hv b c hb hc,
        convertLength_nonfinite v hv a c ha hc]
  · intro ha hb hc
    obtain ⟨p, q, ⟨hp1, hp2⟩, ⟨hq1, hq2⟩, ea, eb, e1⟩ := convertWeight_of_index a b ha hb
    obtain ⟨p', r, -, ⟨hr1, -⟩, ea', ec, e2⟩ := convertWeight_of_index a c ha hc
    obtain ⟨q', r', -, -, eb', ec', e3⟩ := convertWeight_of_index b c hb hc
    have hpp : p' = p := by
      rw [ea] at ea'
      simpa using ea'.symm
    have hqq : q' = q := by
      rw [eb] at eb'
      simpa using eb'.symm
    have hrr : r' = r := by
      rw [ec] at ec'
      simpa using ec'.symm
    subst hpp hqq hrr
    refine ⟨⟨by rw [e1], by rw [e3], by rw [e2]⟩, ?_, ?_⟩
    · intro x hv hx
      subst hv
      obtain ⟨w1, w2, w3, h1, h2, h3, e⟩ :=
        F64.scale_compose x p' q' r' hp1 hp2 hq1 hq2 hr1 hx
      refine ⟨w2, w3, ?_, ?_, e⟩
      · rw [e1, h1, e3, h2]
      · rw [e2, h3]
    · intro hv
      rw [convertWeight_nonfinite v hv a b ha hb, convertWeight_nonfinite v hv b c hb hc,
        convertWeight_nonfinite v hv a c ha hc]
  · intro ha hb hc
    refine ⟨⟨by rw [convertTemp_of_mem v a b ha hb], by rw [convertTemp_of_mem _ b c hb hc],
      by rw [convertTemp_of_mem v a c ha hc]⟩, ?_, ?_⟩
    · intro x hv hx
      subst hv
      obtain ⟨w1, w2, h1, h2, e12⟩ := convertTemp_twice_approx a b c ha hb hc x hx
      obtain ⟨w3, h3, e3, -⟩ := convertTemp_approx a c ha hc x x 0 |x| (by simp) le_rfl
        (div_nonneg (add_nonneg (abs_nonneg x) (by norm_num)) (by norm_num))
        (le_trans hx (pow_le_pow_right₀ (by norm_num) (by norm_num)))
      refine ⟨w2, w3, by rw [h1, h2], h3, ?_⟩
      clear hx h1 h2 h3
      have hA := abs_nonneg x
      have h := abs_sub_le w2 (exactFromCelsius (exactToCelsius x a) c) w3
      rw [abs_sub_comm (exactFromCelsius (exactToCelsius x a) c) w3] at h
      have e4 : (|x| + 300) / 2 ^ 43 = (|x| + 300) / 2 ^ 44 + 8 * ((|x| + 300) / 2 ^ 47) := by
        ring
      have e5 : (0 : ℚ) ≤ (|x| + 300) / 2 ^ 47 :=
        div_nonneg (add_nonneg hA (by norm_num)) (by norm_num)
      linarith
    · intro hv
      rw [convertTemp_nonfinite v hv a b ha hb, convertTemp_nonfinite v hv b c hb hc,
        convertTemp_nonfinite v hv a c ha hc]

/-- C16, amended, at a concrete input: 2 miles in yards and on to feet against 2 miles in
feet. -/
theorem convert_compose_witness :
    ∃ w1 w2 : ℚ, convertLength (convertLength (F64.fin 2) "mile" "yard").1 "yard" "foot" =
        (F64.fin w1, "") ∧
      convertLength (F64.fin 2) "mile" "foot" = (F64.fin w2, "") ∧
      |w1 - w2| ≤ |w2| / 2 ^ 49 + 1 / 2 ^ 1000 :=
  ((convert_compose (F64.fin 2) "mile" "yard" "foot").1 (by simp) (by simp) (by simp)).2.1 2 rfl
    (le_trans (by rw [abs_of_pos] <;> norm_num) (pow_le_pow_right₀ (by norm_num : (1 : ℚ) ≤ 2)
      (by norm_num : 1 ≤ 900)))

/-! ### C17 -/

/-- C17, as stated, fails.  In `float64` arithmetic 17 milligram in gram and back is
17.000000000000004; 1 Celsius in Fahrenheit and back is 0.9999999999999984, which is also
what the to-Celsius stage gives on the from-Celsius stage of 1 for Fahrenheit; the
from-Celsius stage on the to-Celsius stage of 0.1 for Kelvin gives 0.10000000000002274;
and 1e305 kilogram in milligram overflows to the positive infinity. -/
theorem weight_temp_round_trip_not_exact :
    (convertWeight 17 "milligram" "gram" = (F64.fin (1224979098644775 / 2 ^ 56), "") ∧
      convertWeight (F64.fin (1224979098644775 / 2 ^ 56)) "gram" "milligram" =
        (F64.fin (4785074604081153 / 2 ^ 48), "") ∧
      (4785074604081153 / 2 ^ 48 : ℚ) ≠ 17) ∧
    (convertTemp 1 "Celsius" "Fahrenheit" = (F64.fin (2378463553205043 / 2 ^ 46), "") ∧
      convertTemp (F64.fin (2378463553205043 / 2 ^ 46)) "Fahrenheit" "Celsius" =
        (F64.fin (4503599627370489 / 2 ^ 52), "") ∧
      toCelsius (fromCelsius 1 "Fahrenheit").1 "Fahrenheit" =
        (F64.fin (4503599627370489 / 2 ^ 52), "") ∧
      (4503599627370489 / 2 ^ 52 : ℚ) ≠ 1) ∧
    (fromCelsius (toCelsius 0.1 "Kelvin").1 "Kelvin" = (F64.fin (879609302221 / 2 ^ 43), "") ∧
      (0.1 : F64) = F64.fin (3602879701896397 / 2 ^ 55) ∧
      (879609302221 / 2 ^ 43 : ℚ) ≠ 3602879701896397 / 2 ^ 55) ∧
    (convertWeight 1e305 "kilogram" "milligram" = (F64.inf false, "") ∧
      convertWeight (F64.inf false) "milligram" "kilogram" = (F64.inf false, "") ∧
      (1e305 : F64) = F64.fin (2565335500811485 * 2 ^ 962)) := by
  refine ⟨⟨milligram_17_in_gram, milligram_17_in_gram_back, by norm_num⟩,
    ⟨one_celsius_in_fahrenheit, one_celsius_in_fahrenheit_back, ?_, by norm_num⟩,
    ⟨?_, F64.literal_0_1, by norm_num⟩,
    huge_kilogram_in_milligram, ?_, F64.literal_1e305⟩
  · have h1 := one_celsius_in_fahrenheit
    have h2 := one_celsius_in_fahrenheit_back
    rw [convertTemp_of_mem _ _ _ (by simp) (by simp), toCelsius_celsius] at h1
    rw [convertTemp_of_mem _ _ _ (by simp) (by simp), fromCelsius_celsius] at h2
    have h3 : (fromCelsius 1 "Fahrenheit").1 = F64.fin (2378463553205043 / 2 ^ 46) :=
      (Prod.mk.inj h1).1
    have h4 : (toCelsius (F64.fin (2378463553205043 / 2 ^ 46)) "Fahrenheit").1 =
        F64.fin (4503599627370489 / 2 ^ 52) := (Prod.mk.inj h2).1
    rw [h3]
    exact Prod.ext h4 (toCelsius_ok _ _ (by simp))
  · have h1 := tenth_kelvin_in_kelvin
    rw [convertTemp_of_mem _ _ _ (by simp) (by simp)] at h1
    exact Prod.ext (Prod.mk.inj h1).1 (fromCelsius_ok _ _ (by simp))
  · exact convertWeight_nonfinite _ (fun x h => by cases h) _ _ (by simp) (by simp)

/-- C17, amended: for every pair of units of the weight table and every finite value of
magnitude at most `2 ^ 900`, converting the value and converting the result back returns no
error and a finite number within the relative error `2 ^ -50` (plus `2 ^ -1000`) of the
value; for every pair of units among Celsius, Fahrenheit and Kelvin, `convertTemp` there and
back returns no error and a finite number within `(|v| + 300) * 2 ^ -44` of the value; and
for each temperature unit the from-Celsius stage on the result of the to-Celsius stage, and
the to-Celsius stage on the result of the from-Celsius stage, return a finite number within
`(|v| + 300) * 2 ^ -47` of the value.  An infinite value and NaN are returned as they
are. -/
theorem weight_temp_round_trip (a b : String) :
    (a ∈ ["milligram", "gram", "kilogram", "ounce", "pound"] →
      b ∈ ["milligram", "gram", "kilogram", "ounce", "pound"] →
      (∀ (x : ℚ) (r : F64), |x| ≤ 2 ^ 900 → convertWeight (F64.fin x) a b = (r, "") →
        ∃ w : ℚ, convertWeight r b a = (F64.fin w, "") ∧
          |w - x| ≤ |x| / 2 ^ 50 + 1 / 2 ^ 1000) ∧
      (∀ v r : F64, (∀ x : ℚ, v ≠ F64.fin x) → convertWeight v a b = (r, "") →
        convertWeight r b a = (v, ""))) ∧
    (a ∈ ["Celsius", "Fahrenheit", "Kelvin"] → b ∈ ["Celsius", "Fahrenheit", "Kelvin"] →
      (∀ (x : ℚ) (r : F64), |x| ≤ 2 ^ 900 → convertTemp (F64.fin x) a b = (r, "") →
        ∃ w : ℚ, convertTemp r b a = (F64.fin w, "") ∧ |w - x| ≤ (|x| + 300) / 2 ^ 44) ∧
      (∀ v r : F64, (∀ x : ℚ, v ≠ F64.fin x) → convertTemp v a b = (r, "") →
        convertTemp r b a = (v, ""))) ∧
    (a ∈ ["Celsius", "Fahrenheit", "Kelvin"] →
      ∀ x : ℚ, |x| ≤ 2 ^ 900 →
        (∃ w : ℚ, fromCelsius (toCelsius (F64.fin x) a).1 a = (F64.fin w, "") ∧
          |w - x| ≤ (|x| + 300) / 2 ^ 47) ∧
        (∃ w : ℚ, toCelsius (fromCelsius (F64.fin x) a).1 a = (F64.fin w, "") ∧
          |w - x| ≤ (|x| + 300) / 2 ^ 47)) := by
  refine ⟨?_, ?_, ?_⟩
  · intro ha hb
    constructor
    · intro x r hx h
      obtain ⟨p, q, ⟨hp1, hp2⟩, ⟨hq1, hq2⟩, ea, eb, e1⟩ := convertWeight_of_index a b ha hb
      obtain ⟨q', p', -, -, eb', ea', e2⟩ := convertWeight_of_index b a hb ha
      have hpp : p' = p := by
        rw [ea] at ea'
        simpa using ea'.symm
      have hqq : q' = q := by
        rw [eb] at eb'
        simpa using eb'.symm
      subst hpp hqq
      obtain ⟨r1, w, h1, h2, e⟩ := F64.scale_round_trip x p' q' hp1 hp2 hq1 hq2 hx
      rw [e1, h1] at h
      have hr : r = F64.fin r1 := (Prod.mk.inj h).1.symm
      refine ⟨w, ?_, e⟩
      rw [hr, e2, h2]
    · intro v r hv h
      rw [convertWeight_nonfinite v hv a b ha hb] at h
      have hr : r = v := (Prod.mk.inj h).1.symm
      rw [hr]
      exact convertWeight_nonfinite v hv b a hb ha
  · intro ha hb
    constructor
    · intro x r hx h
      obtain ⟨w1, w2, h1, h2, e⟩ := convertTemp_twice_approx a b a ha hb ha x hx
      rw [h1] at h
      have hr : r = F64.fin w1 := (Prod.mk.inj h).1.symm
      rw [exactFromCelsius_exactToCelsius _ a ha] at e
      exact ⟨w2, by rw [hr, h2], e⟩
    · intro v r hv h
      rw [convertTemp_nonfinite v hv a b ha hb] at h
      have hr : r = v := (Prod.mk.inj h).1.symm
      rw [hr]
      exact convertTemp_nonfinite v hv b a hb ha
  · intro ha x hx
    have hA := abs_nonneg x
    have hx2 : |x| ≤ 2 ^ 990 := le_trans hx (pow_le_pow_right₀ (by norm_num) (by norm_num))
    have hM : 2 * |x| + 300 ≤ 2 ^ 990 := by
      have h1 : 2 * |x| + 300 ≤ 2 * 2 ^ 900 + 300 := by linarith
      have h2 : (2 : ℚ) * 2 ^ 900 + 300 ≤ 2 ^ 902 := by
        have : (300 : ℚ) ≤ 2 ^ 900 := le_trans (by norm_num : (300 : ℚ) ≤ 2 ^ 9)
          (pow_le_pow_right₀ (by norm_num) (by norm_num))
        have e : (2 : ℚ) ^ 902 = 4 * 2 ^ 900 := by ring
        linarith
      exact le_trans h1 (le_trans h2 (pow_le_pow_right₀ (by norm_num) (by norm_num)))
    have hB : (0 : ℚ) ≤ (|x| + 300) / 2 ^ 49 :=
      div_nonneg (add_nonneg hA (by norm_num)) (by norm_num)
    have hE : 2 * 0 + (|x| + 300) / 2 ^ 49 ≤ 2 * |x| + 300 + 300 := by
      clear hx hx2 hM
      have : (|x| + 300) / 2 ^ 49 ≤ (|x| + 300) / 1 := by
        apply div_le_div_of_nonneg_left (by linarith) (by norm_num) (by norm_num)
      linarith
    have hfin : (2 * (2 * 0 + (|x| + 300) / 2 ^ 49) + (2 * |x| + 300 + 300) / 2 ^ 49 : ℚ) =
        (|x| + 300) / 2 ^ 47 := by ring
    constructor
    · obtain ⟨z, hz, ez, mz⟩ := toCelsius_approx a ha x x 0 |x| (by simp) le_rfl
        (add_nonneg hA (by norm_num)) hx2
      obtain ⟨w, hw, ew, -⟩ := fromCelsius_approx a ha z (exactToCelsius x a)
        (2 * 0 + (|x| + 300) / 2 ^ 49) (2 * |x| + 300) ez mz hE hM
      rw [exactFromCelsius_exactToCelsius _ a ha, hfin] at ew
      exact ⟨w, by rw [hz, hw], ew⟩
    · obtain ⟨z, hz, ez, mz⟩ := fromCelsius_approx a ha x x 0 |x| (by simp) le_rfl
        (add_nonneg hA (by norm_num)) hx2
      obtain ⟨w, hw, ew, -⟩ := toCelsius_approx a ha z (exactFromCelsius x a)
        (2 * 0 + (|x| + 300) / 2 ^ 49) (2 * |x| + 300) ez mz hE hM
      rw [exactToCelsius_exactFromCelsius _ a ha, hfin] at ew
      exact ⟨w, by rw [hz, hw], ew⟩

/-- C17, amended, at a concrete input: 1 Celsius in Fahrenheit and back is within the
stated error of 1. -/
theorem weight_temp_round_trip_witness :
    ∃ w : ℚ, convertTemp (F64.fin (2378463553205043 / 2 ^ 46)) "Fahrenheit" "Celsius" =
        (F64.fin w, "") ∧ |w - 1| ≤ (|(1 : ℚ)| + 300) / 2 ^ 44 :=
  ((weight_temp_round_trip "Celsius" "Fahrenheit").2.1 (by simp) (by simp)).1 1
    (F64.fin (2378463553205043 / 2 ^ 46))
    (by rw [abs_one]; exact one_le_pow₀ (by norm_num))
    (by
      have h := one_celsius_in_fahrenheit
      rw [F64.one_eq] at h
      exact h)

/-! ### C18 -/

end UnitConverter
